import Mathlib

/-!
# ArtraCFD `cfd_commons.c`: characteristic decomposition and flux kernel

A shallow embedding of the Euler-equation kernel of `src/cfd_commons.c`
(state conversion, Roe averaging, eigenstructure, characteristic projection,
flux vector splitting, raw convective flux) in exact arithmetic, followed by
theorems about it.

Arithmetic model.  A C `Real` is modelled by `CReal K` over an ordered field
`K`: `fin x` is the finite real `x`, `undef` stands for any non-finite result.
`+`, `-`, `*`, `fabs` are exact on finite operands; `/` is undefined for a zero
divisor and `sqrt` for a negative argument; `undef` is absorbing.  Rounding and
overflow of reals are not modelled.  The theorems instantiate `K` at `ℝ` and the
library square root at `Real.sqrt`.

Integer model.  `IndexMath` is computed in 32-bit C `int` arithmetic: each of its
operations is followed by the two's-complement wrap `wrapInt`.  The kernel routines
address the array at `IndexMath * DIMU + m`; these offsets are written as exact
integers, and `offset_exact` shows that they are the machine offsets whenever five
times the number of nodes fits a C `int`.
-/

namespace ArtraCFD

/-! ## The type of C reals -/

/-- A value of the C type `Real` in exact arithmetic. -/
inductive CReal (K : Type) where
  | fin : K → CReal K
  | undef : CReal K
  deriving DecidableEq, Repr

namespace CReal

variable {K : Type}

/-- Lift of a binary field operation; `undef` is absorbing. -/
def map₂ (f : K → K → K) : CReal K → CReal K → CReal K
  | fin a, fin b => fin (f a b)
  | _, _ => undef

/-- Division `a / b` of C reals: undefined when the divisor is zero. -/
def cdiv [Div K] [Zero K] [DecidableEq K] : CReal K → CReal K → CReal K
  | fin a, fin b => if b = 0 then undef else fin (a / b)
  | _, _ => undef

/-- The library function `sqrt` of `math.h`, over a square-root function `sqrtK` of
the field: undefined for a negative argument. -/
@[noinline] def sqrt [Zero K] [LT K] [DecidableRel (fun a b : K => a < b)] (sqrtK : K → K) :
    CReal K → CReal K
  | fin a => if a < 0 then undef else fin (sqrtK a)
  | undef => undef

/-- The library function `fabs` of `math.h`. -/
@[noinline] def fabs [Lattice K] [AddGroup K] : CReal K → CReal K
  | fin a => fin |a|
  | undef => undef

@[noinline] instance [Add K] : Add (CReal K) := ⟨map₂ (fun a b => a + b)⟩
@[noinline] instance [Sub K] : Sub (CReal K) := ⟨map₂ (fun a b => a - b)⟩
@[noinline] instance [Mul K] : Mul (CReal K) := ⟨map₂ (fun a b => a * b)⟩
@[noinline] instance [Div K] [Zero K] [DecidableEq K] : Div (CReal K) := ⟨cdiv⟩
@[noinline] instance [Neg K] : Neg (CReal K) :=
  ⟨fun x => match x with
    | fin a => fin (-a)
    | undef => undef⟩
@[noinline] instance [Zero K] : OfNat (CReal K) 0 := ⟨fin 0⟩
@[noinline] instance [One K] : OfNat (CReal K) 1 := ⟨fin 1⟩
@[noinline] instance [OfNat K 2] : OfNat (CReal K) 2 := ⟨fin 2⟩
@[noinline] instance [OfScientific K] : OfScientific (CReal K) :=
  ⟨fun m s e => fin (OfScientific.ofScientific m s e)⟩
instance : Coe K (CReal K) := ⟨fin⟩
instance : Inhabited (CReal K) := ⟨undef⟩

/-- A C real is positive when it is finite and positive. -/
def pos [Zero K] [LT K] : CReal K → Prop
  | fin a => 0 < a
  | undef => False

instance [Zero K] [LT K] [DecidableRel (fun a b : K => a < b)] (x : CReal K) :
    Decidable (pos x) := by
  cases x <;> unfold pos <;> infer_instance

end CReal

open CReal

/-! ## Constants, model and grid

`commons.h` is not part of the sources at hand; the constants it declares are
fixed here. -/

/-- Modelled from the spec: the number of space dimensions `DIMS` of `commons.h`. -/
abbrev DIMS : Nat := 3
/-- Modelled from the spec: the length `DIMU` of a conservative vector (stride 5). -/
abbrev DIMU : Nat := 5
/-- Modelled from the spec: the length `DIMUo` of a primitive vector (6 reals). -/
abbrev DIMUo : Nat := 6
/-- Modelled from the spec: the direction index `X` of `commons.h` (first entry of the
dispatch tables and of the direction indicator). -/
abbrev X : Fin DIMS := 0
/-- Modelled from the spec: the direction index `Y` of `commons.h`. -/
abbrev Y : Fin DIMS := 1
/-- Modelled from the spec: the direction index `Z` of `commons.h`. -/
abbrev Z : Fin DIMS := 2

/-- The fields of `Model` read by the kernel. -/
structure Model (K : Type) where
  gamma : K
  gasR : K
  cv : K

/-- The fields of `Space` read by `IndexMath`. -/
structure Space where
  jMax : Int
  iMax : Int

/-- The flattened array of conservative variables, addressed by a C `int`. -/
abbrev Grid (K : Type) := Int → CReal K

variable {K : Type} [LinearOrderedField K]

/-- The value of a C `int` expression whose exact value is `n`: the 32-bit two's-complement
wrap performed by the compiled code (the C standard leaves signed overflow undefined). -/
def wrapInt (n : Int) : Int :=
  (n + 2147483648) % 4294967296 - 2147483648

/-- `IndexMath` of `cfd_commons.c`: `(k * jMax + j) * iMax + i`, each of the four operations
in C `int` arithmetic. -/
def IndexMath (k j i : Int) (space : Space) : Int :=
  wrapInt (wrapInt (wrapInt (wrapInt (k * space.jMax) + j) * space.iMax) + i)

/-! ## State conversion -/

/-- `PrimitiveByConservative` of `cfd_commons.c`: the six slots written into `Uo`. -/
def PrimitiveByConservative (idx : Int) (U : Grid K) (model : Model K) : Fin DIMUo → CReal K :=
  let Uo0 := U idx
  let Uo1 := U (idx+1) / U idx
  let Uo2 := U (idx+2) / U idx
  let Uo3 := U (idx+3) / U idx
  let Uo4 := (U (idx+4) - 0.5 * (U (idx+1) * U (idx+1) + U (idx+2) * U (idx+2)
      + U (idx+3) * U (idx+3)) / U idx) * (fin model.gamma - 1.0)
  let Uo5 := Uo4 / (Uo0 * fin model.gasR)
  ![Uo0, Uo1, Uo2, Uo3, Uo4, Uo5]

/-- `ConservativeByPrimitive` of `cfd_commons.c`: the array `U` after the five writes. -/
def ConservativeByPrimitive (U : Grid K) (idx : Int) (Uo : Fin DIMUo → CReal K)
    (model : Model K) : Grid K :=
  let U1 := Function.update U idx (Uo 0)
  let U2 := Function.update U1 (idx+1) (Uo 0 * Uo 1)
  let U3 := Function.update U2 (idx+2) (Uo 0 * Uo 2)
  let U4 := Function.update U3 (idx+3) (Uo 0 * Uo 3)
  Function.update U4 (idx+4)
    (0.5 * Uo 0 * (Uo 1 * Uo 1 + Uo 2 * Uo 2 + Uo 3 * Uo 3) + Uo 4 / (fin model.gamma - 1.0))

/-- `ComputePressure` of `cfd_commons.c`. -/
def ComputePressure (idx : Int) (U : Grid K) (model : Model K) : CReal K :=
  (U (idx+4) - 0.5 * (U (idx+1) * U (idx+1) + U (idx+2) * U (idx+2)
    + U (idx+3) * U (idx+3)) / U idx) * (fin model.gamma - 1.0)

/-- `ComputeTemperature` of `cfd_commons.c`. -/
def ComputeTemperature (idx : Int) (U : Grid K) (model : Model K) : CReal K :=
  (U (idx+4) - 0.5 * (U (idx+1) * U (idx+1) + U (idx+2) * U (idx+2)
    + U (idx+3) * U (idx+3)) / U idx) / (U idx * fin model.cv)

/-- Admissible node: density finite and positive, pressure finite and positive. -/
def Admissible (U : Grid K) (idx : Int) (model : Model K) : Prop :=
  pos (U idx) ∧ pos (ComputePressure idx U model)

/-! ## Roe averaging -/

/-- `ComputeRoeAverage` of `cfd_commons.c`: the buffer `Uo` after the call (slot 0 is
not written). -/
def ComputeRoeAverage (sqrtK : K → K) (Uo : Fin DIMUo → CReal K) (idx idxh : Int)
    (U : Grid K) (model : Model K) : Fin DIMUo → CReal K :=
  let gamma : CReal K := fin model.gamma
  let rho := U idx
  let u := U (idx+1) / rho
  let v := U (idx+2) / rho
  let w := U (idx+3) / rho
  let hT := (U (idx+4) / rho) * gamma - 0.5 * (u * u + v * v + w * w) * (gamma - 1.0)
  let rho_h := U idxh
  let u_h := U (idxh+1) / rho_h
  let v_h := U (idxh+2) / rho_h
  let w_h := U (idxh+3) / rho_h
  let hT_h := (U (idxh+4) / rho_h) * gamma
    - 0.5 * (u_h * u_h + v_h * v_h + w_h * w_h) * (gamma - 1.0)
  let D := CReal.sqrt sqrtK (rho_h / rho)
  let Uo1 := (u + D * u_h) / (1.0 + D)
  let Uo2 := (v + D * v_h) / (1.0 + D)
  let Uo3 := (w + D * w_h) / (1.0 + D)
  let Uo4 := (hT + D * hT_h) / (1.0 + D)
  let Uo5 := CReal.sqrt sqrtK ((gamma - 1.0) * (Uo4 - 0.5 * (Uo1 * Uo1 + Uo2 * Uo2 + Uo3 * Uo3)))
  ![Uo 0, Uo1, Uo2, Uo3, Uo4, Uo5]

/-! ## Eigenstructure -/

/-- `EigenvaluesAndEigenvectorSpaceLZ` of `cfd_commons.c`: the pair `(lambda, L)`. -/
def EigenvaluesAndEigenvectorSpaceLZ (sqrtK : K → K) (k j i : Int) (U : Grid K)
    (space : Space) (model : Model K) :
    (Fin DIMU → CReal K) × (Fin DIMU → Fin DIMU → CReal K) :=
  let Uo := ComputeRoeAverage sqrtK (fun _ => 0.0) (IndexMath k j i space * DIMU)
    (IndexMath (k + 1) j i space * DIMU) U model
  let u := Uo 1
  let v := Uo 2
  let w := Uo 3
  let c := Uo 5
  let q := 0.5 * (u * u + v * v + w * w)
  let b := (fin model.gamma - 1.0) / (2.0 * c * c)
  let d := (1.0 / (2.0 * c))
  (![w - c, w, w, w, w + c],
   ![![b * q + d * w, -b * u, -b * v, -b * w - d, b],
     ![-2 * b * q * u, 2 * b * u * u + 1, 2 * b * v * u, 2 * b * w * u, -2 * b * u],
     ![-2 * b * q * v, 2 * b * v * u, 2 * b * v * v + 1, 2 * b * w * v, -2 * b * v],
     ![-2 * b * q + 1, 2 * b * u, 2 * b * v, 2 * b * w, -2 * b],
     ![b * q - d * w, -b * u, -b * v, -b * w + d, b]])

/-- `EigenvaluesAndEigenvectorSpaceLY` of `cfd_commons.c`: the pair `(lambda, L)`. -/
def EigenvaluesAndEigenvectorSpaceLY (sqrtK : K → K) (k j i : Int) (U : Grid K)
    (space : Space) (model : Model K) :
    (Fin DIMU → CReal K) × (Fin DIMU → Fin DIMU → CReal K) :=
  let Uo := ComputeRoeAverage sqrtK (fun _ => 0.0) (IndexMath k j i space * DIMU)
    (IndexMath k (j + 1) i space * DIMU) U model
  let u := Uo 1
  let v := Uo 2
  let w := Uo 3
  let c := Uo 5
  let q := 0.5 * (u * u + v * v + w * w)
  let b := (fin model.gamma - 1.0) / (2.0 * c * c)
  let d := (1.0 / (2.0 * c))
  (![v - c, v, v, v, v + c],
   ![![b * q + d * v, -b * u, -b * v - d, -b * w, b],
     ![-2 * b * q * u, 2 * b * u * u + 1, 2 * b * v * u, 2 * b * w * u, -2 * b * u],
     ![-2 * b * q + 1, 2 * b * u, 2 * b * v, 2 * b * w, -2 * b],
     ![-2 * b * q * w, 2 * b * w * u, 2 * b * w * v, 2 * b * w * w + 1, -2 * b * w],
     ![b * q - d * v, -b * u, -b * v + d, -b * w, b]])

/-- `EigenvaluesAndEigenvectorSpaceLX` of `cfd_commons.c`: the pair `(lambda, L)`. -/
def EigenvaluesAndEigenvectorSpaceLX (sqrtK : K → K) (k j i : Int) (U : Grid K)
    (space : Space) (model : Model K) :
    (Fin DIMU → CReal K) × (Fin DIMU → Fin DIMU → CReal K) :=
  let Uo := ComputeRoeAverage sqrtK (fun _ => 0.0) (IndexMath k j i space * DIMU)
    (IndexMath k j (i + 1) space * DIMU) U model
  let u := Uo 1
  let v := Uo 2
  let w := Uo 3
  let c := Uo 5
  let q := 0.5 * (u * u + v * v + w * w)
  let b := (fin model.gamma - 1.0) / (2.0 * c * c)
  let d := (1.0 / (2.0 * c))
  (![u - c, u, u, u, u + c],
   ![![b * q + d * u, -b * u - d, -b * v, -b * w, b],
     ![-2 * b * q + 1, 2 * b * u, 2 * b * v, 2 * b * w, -2 * b],
     ![-2 * b * q * v, 2 * b * v * u, 2 * b * v * v + 1, 2 * b * w * v, -2 * b * v],
     ![-2 * b * q * w, 2 * b * w * u, 2 * b * w * v, 2 * b * w * w + 1, -2 * b * w],
     ![b * q - d * u, -b * u + d, -b * v, -b * w, b]])

/-- `EigenvectorSpaceRZ` of `cfd_commons.c`: the matrix `R`. -/
def EigenvectorSpaceRZ (sqrtK : K → K) (k j i : Int) (U : Grid K)
    (space : Space) (model : Model K) : Fin DIMU → Fin DIMU → CReal K :=
  let Uo := ComputeRoeAverage sqrtK (fun _ => 0.0) (IndexMath k j i space * DIMU)
    (IndexMath (k + 1) j i space * DIMU) U model
  let u := Uo 1
  let v := Uo 2
  let w := Uo 3
  let hT := Uo 4
  let c := Uo 5
  let q := 0.5 * (u * u + v * v + w * w)
  ![![1, 0, 0, 1, 1],
    ![u, 1, 0, 0, u],
    ![v, 0, 1, 0, v],
    ![w - c, 0, 0, w, w + c],
    ![hT - w * c, u, v, w * w - q, hT + w * c]]

/-- `EigenvectorSpaceRY` of `cfd_commons.c`: the matrix `R`. -/
def EigenvectorSpaceRY (sqrtK : K → K) (k j i : Int) (U : Grid K)
    (space : Space) (model : Model K) : Fin DIMU → Fin DIMU → CReal K :=
  let Uo := ComputeRoeAverage sqrtK (fun _ => 0.0) (IndexMath k j i space * DIMU)
    (IndexMath k (j + 1) i space * DIMU) U model
  let u := Uo 1
  let v := Uo 2
  let w := Uo 3
  let hT := Uo 4
  let c := Uo 5
  let q := 0.5 * (u * u + v * v + w * w)
  ![![1, 0, 1, 0, 1],
    ![u, 1, 0, 0, u],
    ![v - c, 0, v, 0, v + c],
    ![w, 0, 0, 1, w],
    ![hT - v * c, u, v * v - q, w, hT + v * c]]

/-- `EigenvectorSpaceRX` of `cfd_commons.c`: the matrix `R`. -/
def EigenvectorSpaceRX (sqrtK : K → K) (k j i : Int) (U : Grid K)
    (space : Space) (model : Model K) : Fin DIMU → Fin DIMU → CReal K :=
  let Uo := ComputeRoeAverage sqrtK (fun _ => 0.0) (IndexMath k j i space * DIMU)
    (IndexMath k j (i + 1) space * DIMU) U model
  let u := Uo 1
  let v := Uo 2
  let w := Uo 3
  let hT := Uo 4
  let c := Uo 5
  let q := 0.5 * (u * u + v * v + w * w)
  ![![1, 1, 0, 0, 1],
    ![u - c, u, 0, 0, u + c],
    ![v, 0, 1, 0, v],
    ![w, 0, 0, 1, w],
    ![hT - u * c, u * u - q, v, w, hT + u * c]]

/-! ## Characteristic projection -/

/-- The direction indicator `h` of `FluxVectorSplitting` and
`EigenvaluesAndDecompositionCoefficientAlpha`. -/
def h : Fin DIMS → Fin DIMS → Int := ![![1, 0, 0], ![0, 1, 0], ![0, 0, 1]]

/-- `CalculateAlpha` of `cfd_commons.c`: each row starts from 0 and accumulates
`L[row][dummy] * deltaU[dummy]` for `dummy = 0, ..., 4` in that order. -/
def CalculateAlpha (L : Fin DIMU → Fin DIMU → CReal K) (deltaU : Fin DIMU → CReal K) :
    Fin DIMU → CReal K :=
  fun row => (List.finRange DIMU).foldl (fun acc dummy => acc + L row dummy * deltaU dummy) 0

/-- The dispatch table `ComputeEigenvaluesAndEigenvectorSpaceL`. -/
def ComputeEigenvaluesAndEigenvectorSpaceL (sqrtK : K → K) :
    Fin DIMS → Int → Int → Int → Grid K → Space → Model K →
      (Fin DIMU → CReal K) × (Fin DIMU → Fin DIMU → CReal K) :=
  ![EigenvaluesAndEigenvectorSpaceLX sqrtK,
    EigenvaluesAndEigenvectorSpaceLY sqrtK,
    EigenvaluesAndEigenvectorSpaceLZ sqrtK]

/-- `EigenvaluesAndDecompositionCoefficientAlpha` of `cfd_commons.c`: the pair
`(lambda, alpha)`. -/
def EigenvaluesAndDecompositionCoefficientAlpha (sqrtK : K → K) (s : Fin DIMS)
    (k j i : Int) (U : Grid K) (space : Space) (model : Model K) :
    (Fin DIMU → CReal K) × (Fin DIMU → CReal K) :=
  let idx := IndexMath k j i space * DIMU
  let idxh := IndexMath (k + h s Z) (j + h s Y) (i + h s X) space * DIMU
  let deltaU : Fin DIMU → CReal K :=
    ![U idxh - U idx,
      U (idxh+1) - U (idx+1),
      U (idxh+2) - U (idx+2),
      U (idxh+3) - U (idx+3),
      U (idxh+4) - U (idx+4)]
  let lamL := ComputeEigenvaluesAndEigenvectorSpaceL sqrtK s k j i U space model
  (lamL.1, CalculateAlpha lamL.2 deltaU)

/-! ## Flux vector splitting -/

/-- `AssembledFluxZ` of `cfd_commons.c`. -/
def AssembledFluxZ (lambda : Fin DIMU → CReal K) (Uo : Fin DIMUo → CReal K) (gamma : CReal K) :
    Fin DIMU → CReal K :=
  let F0 := Uo 0 * (lambda 0 + 2 * (gamma - 1) * lambda 3 + lambda 4)
  let F1 := F0 * Uo 1
  let F2 := F0 * Uo 2
  let F3 := F0 * Uo 3 + Uo 0 * Uo 5 * (lambda 4 - lambda 0)
  let F4 := F0 * 0.5 * (Uo 1 * Uo 1 + Uo 2 * Uo 2 + Uo 3 * Uo 3) +
    Uo 0 * (Uo 4 * (lambda 0 + lambda 4) + Uo 3 * Uo 5 * (lambda 4 - lambda 0))
  ![F0, F1, F2, F3, F4]

/-- `AssembledFluxY` of `cfd_commons.c`. -/
def AssembledFluxY (lambda : Fin DIMU → CReal K) (Uo : Fin DIMUo → CReal K) (gamma : CReal K) :
    Fin DIMU → CReal K :=
  let F0 := Uo 0 * (lambda 0 + 2 * (gamma - 1) * lambda 2 + lambda 4)
  let F1 := F0 * Uo 1
  let F2 := F0 * Uo 2 + Uo 0 * Uo 5 * (lambda 4 - lambda 0)
  let F3 := F0 * Uo 3
  let F4 := F0 * 0.5 * (Uo 1 * Uo 1 + Uo 2 * Uo 2 + Uo 3 * Uo 3) +
    Uo 0 * (Uo 4 * (lambda 0 + lambda 4) + Uo 2 * Uo 5 * (lambda 4 - lambda 0))
  ![F0, F1, F2, F3, F4]

/-- `AssembledFluxX` of `cfd_commons.c`. -/
def AssembledFluxX (lambda : Fin DIMU → CReal K) (Uo : Fin DIMUo → CReal K) (gamma : CReal K) :
    Fin DIMU → CReal K :=
  let F0 := Uo 0 * (lambda 0 + 2 * (gamma - 1) * lambda 1 + lambda 4)
  let F1 := F0 * Uo 1 + Uo 0 * Uo 5 * (lambda 4 - lambda 0)
  let F2 := F0 * Uo 2
  let F3 := F0 * Uo 3
  let F4 := F0 * 0.5 * (Uo 1 * Uo 1 + Uo 2 * Uo 2 + Uo 3 * Uo 3) +
    Uo 0 * (Uo 4 * (lambda 0 + lambda 4) + Uo 1 * Uo 5 * (lambda 4 - lambda 0))
  ![F0, F1, F2, F3, F4]

/-- The dispatch table `AssembleConvectiveFlux` of `FluxVectorSplitting`. -/
def AssembleConvectiveFlux :
    Fin DIMS → (Fin DIMU → CReal K) → (Fin DIMUo → CReal K) → CReal K → Fin DIMU → CReal K :=
  ![AssembledFluxX, AssembledFluxY, AssembledFluxZ]

/-- The primitive buffer of `FluxVectorSplitting` after its three overwrites:
`rho/2gamma, u, v, w, h, c`. -/
def splitUo (sqrtK : K → K) (k j i : Int) (U : Grid K) (space : Space) (model : Model K) :
    Fin DIMUo → CReal K :=
  let Uo := PrimitiveByConservative (IndexMath k j i space * DIMU) U model
  let Uo5 := CReal.sqrt sqrtK (fin model.gamma * Uo 4 / Uo 0)
  let Uo4 := Uo5 * Uo5 / (fin model.gamma - 1.0)
  let Uo0 := Uo 0 / (2 * fin model.gamma)
  ![Uo0, Uo 1, Uo 2, Uo 3, Uo4, Uo5]

/-- The eigenvalues `lambda` formed by `FluxVectorSplitting` from its buffer `Uo`. -/
def splitLambda (s : Fin DIMS) (Uo : Fin DIMUo → CReal K) : Fin DIMU → CReal K :=
  let lambda1 := fin ((h s Z : Int) : K) * Uo 3 + fin ((h s Y : Int) : K) * Uo 2
    + fin ((h s X : Int) : K) * Uo 1
  let lambda2 := lambda1
  let lambda3 := lambda1
  let lambda0 := lambda1 - Uo 5
  let lambda4 := lambda1 + Uo 5
  ![lambda0, lambda1, lambda2, lambda3, lambda4]

/-- The loop of `FluxVectorSplitting` for `lambdaPlus`. -/
def lambdaPlus (lambda : Fin DIMU → CReal K) : Fin DIMU → CReal K :=
  fun row => 0.5 * (lambda row + fabs (lambda row))

/-- The loop of `FluxVectorSplitting` for `lambdaMinus`. -/
def lambdaMinus (lambda : Fin DIMU → CReal K) : Fin DIMU → CReal K :=
  fun row => 0.5 * (lambda row - fabs (lambda row))

/-- `FluxVectorSplitting` of `cfd_commons.c`: the pair `(Fplus, Fminus)`. -/
def FluxVectorSplitting (sqrtK : K → K) (s : Fin DIMS) (k j i : Int) (U : Grid K)
    (space : Space) (model : Model K) : (Fin DIMU → CReal K) × (Fin DIMU → CReal K) :=
  let Uo := splitUo sqrtK k j i U space model
  let lambda := splitLambda s Uo
  (AssembleConvectiveFlux s (lambdaPlus lambda) Uo (fin model.gamma),
   AssembleConvectiveFlux s (lambdaMinus lambda) Uo (fin model.gamma))

/-! ## Raw convective flux -/

/-- `ConvectiveFluxZ` of `cfd_commons.c`. -/
def ConvectiveFluxZ (k j i : Int) (U : Grid K) (space : Space) (model : Model K) :
    Fin DIMU → CReal K :=
  let idx := IndexMath k j i space * DIMU
  let rho := U idx
  let u := U (idx+1) / rho
  let v := U (idx+2) / rho
  let w := U (idx+3) / rho
  let eT := U (idx+4) / rho
  let p := rho * (eT - 0.5 * (u * u + v * v + w * w)) * (fin model.gamma - 1.0)
  ![rho * w, rho * w * u, rho * w * v, rho * w * w + p, (rho * eT + p) * w]

/-- `ConvectiveFluxY` of `cfd_commons.c`. -/
def ConvectiveFluxY (k j i : Int) (U : Grid K) (space : Space) (model : Model K) :
    Fin DIMU → CReal K :=
  let idx := IndexMath k j i space * DIMU
  let rho := U idx
  let u := U (idx+1) / rho
  let v := U (idx+2) / rho
  let w := U (idx+3) / rho
  let eT := U (idx+4) / rho
  let p := rho * (eT - 0.5 * (u * u + v * v + w * w)) * (fin model.gamma - 1.0)
  ![rho * v, rho * v * u, rho * v * v + p, rho * v * w, (rho * eT + p) * v]

/-- `ConvectiveFluxX` of `cfd_commons.c`. -/
def ConvectiveFluxX (k j i : Int) (U : Grid K) (space : Space) (model : Model K) :
    Fin DIMU → CReal K :=
  let idx := IndexMath k j i space * DIMU
  let rho := U idx
  let u := U (idx+1) / rho
  let v := U (idx+2) / rho
  let w := U (idx+3) / rho
  let eT := U (idx+4) / rho
  let p := rho * (eT - 0.5 * (u * u + v * v + w * w)) * (fin model.gamma - 1.0)
  ![rho * u, rho * u * u + p, rho * u * v, rho * u * w, (rho * eT + p) * u]

/-- The raw convective flux of direction `s`. -/
def ConvectiveFlux (s : Fin DIMS) :
    Int → Int → Int → Grid K → Space → Model K → Fin DIMU → CReal K :=
  ![ConvectiveFluxX, ConvectiveFluxY, ConvectiveFluxZ] s

/-- The right eigenvector matrix of direction `s`. -/
def EigenvectorSpaceR (sqrtK : K → K) (s : Fin DIMS) :
    Int → Int → Int → Grid K → Space → Model K → Fin DIMU → Fin DIMU → CReal K :=
  ![EigenvectorSpaceRX sqrtK, EigenvectorSpaceRY sqrtK, EigenvectorSpaceRZ sqrtK] s

/-! ## Vocabulary of the statements -/

/-- Product of two 5x5 matrices of C reals, summed left to right. -/
def matMul (A B : Fin DIMU → Fin DIMU → CReal K) : Fin DIMU → Fin DIMU → CReal K :=
  fun r c => A r 0 * B 0 c + A r 1 * B 1 c + A r 2 * B 2 c + A r 3 * B 3 c + A r 4 * B 4 c

/-- Product of a 5x5 matrix and a vector of C reals, summed left to right. -/
def matVec (A : Fin DIMU → Fin DIMU → CReal K) (x : Fin DIMU → CReal K) : Fin DIMU → CReal K :=
  fun r => A r 0 * x 0 + A r 1 * x 1 + A r 2 * x 2 + A r 3 * x 3 + A r 4 * x 4

/-- The 5x5 identity matrix. -/
def identity5 : Fin DIMU → Fin DIMU → CReal K :=
  fun r c => if r = c then 1 else 0

/-- The index of the neighbour of node `(k, j, i)` one step in direction `s`. -/
def neighbour (s : Fin DIMS) (k j i : Int) (space : Space) : Int :=
  ![IndexMath k j (i + 1) space, IndexMath k (j + 1) i space, IndexMath (k + 1) j i space] s * DIMU

/-- State jump between a node and its neighbour in direction `s`. -/
def deltaU (s : Fin DIMS) (k j i : Int) (U : Grid K) (space : Space) : Fin DIMU → CReal K :=
  fun m => U (neighbour s k j i space + (m : Nat)) - U (IndexMath k j i space * DIMU + (m : Nat))

/-! ## Finite forms of the eigenvector matrices

When the averaged state is finite and the sound speed is nonzero, every entry written by
the eigenvector routines is finite.  The matrices below list those entries over the field,
with `b` for `(gamma - 1) / (2 c c)` and `d` for `1 / (2 c)`; they serve to carry matrix
algebra over to the C routines. -/

/-- Entries of `L` written by `EigenvaluesAndEigenvectorSpaceLX`, over the field. -/
def matLX (b d u v w : K) : Matrix (Fin DIMU) (Fin DIMU) K :=
  !![b * (1/2 * (u * u + v * v + w * w)) + d * u, -b * u - d, -b * v, -b * w, b;
     -2 * b * (1/2 * (u * u + v * v + w * w)) + 1, 2 * b * u, 2 * b * v, 2 * b * w, -2 * b;
     -2 * b * (1/2 * (u * u + v * v + w * w)) * v, 2 * b * v * u, 2 * b * v * v + 1,
       2 * b * w * v, -2 * b * v;
     -2 * b * (1/2 * (u * u + v * v + w * w)) * w, 2 * b * w * u, 2 * b * w * v,
       2 * b * w * w + 1, -2 * b * w;
     b * (1/2 * (u * u + v * v + w * w)) - d * u, -b * u + d, -b * v, -b * w, b]

/-- Entries of `L` written by `EigenvaluesAndEigenvectorSpaceLY`, over the field. -/
def matLY (b d u v w : K) : Matrix (Fin DIMU) (Fin DIMU) K :=
  !![b * (1/2 * (u * u + v * v + w * w)) + d * v, -b * u, -b * v - d, -b * w, b;
     -2 * b * (1/2 * (u * u + v * v + w * w)) * u, 2 * b * u * u + 1, 2 * b * v * u,
       2 * b * w * u, -2 * b * u;
     -2 * b * (1/2 * (u * u + v * v + w * w)) + 1, 2 * b * u, 2 * b * v, 2 * b * w, -2 * b;
     -2 * b * (1/2 * (u * u + v * v + w * w)) * w, 2 * b * w * u, 2 * b * w * v,
       2 * b * w * w + 1, -2 * b * w;
     b * (1/2 * (u * u + v * v + w * w)) - d * v, -b * u, -b * v + d, -b * w, b]

/-- Entries of `L` written by `EigenvaluesAndEigenvectorSpaceLZ`, over the field. -/
def matLZ (b d u v w : K) : Matrix (Fin DIMU) (Fin DIMU) K :=
  !![b * (1/2 * (u * u + v * v + w * w)) + d * w, -b * u, -b * v, -b * w - d, b;
     -2 * b * (1/2 * (u * u + v * v + w * w)) * u, 2 * b * u * u + 1, 2 * b * v * u,
       2 * b * w * u, -2 * b * u;
     -2 * b * (1/2 * (u * u + v * v + w * w)) * v, 2 * b * v * u, 2 * b * v * v + 1,
       2 * b * w * v, -2 * b * v;
     -2 * b * (1/2 * (u * u + v * v + w * w)) + 1, 2 * b * u, 2 * b * v, 2 * b * w, -2 * b;
     b * (1/2 * (u * u + v * v + w * w)) - d * w, -b * u, -b * v, -b * w + d, b]

/-- Entries of `R` written by `EigenvectorSpaceRX`, over the field. -/
def matRX (u v w hT c : K) : Matrix (Fin DIMU) (Fin DIMU) K :=
  !![1, 1, 0, 0, 1;
     u - c, u, 0, 0, u + c;
     v, 0, 1, 0, v;
     w, 0, 0, 1, w;
     hT - u * c, u * u - 1/2 * (u * u + v * v + w * w), v, w, hT + u * c]

/-- Entries of `R` written by `EigenvectorSpaceRY`, over the field. -/
def matRY (u v w hT c : K) : Matrix (Fin DIMU) (Fin DIMU) K :=
  !![1, 0, 1, 0, 1;
     u, 1, 0, 0, u;
     v - c, 0, v, 0, v + c;
     w, 0, 0, 1, w;
     hT - v * c, u, v * v - 1/2 * (u * u + v * v + w * w), w, hT + v * c]

/-- Entries of `R` written by `EigenvectorSpaceRZ`, over the field. -/
def matRZ (u v w hT c : K) : Matrix (Fin DIMU) (Fin DIMU) K :=
  !![1, 0, 0, 1, 1;
     u, 1, 0, 0, u;
     v, 0, 1, 0, v;
     w - c, 0, 0, w, w + c;
     hT - w * c, u, v, w * w - 1/2 * (u * u + v * v + w * w), hT + w * c]

/-- Entries of `L` for direction `s`, over the field. -/
def matL (s : Fin DIMS) (b d u v w : K) : Matrix (Fin DIMU) (Fin DIMU) K :=
  ![matLX b d u v w, matLY b d u v w, matLZ b d u v w] s

/-- Entries of `R` for direction `s`, over the field. -/
def matR (s : Fin DIMS) (u v w hT c : K) : Matrix (Fin DIMU) (Fin DIMU) K :=
  ![matRX u v w hT c, matRY u v w hT c, matRZ u v w hT c] s

/-- Eigenvalues of direction `s` over the field, for averaged velocity `(u, v, w)` and
sound speed `c`. -/
def lamVec (s : Fin DIMS) (u v w c : K) : Fin DIMU → K :=
  ![![u, v, w] s - c, ![u, v, w] s, ![u, v, w] s, ![u, v, w] s, ![u, v, w] s + c]

/-- A grid holding two nodes: entries 0..4 are the first state, 5..9 the second. -/
def pairGrid (a b : Fin DIMU → K) : Grid K := fun n =>
  if n = 0 then fin (a 0) else if n = 1 then fin (a 1) else if n = 2 then fin (a 2)
  else if n = 3 then fin (a 3) else if n = 4 then fin (a 4)
  else if n = 5 then fin (b 0) else if n = 6 then fin (b 1) else if n = 7 then fin (b 2)
  else if n = 8 then fin (b 3) else if n = 9 then fin (b 4) else undef

/-- Index of the momentum component of direction `s` in a conservative vector. -/
def comp : Fin DIMS → Fin DIMU := ![1, 2, 3]

/-- The exchange of the momentum components of directions `s` and `t`, as a map of the five
component indices. -/
def axisSwap (s t : Fin DIMS) : Fin DIMU → Fin DIMU := Equiv.swap (comp s) (comp t)

instance : Std.Commutative (fun x y : CReal K => x + y) :=
  ⟨fun x y => by
    cases x <;> cases y <;> first | rfl | exact congrArg fin (add_comm _ _)⟩

instance : Std.Associative (fun x y : CReal K => x + y) :=
  ⟨fun x y z => by
    cases x <;> cases y <;> cases z <;> first | rfl | exact congrArg fin (add_assoc _ _ _)⟩

instance : Std.Commutative (fun x y : CReal K => x * y) :=
  ⟨fun x y => by
    cases x <;> cases y <;> first | rfl | exact congrArg fin (mul_comm _ _)⟩

instance : Std.Associative (fun x y : CReal K => x * y) :=
  ⟨fun x y z => by
    cases x <;> cases y <;> cases z <;> first | rfl | exact congrArg fin (mul_assoc _ _ _)⟩

/-- A perfect gas with the ratio of specific heats of air, used in the worked examples. -/
def air : Model K := ⟨7/5, 287, 718⟩

/-- Two nodes at rest: density 1, zero velocity, pressure 1 for `gamma = 7/5`. -/
def restGrid : Grid K := pairGrid ![1, 0, 0, 0, 5/2] ![1, 0, 0, 0, 5/2]

/-- Two nodes with a velocity jump: density 1, pressure 1, `u = 1` on the left and `u = 2` on
the right, for `gamma = 7/5`. -/
def jumpGrid : Grid K := pairGrid ![1, 1, 0, 0, 3] ![1, 2, 0, 0, 9/2]

/-- Two cold nodes: density 1, zero velocity and zero total energy. -/
def coldGrid : Grid K := pairGrid ![1, 0, 0, 0, 0] ![1, 0, 0, 0, 0]

/-! ## The Euler flux over the field and its Jacobian

The arithmetic of `ConvectiveFluxX/Y/Z` on a finite conservative state `q`, and the matrix of
first derivatives of that flux written in the velocity `(u, v, w)` and the total enthalpy
`H`. The matrix is not a routine of the source: that it is the derivative of the flux is
proved below (`eulerFlux_hasDerivAt`). -/

/-- The arithmetic of `ConvectiveFluxX` on a finite state `q = (rho, m1, m2, m3, E)`. -/
def eulerFluxX (g : K) (q : Fin DIMU → K) : Fin DIMU → K :=
  let rho := q 0
  let u := q 1 / rho
  let v := q 2 / rho
  let w := q 3 / rho
  let eT := q 4 / rho
  let p := rho * (eT - 1/2 * (u * u + v * v + w * w)) * (g - 1)
  ![rho * u, rho * u * u + p, rho * u * v, rho * u * w, (rho * eT + p) * u]

/-- The arithmetic of `ConvectiveFluxY` on a finite state. -/
def eulerFluxY (g : K) (q : Fin DIMU → K) : Fin DIMU → K :=
  let rho := q 0
  let u := q 1 / rho
  let v := q 2 / rho
  let w := q 3 / rho
  let eT := q 4 / rho
  let p := rho * (eT - 1/2 * (u * u + v * v + w * w)) * (g - 1)
  ![rho * v, rho * v * u, rho * v * v + p, rho * v * w, (rho * eT + p) * v]

/-- The arithmetic of `ConvectiveFluxZ` on a finite state. -/
def eulerFluxZ (g : K) (q : Fin DIMU → K) : Fin DIMU → K :=
  let rho := q 0
  let u := q 1 / rho
  let v := q 2 / rho
  let w := q 3 / rho
  let eT := q 4 / rho
  let p := rho * (eT - 1/2 * (u * u + v * v + w * w)) * (g - 1)
  ![rho * w, rho * w * u, rho * w * v, rho * w * w + p, (rho * eT + p) * w]

/-- The Euler flux of direction `s` over the field. -/
def eulerFlux (s : Fin DIMS) (g : K) (q : Fin DIMU → K) : Fin DIMU → K :=
  ![eulerFluxX g q, eulerFluxY g q, eulerFluxZ g q] s

/-- Total enthalpy `(E + p) / rho` of a finite conservative state. -/
def enthalpyOf (g : K) (q : Fin DIMU → K) : K :=
  (q 4 + (q 4 - 1/2 * (q 1 * q 1 + q 2 * q 2 + q 3 * q 3) / q 0) * (g - 1)) / q 0

/-- Jacobian of the X flux at velocity `(u, v, w)` and total enthalpy `H`. -/
def fluxJacobianX (g u v w H : K) : Matrix (Fin DIMU) (Fin DIMU) K :=
  !![0, 1, 0, 0, 0;
     (g - 1) * (1/2 * (u * u + v * v + w * w)) - u * u, (3 - g) * u, -(g - 1) * v, -(g - 1) * w,
       g - 1;
     -u * v, v, u, 0, 0;
     -u * w, w, 0, u, 0;
     u * ((g - 1) * (1/2 * (u * u + v * v + w * w)) - H), H - (g - 1) * u * u, -(g - 1) * u * v,
       -(g - 1) * u * w, g * u]

/-- Jacobian of the Y flux at velocity `(u, v, w)` and total enthalpy `H`. -/
def fluxJacobianY (g u v w H : K) : Matrix (Fin DIMU) (Fin DIMU) K :=
  !![0, 0, 1, 0, 0;
     -u * v, v, u, 0, 0;
     (g - 1) * (1/2 * (u * u + v * v + w * w)) - v * v, -(g - 1) * u, (3 - g) * v, -(g - 1) * w,
       g - 1;
     -v * w, 0, w, v, 0;
     v * ((g - 1) * (1/2 * (u * u + v * v + w * w)) - H), -(g - 1) * u * v, H - (g - 1) * v * v,
       -(g - 1) * v * w, g * v]

/-- Jacobian of the Z flux at velocity `(u, v, w)` and total enthalpy `H`. -/
def fluxJacobianZ (g u v w H : K) : Matrix (Fin DIMU) (Fin DIMU) K :=
  !![0, 0, 0, 1, 0;
     -u * w, w, 0, u, 0;
     -v * w, 0, w, v, 0;
     (g - 1) * (1/2 * (u * u + v * v + w * w)) - w * w, -(g - 1) * u, -(g - 1) * v, (3 - g) * w,
       g - 1;
     w * ((g - 1) * (1/2 * (u * u + v * v + w * w)) - H), -(g - 1) * u * w, -(g - 1) * v * w,
       H - (g - 1) * w * w, g * w]

/-- Jacobian of the flux of direction `s`. -/
def fluxJacobian (s : Fin DIMS) (g u v w H : K) : Matrix (Fin DIMU) (Fin DIMU) K :=
  ![fluxJacobianX g u v w H, fluxJacobianY g u v w H, fluxJacobianZ g u v w H] s

/-! ## Arithmetic of C reals on finite operands -/

section lemmas

variable (a b : K)

@[simp] theorem fin_add : (fin a + fin b : CReal K) = fin (a + b) := rfl
@[simp] theorem fin_sub : (fin a - fin b : CReal K) = fin (a - b) := rfl
@[simp] theorem fin_mul : (fin a * fin b : CReal K) = fin (a * b) := rfl
@[simp] theorem fin_neg : (-fin a : CReal K) = fin (-a) := rfl
@[simp] theorem fin_div : (fin a / fin b : CReal K) = if b = 0 then undef else fin (a / b) := rfl
@[simp] theorem fin_fabs : fabs (fin a) = fin |a| := rfl
@[simp] theorem fin_sqrt (f : K → K) :
    CReal.sqrt f (fin a) = if a < 0 then undef else fin (f a) := rfl
@[simp] theorem undef_add (x : CReal K) : undef + x = undef := rfl
@[simp] theorem add_undef (x : CReal K) : x + undef = undef := by cases x <;> rfl
@[simp] theorem undef_sub (x : CReal K) : undef - x = undef := rfl
@[simp] theorem sub_undef (x : CReal K) : x - undef = undef := by cases x <;> rfl
@[simp] theorem undef_mul (x : CReal K) : undef * x = undef := rfl
@[simp] theorem mul_undef (x : CReal K) : x * undef = undef := by cases x <;> rfl
@[simp] theorem undef_div (x : CReal K) : undef / x = undef := rfl
@[simp] theorem div_undef (x : CReal K) : x / undef = undef := by cases x <;> rfl
@[simp] theorem neg_undef : (-undef : CReal K) = undef := rfl
@[simp] theorem fabs_undef : fabs (undef : CReal K) = undef := rfl
@[simp] theorem sqrt_undef (f : K → K) : CReal.sqrt f (undef : CReal K) = undef := rfl
@[simp] theorem zero_eq_fin : (0 : CReal K) = fin 0 := rfl
@[simp] theorem one_eq_fin : (1 : CReal K) = fin 1 := rfl
@[simp] theorem two_eq_fin : (2 : CReal K) = fin 2 := rfl
@[simp] theorem lit_half : (0.5 : CReal K) = fin (1/2) := by
  show fin (0.5 : K) = fin (1/2); norm_num
@[simp] theorem lit_one : (1.0 : CReal K) = fin 1 := by
  show fin (1.0 : K) = fin 1; norm_num
@[simp] theorem lit_two : (2.0 : CReal K) = fin 2 := by
  show fin (2.0 : K) = fin 2; norm_num
@[simp] theorem pos_fin : pos (fin a) ↔ 0 < a := Iff.rfl
@[simp] theorem pos_undef : ¬ pos (undef : CReal K) := id

end lemmas

/-! ## Admissible states -/

theorem div_fin_of_ne {a b : K} (hb : b ≠ 0) : (fin a / fin b : CReal K) = fin (a / b) := by
  simp [hb]

theorem sqrt_fin_of_nonneg (f : K → K) {a : K} (ha : 0 ≤ a) :
    CReal.sqrt f (fin a) = fin (f a) := by
  simp [not_lt.mpr ha]

theorem admissible_fin {U : Grid K} {idx : Int} {model : Model K}
    (hA : Admissible U idx model) :
    ∃ ρ m1 m2 m3 E : K, U idx = fin ρ ∧ U (idx+1) = fin m1 ∧ U (idx+2) = fin m2 ∧
      U (idx+3) = fin m3 ∧ U (idx+4) = fin E ∧ 0 < ρ ∧
      0 < (E - 1/2 * (m1 * m1 + m2 * m2 + m3 * m3) / ρ) * (model.gamma - 1) := by
  obtain ⟨h0, hp⟩ := hA
  unfold ComputePressure at hp
  cases e0 : U idx with
  | undef => simp [e0] at h0
  | fin ρ =>
    cases e1 : U (idx+1) with
    | undef => simp [e0, e1] at hp
    | fin m1 =>
      cases e2 : U (idx+2) with
      | undef => simp [e0, e1, e2] at hp
      | fin m2 =>
        cases e3 : U (idx+3) with
        | undef => simp [e0, e1, e2, e3] at hp
        | fin m3 =>
          cases e4 : U (idx+4) with
          | undef => simp [e0, e1, e2, e3, e4] at hp
          | fin E =>
            have hρ : 0 < ρ := by simpa [e0] using h0
            refine ⟨ρ, m1, m2, m3, E, rfl, rfl, rfl, rfl, rfl, hρ, ?_⟩
            simpa [e0, e1, e2, e3, e4, hρ.ne'] using hp

/-- An admissible node in velocity variables: the total enthalpy formed by
`ComputeRoeAverage` exceeds the kinetic energy. -/
theorem admissible_vel {U : Grid K} {idx : Int} {model : Model K}
    (hγ : 1 < model.gamma) (hA : Admissible U idx model) :
    ∃ ρ u v w E : K, U idx = fin ρ ∧ U (idx+1) = fin (ρ * u) ∧ U (idx+2) = fin (ρ * v) ∧
      U (idx+3) = fin (ρ * w) ∧ U (idx+4) = fin E ∧ 0 < ρ ∧
      1/2 * (u * u + v * v + w * w)
        < E / ρ * model.gamma - 1/2 * (u * u + v * v + w * w) * (model.gamma - 1) := by
  obtain ⟨ρ, m1, m2, m3, E, e0, e1, e2, e3, e4, hρ, hp⟩ := admissible_fin hA
  have hρ0 : ρ ≠ 0 := hρ.ne'
  have h1 : m1 = ρ * (m1 / ρ) := by field_simp
  have h2 : m2 = ρ * (m2 / ρ) := by field_simp
  have h3 : m3 = ρ * (m3 / ρ) := by field_simp
  refine ⟨ρ, m1 / ρ, m2 / ρ, m3 / ρ, E, e0, by rw [← h1]; exact e1, by rw [← h2]; exact e2,
    by rw [← h3]; exact e3, e4, hρ, ?_⟩
  have hg : 0 < model.gamma - 1 := by linarith
  have hp' : 0 < E - 1/2 * (m1 * m1 + m2 * m2 + m3 * m3) / ρ := by
    rcases (mul_pos_iff.mp hp) with h | h
    · exact h.1
    · linarith [h.2]
  have hq : 1/2 * (m1 * m1 + m2 * m2 + m3 * m3) / ρ / ρ
      = 1/2 * (m1 / ρ * (m1 / ρ) + m2 / ρ * (m2 / ρ) + m3 / ρ * (m3 / ρ)) := by
    field_simp
    exact Or.inl (by ring)
  have hpe : 0 < E / ρ - 1/2 * (m1 / ρ * (m1 / ρ) + m2 / ρ * (m2 / ρ) + m3 / ρ * (m3 / ρ)) := by
    rw [← hq, ← sub_div]
    exact div_pos hp' hρ
  have hm := mul_pos hpe (show (0:K) < model.gamma by linarith)
  linarith

theorem roe_admissible (Uo : Fin DIMUo → CReal ℝ) {U : Grid ℝ} {idx idxh : Int}
    {model : Model ℝ} (hγ : 1 < model.gamma)
    (hA : Admissible U idx model) (hAh : Admissible U idxh model) :
    ∃ u v w hT c : ℝ,
      ComputeRoeAverage Real.sqrt Uo idx idxh U model
        = ![Uo 0, fin u, fin v, fin w, fin hT, fin c] ∧
      0 < c ∧ c * c = (model.gamma - 1) * (hT - 1/2 * (u * u + v * v + w * w)) := by
  obtain ⟨ρ, u, v, w, E, e0, e1, e2, e3, e4, hρ, hH⟩ := admissible_vel hγ hA
  obtain ⟨ρh, uh, vh, wh, Eh, f0, f1, f2, f3, f4, hρh, hHh⟩ := admissible_vel hγ hAh
  have hρ0 : ρ ≠ 0 := hρ.ne'
  have hρh0 : ρh ≠ 0 := hρh.ne'
  have hD : 0 < Real.sqrt (ρh / ρ) := Real.sqrt_pos.mpr (div_pos hρh hρ)
  have hD1 : 1 + Real.sqrt (ρh / ρ) ≠ 0 := by positivity
  generalize hHd : E / ρ * model.gamma - 1/2 * (u * u + v * v + w * w) * (model.gamma - 1) = H
    at hH
  generalize hHhd : Eh / ρh * model.gamma - 1/2 * (uh * uh + vh * vh + wh * wh)
    * (model.gamma - 1) = Hh at hHh
  generalize hDd : Real.sqrt (ρh / ρ) = D at hD hD1
  have hD1p : 0 < 1 + D := by linarith
  have hrad : 0 < (H + D * Hh) / (1 + D) - 1/2 * ((u + D * uh) / (1 + D) * ((u + D * uh) / (1 + D))
      + (v + D * vh) / (1 + D) * ((v + D * vh) / (1 + D))
      + (w + D * wh) / (1 + D) * ((w + D * wh) / (1 + D))) := by
    have key : 0 < (1 + D) * (H + D * Hh) - 1/2 * ((u + D * uh) * (u + D * uh)
        + (v + D * vh) * (v + D * vh) + (w + D * wh) * (w + D * wh)) := by
      have a1 : 0 < (1 + D) * (H - 1/2 * (u * u + v * v + w * w)) :=
        mul_pos hD1p (sub_pos.mpr hH)
      have a2 : 0 < (1 + D) * D * (Hh - 1/2 * (uh * uh + vh * vh + wh * wh)) :=
        mul_pos (mul_pos hD1p hD) (sub_pos.mpr hHh)
      have a3 : 0 ≤ D / 2 * ((u - uh) ^ 2 + (v - vh) ^ 2 + (w - wh) ^ 2) := by positivity
      have a4 : (1 + D) * (H + D * Hh) - 1/2 * ((u + D * uh) * (u + D * uh)
          + (v + D * vh) * (v + D * vh) + (w + D * wh) * (w + D * wh))
          = (1 + D) * (H - 1/2 * (u * u + v * v + w * w))
            + (1 + D) * D * (Hh - 1/2 * (uh * uh + vh * vh + wh * wh))
            + D / 2 * ((u - uh) ^ 2 + (v - vh) ^ 2 + (w - wh) ^ 2) := by ring
      rw [a4]
      linarith
    have : (H + D * Hh) / (1 + D) - 1/2 * ((u + D * uh) / (1 + D) * ((u + D * uh) / (1 + D))
      + (v + D * vh) / (1 + D) * ((v + D * vh) / (1 + D))
      + (w + D * wh) / (1 + D) * ((w + D * wh) / (1 + D)))
      = ((1 + D) * (H + D * Hh) - 1/2 * ((u + D * uh) * (u + D * uh)
        + (v + D * vh) * (v + D * vh) + (w + D * wh) * (w + D * wh))) / ((1 + D) * (1 + D)) := by
      field_simp
      ring
    rw [this]
    exact div_pos key (mul_pos hD1p hD1p)
  have hrad2 : 0 < (model.gamma - 1) * ((H + D * Hh) / (1 + D)
      - 1/2 * ((u + D * uh) / (1 + D) * ((u + D * uh) / (1 + D))
      + (v + D * vh) / (1 + D) * ((v + D * vh) / (1 + D))
      + (w + D * wh) / (1 + D) * ((w + D * wh) / (1 + D)))) :=
    mul_pos (by linarith) hrad
  refine ⟨(u + D * uh) / (1 + D), (v + D * vh) / (1 + D), (w + D * wh) / (1 + D),
    (H + D * Hh) / (1 + D), Real.sqrt _, ?_, Real.sqrt_pos.mpr hrad2,
    Real.mul_self_sqrt hrad2.le⟩
  simp only [ComputeRoeAverage, e0, e1, e2, e3, e4, f0, f1, f2, f3, f4, lit_half, lit_one,
    fin_mul, fin_add, fin_sub, div_fin_of_ne hρ0, div_fin_of_ne hρh0,
    mul_div_cancel_left₀ _ hρ0, mul_div_cancel_left₀ _ hρh0, hHd, hHhd,
    sqrt_fin_of_nonneg _ (div_pos hρh hρ).le, hDd, div_fin_of_ne hD1,
    sqrt_fin_of_nonneg _ hrad2.le]


theorem vec6_5 {α : Type} (a b c d e f : α) : (![a, b, c, d, e, f] : Fin 6 → α) 5 = f := rfl
theorem vec5_0 {α : Type} (a b c d e : α) : (![a, b, c, d, e] : Fin 5 → α) 0 = a := rfl
theorem vec5_1 {α : Type} (a b c d e : α) : (![a, b, c, d, e] : Fin 5 → α) 1 = b := rfl
theorem vec5_2 {α : Type} (a b c d e : α) : (![a, b, c, d, e] : Fin 5 → α) 2 = c := rfl
theorem vec5_3 {α : Type} (a b c d e : α) : (![a, b, c, d, e] : Fin 5 → α) 3 = d := rfl
theorem vec5_4 {α : Type} (a b c d e : α) : (![a, b, c, d, e] : Fin 5 → α) 4 = e := rfl

theorem forall_fin5 {P : Fin 5 → Prop} (h0 : P 0) (h1 : P 1) (h2 : P 2) (h3 : P 3) (h4 : P 4) :
    ∀ r, P r := by
  intro r; fin_cases r <;> assumption

theorem forall_fin3 {P : Fin 3 → Prop} (h0 : P 0) (h1 : P 1) (h2 : P 2) : ∀ r, P r := by
  intro r; fin_cases r <;> assumption

set_option maxHeartbeats 4000000 in
theorem matR_mul_matL (s : Fin DIMS) (u v w hT c b d : ℝ)
    (hb : 2 * b * (hT - 1/2 * (u * u + v * v + w * w)) = 1) (hd : 2 * d * c = 1) :
    matR s u v w hT c * matL s b d u v w = 1 := by
  revert s
  refine forall_fin3 ?_ ?_ ?_ <;> refine Matrix.ext (forall_fin5 ?_ ?_ ?_ ?_ ?_) <;>
    refine forall_fin5 ?_ ?_ ?_ ?_ ?_ <;>
    rw [Matrix.mul_apply, Fin.sum_univ_five] <;>
    simp only [matR, matL, matRX, matLX, matRY, matLY, matRZ, matLZ, Matrix.of_apply,
      vec5_0, vec5_1, vec5_2, vec5_3, vec5_4, Matrix.cons_val_zero, Matrix.cons_val_one,
      Matrix.cons_val_two, Matrix.head_cons, Matrix.tail_cons,
      Matrix.one_apply_eq, Matrix.one_apply_ne, ne_eq,
      Fin.reduceEq, not_false_eq_true]
  iterate 5 ring1
  · linear_combination (-u) * hd
  · linear_combination hd
  iterate 13 ring1
  · linear_combination (1/2 * (u * u + v * v + w * w)) * hb - u * u * hd
  · linear_combination (-u) * hb + u * hd
  · linear_combination (-v) * hb
  · linear_combination (-w) * hb
  · linear_combination hb
  iterate 10 ring1
  · linear_combination (-v) * hd
  · ring1
  · linear_combination hd
  iterate 7 ring1
  · linear_combination (1/2 * (u * u + v * v + w * w)) * hb - v * v * hd
  · linear_combination (-u) * hb
  · linear_combination (-v) * hb + v * hd
  · linear_combination (-w) * hb
  · linear_combination hb
  iterate 15 ring1
  · linear_combination (-w) * hd
  iterate 2 ring1
  · linear_combination hd
  · ring1
  · linear_combination (1/2 * (u * u + v * v + w * w)) * hb - w * w * hd
  · linear_combination (-u) * hb
  · linear_combination (-v) * hb
  · linear_combination (-w) * hb + w * hd
  · linear_combination hb

theorem matL_mul_matR (s : Fin DIMS) (u v w hT c b d : ℝ)
    (hb : 2 * b * (hT - 1/2 * (u * u + v * v + w * w)) = 1) (hd : 2 * d * c = 1) :
    matL s b d u v w * matR s u v w hT c = 1 :=
  (Matrix.mul_eq_one_comm).mp (matR_mul_matL s u v w hT c b d hb hd)

theorem eigen_fin (s : Fin DIMS) {k j i : Int} {U : Grid ℝ} {space : Space} {model : Model ℝ}
    (hγ : 1 < model.gamma) (hA : Admissible U (IndexMath k j i space * DIMU) model)
    (hAh : Admissible U (neighbour s k j i space) model) :
    ∃ u v w hT c b d : ℝ, 0 < c ∧
      c * c = (model.gamma - 1) * (hT - 1/2 * (u * u + v * v + w * w)) ∧
      2 * b * (hT - 1/2 * (u * u + v * v + w * w)) = 1 ∧ 2 * d * c = 1 ∧
      ComputeEigenvaluesAndEigenvectorSpaceL Real.sqrt s k j i U space model
        = (fun r => fin (lamVec s u v w c r), fun r t => fin (matL s b d u v w r t)) ∧
      EigenvectorSpaceR Real.sqrt s k j i U space model
        = fun r t => fin (matR s u v w hT c r t) := by
  have hγ1 : model.gamma - 1 ≠ 0 := by linarith
  revert s
  refine forall_fin3 ?_ ?_ ?_ <;> intro hAh
  all_goals
    simp only [neighbour, Matrix.cons_val_zero, Matrix.cons_val_one, Matrix.cons_val_two,
      Matrix.head_cons, Matrix.tail_cons] at hAh
    obtain ⟨u, v, w, hT, c, hRoe, hc, hcc⟩ := roe_admissible (fun _ => 0.0) hγ hA hAh
    have hc0 : c ≠ 0 := hc.ne'
    have h2c : 2 * c ≠ 0 := by positivity
    have h2cc : 2 * c * c ≠ 0 := by positivity
    refine ⟨u, v, w, hT, c, (model.gamma - 1) / (2 * c * c), 1 / (2 * c), hc, hcc, ?_, ?_, ?_, ?_⟩
    · field_simp
      linear_combination (-4 : ℝ) * hcc
    · field_simp
    · simp only [ComputeEigenvaluesAndEigenvectorSpaceL, Matrix.cons_val_zero,
        EigenvaluesAndEigenvectorSpaceLX, EigenvaluesAndEigenvectorSpaceLY,
        EigenvaluesAndEigenvectorSpaceLZ, hRoe, vec6_5, Matrix.cons_val_one, Matrix.head_cons,
        Matrix.cons_val_two, Matrix.cons_val_three, Matrix.tail_cons, lit_half, lit_one, lit_two,
        two_eq_fin, one_eq_fin, fin_mul, fin_add, fin_sub, fin_neg, div_fin_of_ne h2c,
        div_fin_of_ne h2cc]
      refine Prod.ext (funext (forall_fin5 rfl rfl rfl rfl rfl))
        (funext (forall_fin5 ?_ ?_ ?_ ?_ ?_)) <;>
        exact funext (forall_fin5 rfl rfl rfl rfl rfl)
    · simp only [EigenvectorSpaceR, Matrix.cons_val_zero,
        EigenvectorSpaceRX, EigenvectorSpaceRY, EigenvectorSpaceRZ, hRoe, vec6_5,
        Matrix.cons_val_one, Matrix.head_cons,
        Matrix.cons_val_two, Matrix.cons_val_three, Matrix.cons_val_four, Matrix.tail_cons,
        lit_half, lit_one, lit_two,
        two_eq_fin, one_eq_fin, zero_eq_fin, fin_mul, fin_add, fin_sub, fin_neg]
      refine funext (forall_fin5 ?_ ?_ ?_ ?_ ?_) <;>
        exact funext (forall_fin5 rfl rfl rfl rfl rfl)


/-! ## Flux vector splitting on an admissible cell -/

theorem splitUo_admissible {U : Grid ℝ} {k j i : Int} {space : Space} {model : Model ℝ}
    (hγ : 1 < model.gamma) (hA : Admissible U (IndexMath k j i space * DIMU) model) :
    ∃ ρ A u v w C c : ℝ, U (IndexMath k j i space * DIMU) = fin ρ ∧
      U (IndexMath k j i space * DIMU + 1) = fin (ρ * u) ∧
      U (IndexMath k j i space * DIMU + 2) = fin (ρ * v) ∧
      U (IndexMath k j i space * DIMU + 3) = fin (ρ * w) ∧
      U (IndexMath k j i space * DIMU + 4) = fin (ρ * (C + 1/2 * (u * u + v * v + w * w))) ∧
      0 < ρ ∧ 0 < c ∧ ρ = 2 * model.gamma * A ∧ c * c = C * model.gamma * (model.gamma - 1) ∧
      splitUo Real.sqrt k j i U space model =
        ![fin A, fin u, fin v, fin w, fin (C * model.gamma), fin c] := by
  obtain ⟨ρ, m1, m2, m3, E, e0, e1, e2, e3, e4, hρ, hp⟩ := admissible_fin hA
  have hγ0 : model.gamma ≠ 0 := by linarith
  have hγ1 : model.gamma - 1 ≠ 0 := by linarith
  have hγ2 : 2 * model.gamma ≠ 0 := by linarith
  have hρ0 : ρ ≠ 0 := hρ.ne'
  have hrad : 0 < model.gamma * ((E - 1/2 * (m1 * m1 + m2 * m2 + m3 * m3) / ρ)
      * (model.gamma - 1)) / ρ := by
    apply div_pos _ hρ
    exact mul_pos (by linarith) hp
  have h1 : m1 = ρ * (m1 / ρ) := (mul_div_cancel₀ m1 hρ0).symm
  have h2 : m2 = ρ * (m2 / ρ) := (mul_div_cancel₀ m2 hρ0).symm
  have h3 : m3 = ρ * (m3 / ρ) := (mul_div_cancel₀ m3 hρ0).symm
  generalize hc : Real.sqrt (model.gamma * ((E - 1/2 * (m1 * m1 + m2 * m2 + m3 * m3) / ρ)
      * (model.gamma - 1)) / ρ) = c
  have hcc : c * c = model.gamma * ((E - 1/2 * (m1 * m1 + m2 * m2 + m3 * m3) / ρ)
      * (model.gamma - 1)) / ρ := by rw [← hc]; exact Real.mul_self_sqrt hrad.le
  have hcpos : 0 < c := by rw [← hc]; exact Real.sqrt_pos.mpr hrad
  refine ⟨ρ, ρ / (2 * model.gamma), m1 / ρ, m2 / ρ, m3 / ρ,
    c * c / (model.gamma * (model.gamma - 1)), c, e0, by rw [← h1]; exact e1,
    by rw [← h2]; exact e2, by rw [← h3]; exact e3, ?_, hρ, hcpos, ?_, ?_, ?_⟩
  · rw [e4, hcc]
    congr 1
    field_simp
    ring
  · field_simp
  · field_simp
    ring
  · have h4 : c * c / (model.gamma * (model.gamma - 1)) * model.gamma
        = c * c / (model.gamma - 1) := by
      field_simp
      ring
    rw [h4]
    simp only [splitUo, PrimitiveByConservative, e0, e1, e2, e3, e4, lit_half, lit_one, two_eq_fin,
      fin_mul, fin_add, fin_sub, div_fin_of_ne hρ0, div_fin_of_ne hγ1, div_fin_of_ne hγ2,
      Matrix.cons_val_zero, Matrix.cons_val_one, Matrix.head_cons, Matrix.cons_val_two,
      Matrix.cons_val_three, Matrix.cons_val_four, Matrix.tail_cons]
    rw [sqrt_fin_of_nonneg _ hrad.le, hc]
    simp only [fin_mul, div_fin_of_ne hγ1]


set_option maxHeartbeats 4000000 in
/-- On an admissible cell the two split fluxes add up to the raw convective flux, component
by component, and that flux is finite. -/
theorem flux_split_sum (s : Fin DIMS) (k j i : Int) (U : Grid ℝ) (space : Space) (model : Model ℝ)
    (hγ : 1 < model.gamma) (hA : Admissible U (IndexMath k j i space * DIMU) model) :
    ∀ m : Fin DIMU,
      (FluxVectorSplitting Real.sqrt s k j i U space model).1 m
        + (FluxVectorSplitting Real.sqrt s k j i U space model).2 m
        = ConvectiveFlux s k j i U space model m ∧
      ∃ x : ℝ, ConvectiveFlux s k j i U space model m = fin x := by
  obtain ⟨ρ, A, u, v, w, C, c, e0, e1, e2, e3, e4, hρ, hc, hρA, hcc, hUo⟩ :=
    splitUo_admissible hγ hA
  have hρ0 : ρ ≠ 0 := hρ.ne'
  revert s
  refine forall_fin3 ?_ ?_ ?_ <;> refine forall_fin5 ?_ ?_ ?_ ?_ ?_ <;>
    simp only [FluxVectorSplitting, hUo, splitLambda, lambdaPlus, lambdaMinus,
      AssembleConvectiveFlux, AssembledFluxX, AssembledFluxY, AssembledFluxZ, ConvectiveFlux,
      ConvectiveFluxX, ConvectiveFluxY, ConvectiveFluxZ, e0, e1, e2, e3, e4, h, lit_half, lit_one,
      two_eq_fin, one_eq_fin, fin_mul, fin_add, fin_sub, fin_fabs, div_fin_of_ne hρ0, vec6_5,
      Matrix.cons_val_zero, Matrix.cons_val_one, Matrix.head_cons, Matrix.cons_val_two,
      Matrix.cons_val_three, Matrix.cons_val_four, Matrix.tail_cons,
      Int.cast_zero, Int.cast_one, zero_mul, one_mul, zero_add, add_zero,
      mul_div_cancel_left₀ _ hρ0, CReal.fin.injEq, exists_eq', and_true] <;>
    generalize |u - c| = a0 <;> generalize |u + c| = a4 <;> generalize |u| = a1 <;>
    generalize |v - c| = b0 <;> generalize |v + c| = b4 <;> generalize |v| = b1 <;>
    generalize |w - c| = c0 <;> generalize |w + c| = c4 <;> generalize |w| = c1 <;>
    subst hρA
  · ring1
  · linear_combination (2 * A) * hcc
  · ring1
  · ring1
  · linear_combination (2 * A * u) * hcc
  · ring1
  · ring1
  · linear_combination (2 * A) * hcc
  · ring1
  · linear_combination (2 * A * v) * hcc
  · ring1
  · ring1
  · ring1
  · linear_combination (2 * A) * hcc
  · linear_combination (2 * A * w) * hcc

/-! ## Characteristic projection and the eigenbasis -/

theorem fin5_val_0 : (((0 : Fin DIMU) : Nat) : Int) = 0 := rfl
theorem fin5_val_1 : (((1 : Fin DIMU) : Nat) : Int) = 1 := rfl
theorem fin5_val_2 : (((2 : Fin DIMU) : Nat) : Int) = 2 := rfl
theorem fin5_val_3 : (((3 : Fin DIMU) : Nat) : Int) = 3 := rfl
theorem fin5_val_4 : (((4 : Fin DIMU) : Nat) : Int) = 4 := rfl

theorem fin_zero_add (x : CReal K) : fin 0 + x = x := by
  cases x
  · simp
  · rfl

/-- `CalculateAlpha` is the matrix-vector product. -/
theorem CalculateAlpha_eq_matVec (L : Fin DIMU → Fin DIMU → CReal K)
    (deltaU : Fin DIMU → CReal K) : CalculateAlpha L deltaU = matVec L deltaU := by
  funext row
  show (List.finRange 5).foldl (fun acc dummy => acc + L row dummy * deltaU dummy) 0 = _
  have h5 : List.finRange 5 = [0, 1, 2, 3, 4] := by decide
  rw [h5]
  simp only [List.foldl_cons, List.foldl_nil, matVec, zero_eq_fin, fin_zero_add]

theorem matMul_fin (A B : Matrix (Fin DIMU) (Fin DIMU) K) :
    matMul (fun r t => fin (A r t)) (fun r t => fin (B r t)) = fun r t => fin ((A * B) r t) := by
  funext r t
  simp only [matMul, fin_mul, fin_add, Matrix.mul_apply, Fin.sum_univ_five]

theorem matVec_fin (A : Matrix (Fin DIMU) (Fin DIMU) K) (x : Fin DIMU → K) :
    matVec (fun r t => fin (A r t)) (fun r => fin (x r)) = fun r => fin (A.mulVec x r) := by
  funext r
  simp only [matVec, fin_mul, fin_add, Matrix.mulVec, Matrix.dotProduct, Fin.sum_univ_five]

theorem identity5_fin : (identity5 : Fin DIMU → Fin DIMU → CReal K)
    = fun r t => fin ((1 : Matrix (Fin DIMU) (Fin DIMU) K) r t) := by
  funext r t
  by_cases hrt : r = t
  · subst hrt
    rw [Matrix.one_apply_eq]
    simp [identity5]
  · rw [Matrix.one_apply_ne hrt]
    simp [identity5, hrt]

/-- The neighbour index formed from the direction indicator is the one used by the
eigenvector routine of the same direction. -/
theorem neighbour_eq (s : Fin DIMS) (k j i : Int) (space : Space) :
    IndexMath (k + h s Z) (j + h s Y) (i + h s X) space * DIMU = neighbour s k j i space := by
  revert s
  refine forall_fin3 ?_ ?_ ?_ <;>
    simp only [h, neighbour, Matrix.cons_val_zero, Matrix.cons_val_one, Matrix.cons_val_two,
      Matrix.head_cons, Matrix.tail_cons, add_zero]

theorem eigen_inverse_products (s : Fin DIMS) (k j i : Int) (U : Grid ℝ) (space : Space)
    (model : Model ℝ) (hγ : 1 < model.gamma)
    (hA : Admissible U (IndexMath k j i space * DIMU) model)
    (hAh : Admissible U (neighbour s k j i space) model) :
    matMul (EigenvectorSpaceR Real.sqrt s k j i U space model)
        (ComputeEigenvaluesAndEigenvectorSpaceL Real.sqrt s k j i U space model).2 = identity5 ∧
    matMul (ComputeEigenvaluesAndEigenvectorSpaceL Real.sqrt s k j i U space model).2
        (EigenvectorSpaceR Real.sqrt s k j i U space model) = identity5 := by
  obtain ⟨u, v, w, hT, c, b, d, -, -, hb, hd, hL, hR⟩ := eigen_fin s hγ hA hAh
  rw [hL, hR]
  simp only [matMul_fin, identity5_fin, matR_mul_matL s u v w hT c b d hb hd,
    matL_mul_matR s u v w hT c b d hb hd, and_self]

theorem alpha_eq_matVec (sqrtK : K → K) (s : Fin DIMS) (k j i : Int) (U : Grid K) (space : Space)
    (model : Model K) :
    EigenvaluesAndDecompositionCoefficientAlpha sqrtK s k j i U space model
      = ((ComputeEigenvaluesAndEigenvectorSpaceL sqrtK s k j i U space model).1,
         matVec (ComputeEigenvaluesAndEigenvectorSpaceL sqrtK s k j i U space model).2
           (deltaU s k j i U space)) := by
  simp only [EigenvaluesAndDecompositionCoefficientAlpha, CalculateAlpha_eq_matVec, neighbour_eq]
  refine Prod.ext rfl ?_
  refine congrArg (matVec _) ?_
  refine funext (forall_fin5 ?_ ?_ ?_ ?_ ?_) <;>
    first | rfl | simp [deltaU]


theorem roe_congr (sqrtK : K → K) (Uo : Fin DIMUo → CReal K) {idx idxh : Int} {U U' : Grid K}
    (model : Model K) (h1 : ∀ m : Fin DIMU, U' (idx + (m : Nat)) = U (idx + (m : Nat)))
    (h2 : ∀ m : Fin DIMU, U' (idxh + (m : Nat)) = U (idxh + (m : Nat))) :
    ComputeRoeAverage sqrtK Uo idx idxh U' model = ComputeRoeAverage sqrtK Uo idx idxh U model := by
  have a0 : U' idx = U idx := by simpa using h1 0
  have a1 : U' (idx + 1) = U (idx + 1) := h1 1
  have a2 : U' (idx + 2) = U (idx + 2) := h1 2
  have a3 : U' (idx + 3) = U (idx + 3) := h1 3
  have a4 : U' (idx + 4) = U (idx + 4) := h1 4
  have b0 : U' idxh = U idxh := by simpa using h2 0
  have b1 : U' (idxh + 1) = U (idxh + 1) := h2 1
  have b2 : U' (idxh + 2) = U (idxh + 2) := h2 2
  have b3 : U' (idxh + 3) = U (idxh + 3) := h2 3
  have b4 : U' (idxh + 4) = U (idxh + 4) := h2 4
  simp only [ComputeRoeAverage, a0, a1, a2, a3, a4, b0, b1, b2, b3, b4]

theorem eigenL_congr (sqrtK : K → K) (s : Fin DIMS) (k j i : Int) {U U' : Grid K} (space : Space)
    (model : Model K)
    (h1 : ∀ m : Fin DIMU, U' (IndexMath k j i space * DIMU + (m : Nat))
      = U (IndexMath k j i space * DIMU + (m : Nat)))
    (h2 : ∀ m : Fin DIMU, U' (neighbour s k j i space + (m : Nat))
      = U (neighbour s k j i space + (m : Nat))) :
    ComputeEigenvaluesAndEigenvectorSpaceL sqrtK s k j i U' space model
      = ComputeEigenvaluesAndEigenvectorSpaceL sqrtK s k j i U space model := by
  revert s
  refine forall_fin3 ?_ ?_ ?_ <;> intro h2 <;>
    simp only [neighbour, Matrix.cons_val_zero, Matrix.cons_val_one, Matrix.cons_val_two,
      Matrix.head_cons, Matrix.tail_cons] at h2 <;>
    simp only [ComputeEigenvaluesAndEigenvectorSpaceL, Matrix.cons_val_zero, Matrix.cons_val_one,
      Matrix.cons_val_two, Matrix.head_cons, Matrix.tail_cons, EigenvaluesAndEigenvectorSpaceLX,
      EigenvaluesAndEigenvectorSpaceLY, EigenvaluesAndEigenvectorSpaceLZ,
      roe_congr sqrtK _ model h1 h2]

theorem admissible_congr {U U' : Grid K} {idx idx' : Int} {model : Model K}
    (hA : Admissible U idx model)
    (h1 : ∀ m : Fin DIMU, U' (idx' + (m : Nat)) = U (idx + (m : Nat))) :
    Admissible U' idx' model := by
  have a0 : U' idx' = U idx := by simpa using h1 0
  have a1 : U' (idx' + 1) = U (idx + 1) := h1 1
  have a2 : U' (idx' + 2) = U (idx + 2) := h1 2
  have a3 : U' (idx' + 3) = U (idx + 3) := h1 3
  have a4 : U' (idx' + 4) = U (idx + 4) := h1 4
  unfold Admissible ComputePressure at *
  rw [a0, a1, a2, a3, a4]
  exact hA

theorem deltaU_fin (s : Fin DIMS) {k j i : Int} {U : Grid K} {space : Space} {model : Model K}
    (hA : Admissible U (IndexMath k j i space * DIMU) model)
    (hAh : Admissible U (neighbour s k j i space) model) :
    ∃ δ : Fin DIMU → K, deltaU s k j i U space = fun m => fin (δ m) := by
  obtain ⟨ρ, m1, m2, m3, E, e0, e1, e2, e3, e4, -, -⟩ := admissible_fin hA
  obtain ⟨ρh, n1, n2, n3, Eh, f0, f1, f2, f3, f4, -, -⟩ := admissible_fin hAh
  refine ⟨![ρh - ρ, n1 - m1, n2 - m2, n3 - m3, Eh - E], funext (forall_fin5 ?_ ?_ ?_ ?_ ?_)⟩
  · show U (_ + ((0 : Nat) : Int)) - U (_ + ((0 : Nat) : Int)) = _
    rw [Nat.cast_zero, add_zero, add_zero, e0, f0]; rfl
  · show U (_ + 1) - U (_ + 1) = _
    rw [e1, f1]; rfl
  · show U (_ + 2) - U (_ + 2) = _
    rw [e2, f2]; rfl
  · show U (_ + 3) - U (_ + 3) = _
    rw [e3, f3]; rfl
  · show U (_ + 4) - U (_ + 4) = _
    rw [e4, f4]; rfl

theorem eigenbasis_roundtrip (s : Fin DIMS) (k j i : Int) (U : Grid ℝ) (space : Space)
    (model : Model ℝ) (hγ : 1 < model.gamma)
    (hA : Admissible U (IndexMath k j i space * DIMU) model)
    (hAh : Admissible U (neighbour s k j i space) model) :
    matVec (EigenvectorSpaceR Real.sqrt s k j i U space model)
        (EigenvaluesAndDecompositionCoefficientAlpha Real.sqrt s k j i U space model).2
      = deltaU s k j i U space := by
  obtain ⟨u, v, w, hT, c, b, d, -, -, hb, hd, hL, hR⟩ := eigen_fin s hγ hA hAh
  obtain ⟨δ, hδ⟩ := deltaU_fin s hA hAh
  rw [alpha_eq_matVec, hL, hR, hδ]
  simp only [matVec_fin, Matrix.mulVec_mulVec, matR_mul_matL s u v w hT c b d hb hd,
    Matrix.one_mulVec]

theorem zero_jump_adm (s : Fin DIMS) (k j i : Int) (U : Grid ℝ) (space : Space)
    (model : Model ℝ) (hγ : 1 < model.gamma)
    (hA : Admissible U (IndexMath k j i space * DIMU) model)
    (heq : ∀ m : Fin DIMU, U (neighbour s k j i space + (m : Nat))
      = U (IndexMath k j i space * DIMU + (m : Nat))) :
    ∀ r, (EigenvaluesAndDecompositionCoefficientAlpha Real.sqrt s k j i U space model).2 r = 0 := by
  have hAh : Admissible U (neighbour s k j i space) model := admissible_congr hA heq
  obtain ⟨u, v, w, hT, c, b, d, -, -, hb, hd, hL, hR⟩ := eigen_fin s hγ hA hAh
  obtain ⟨ρ, m1, m2, m3, E, e0, e1, e2, e3, e4, -, -⟩ := admissible_fin hA
  have hδ : deltaU s k j i U space = fun _ => fin (0 : ℝ) := by
    funext m
    simp only [deltaU, heq m]
    revert m
    refine forall_fin5 ?_ ?_ ?_ ?_ ?_
    · show U (_ + ((0 : Nat) : Int)) - U (_ + ((0 : Nat) : Int)) = _
      rw [Nat.cast_zero, add_zero, e0, fin_sub, sub_self]
    · show U (_ + 1) - U (_ + 1) = _
      rw [e1, fin_sub, sub_self]
    · show U (_ + 2) - U (_ + 2) = _
      rw [e2, fin_sub, sub_self]
    · show U (_ + 3) - U (_ + 3) = _
      rw [e3, fin_sub, sub_self]
    · show U (_ + 4) - U (_ + 4) = _
      rw [e4, fin_sub, sub_self]
  intro r
  rw [alpha_eq_matVec, hL, hδ]
  simp only [matVec, fin_mul, fin_add, mul_zero, add_zero, zero_eq_fin]

/-! ## Exchange of two axes -/

theorem sumsq_swapXY (a b c : CReal K) : b * b + a * a + c * c = a * a + b * b + c * c := by
  ac_rfl

theorem sumsq_swapXZ (a b c : CReal K) : c * c + b * b + a * a = a * a + b * b + c * c := by
  ac_rfl

theorem sumsq_swapYZ (a b c : CReal K) : a * a + c * c + b * b = a * a + b * b + c * c := by
  ac_rfl

theorem vec6_0 {α : Type} (a b c d e f : α) : (![a, b, c, d, e, f] : Fin 6 → α) 0 = a := rfl
theorem vec6_1 {α : Type} (a b c d e f : α) : (![a, b, c, d, e, f] : Fin 6 → α) 1 = b := rfl
theorem vec6_2 {α : Type} (a b c d e f : α) : (![a, b, c, d, e, f] : Fin 6 → α) 2 = c := rfl
theorem vec6_3 {α : Type} (a b c d e f : α) : (![a, b, c, d, e, f] : Fin 6 → α) 3 = d := rfl
theorem vec6_4 {α : Type} (a b c d e f : α) : (![a, b, c, d, e, f] : Fin 6 → α) 4 = e := rfl

theorem cmul_right_comm (a x y : CReal K) : a * x * y = a * y * x := by
  ac_rfl

theorem vec6_congr {α : Type} {a a' b b' c c' d d' e e' f f' : α} (ha : a = a') (hb : b = b')
    (hc : c = c') (hd : d = d') (he : e = e') (hf : f = f') :
    (![a, b, c, d, e, f] : Fin 6 → α) = ![a', b', c', d', e', f'] := by
  subst ha hb hc hd he hf; rfl

theorem lambdaPlus_two (s : Fin DIMS) (Uo : Fin DIMUo → CReal K) :
    lambdaPlus (splitLambda s Uo) 2 = lambdaPlus (splitLambda s Uo) 1 := rfl

theorem lambdaPlus_three (s : Fin DIMS) (Uo : Fin DIMUo → CReal K) :
    lambdaPlus (splitLambda s Uo) 3 = lambdaPlus (splitLambda s Uo) 1 := rfl

theorem lambdaMinus_two (s : Fin DIMS) (Uo : Fin DIMUo → CReal K) :
    lambdaMinus (splitLambda s Uo) 2 = lambdaMinus (splitLambda s Uo) 1 := rfl

theorem lambdaMinus_three (s : Fin DIMS) (Uo : Fin DIMUo → CReal K) :
    lambdaMinus (splitLambda s Uo) 3 = lambdaMinus (splitLambda s Uo) 1 := rfl

theorem FluxVectorSplitting_fst (sqrtK : K → K) (s : Fin DIMS) (k j i : Int) (U : Grid K)
    (space : Space) (model : Model K) :
    (FluxVectorSplitting sqrtK s k j i U space model).1
      = AssembleConvectiveFlux s (lambdaPlus (splitLambda s (splitUo sqrtK k j i U space model)))
          (splitUo sqrtK k j i U space model) (fin model.gamma) := rfl

theorem FluxVectorSplitting_snd (sqrtK : K → K) (s : Fin DIMS) (k j i : Int) (U : Grid K)
    (space : Space) (model : Model K) :
    (FluxVectorSplitting sqrtK s k j i U space model).2
      = AssembleConvectiveFlux s (lambdaMinus (splitLambda s (splitUo sqrtK k j i U space model)))
          (splitUo sqrtK k j i U space model) (fin model.gamma) := rfl

theorem splitUo_swapXY (sqrtK : K → K) (k j i : Int) {U U' : Grid K} (space : Space)
    (model : Model K)
    (a0 : U' (IndexMath k j i space * DIMU) = U (IndexMath k j i space * DIMU))
    (a1 : U' (IndexMath k j i space * DIMU + 1) = U (IndexMath k j i space * DIMU + 2))
    (a2 : U' (IndexMath k j i space * DIMU + 2) = U (IndexMath k j i space * DIMU + 1))
    (a3 : U' (IndexMath k j i space * DIMU + 3) = U (IndexMath k j i space * DIMU + 3))
    (a4 : U' (IndexMath k j i space * DIMU + 4) = U (IndexMath k j i space * DIMU + 4)) :
    splitUo sqrtK k j i U' space model
      = ![splitUo sqrtK k j i U space model 0, splitUo sqrtK k j i U space model 2, splitUo sqrtK k j i U space model 1, splitUo sqrtK k j i U space model 3, splitUo sqrtK k j i U space model 4, splitUo sqrtK k j i U space model 5] := by
  have hsq := sumsq_swapXY (U (IndexMath k j i space * DIMU + 1))
    (U (IndexMath k j i space * DIMU + 2)) (U (IndexMath k j i space * DIMU + 3))
  simp only [splitUo, PrimitiveByConservative, a0, a1, a2, a3, a4, vec6_5,
    Matrix.cons_val_zero, Matrix.cons_val_one, Matrix.cons_val_two, Matrix.cons_val_three,
    Matrix.cons_val_four, Matrix.head_cons, Matrix.tail_cons, hsq]

theorem splitLambda_swapXY (Uo : Fin DIMUo → CReal K) :
    splitLambda Y ![Uo 0, Uo 2, Uo 1, Uo 3, Uo 4, Uo 5] = splitLambda X Uo := by
  have h1 : fin ((0 : Int) : K) * Uo 3 + fin ((1 : Int) : K) * Uo 1 + fin ((0 : Int) : K) * Uo 2
      = fin ((0 : Int) : K) * Uo 3 + fin ((0 : Int) : K) * Uo 2 + fin ((1 : Int) : K) * Uo 1 := by
    ac_rfl
  simp only [splitLambda, h, vec6_5, Matrix.cons_val_zero, Matrix.cons_val_one,
    Matrix.cons_val_two, Matrix.cons_val_three, Matrix.head_cons, Matrix.tail_cons, h1]

theorem assemble_swapXY (lp : Fin DIMU → CReal K) (Uo : Fin DIMUo → CReal K) (g : CReal K)
    (l2 : lp 2 = lp 1) (l3 : lp 3 = lp 1) :
    ∀ m, AssembleConvectiveFlux Y lp ![Uo 0, Uo 2, Uo 1, Uo 3, Uo 4, Uo 5] g m
      = AssembleConvectiveFlux X lp Uo g (axisSwap X Y m) := by
  have e0 : axisSwap X Y 0 = 0 := by decide
  have e1 : axisSwap X Y 1 = 2 := by decide
  have e2 : axisSwap X Y 2 = 1 := by decide
  have e3 : axisSwap X Y 3 = 3 := by decide
  have e4 : axisSwap X Y 4 = 4 := by decide
  have hsq := sumsq_swapXY (Uo 1) (Uo 2) (Uo 3)
  refine forall_fin5 ?_ ?_ ?_ ?_ ?_ <;>
    simp only [e0, e1, e2, e3, e4, AssembleConvectiveFlux, AssembledFluxX, AssembledFluxY,
      AssembledFluxZ, vec6_5, vec5_0, vec5_1, vec5_2, vec5_3, vec5_4, l2, l3, hsq,
      Matrix.cons_val_zero, Matrix.cons_val_one, Matrix.cons_val_two, Matrix.cons_val_three,
      Matrix.cons_val_four, Matrix.head_cons, Matrix.tail_cons]

theorem convective_swapXY (k j i : Int) {U U' : Grid K} (space : Space) (model : Model K)
    (a0 : U' (IndexMath k j i space * DIMU) = U (IndexMath k j i space * DIMU))
    (a1 : U' (IndexMath k j i space * DIMU + 1) = U (IndexMath k j i space * DIMU + 2))
    (a2 : U' (IndexMath k j i space * DIMU + 2) = U (IndexMath k j i space * DIMU + 1))
    (a3 : U' (IndexMath k j i space * DIMU + 3) = U (IndexMath k j i space * DIMU + 3))
    (a4 : U' (IndexMath k j i space * DIMU + 4) = U (IndexMath k j i space * DIMU + 4)) :
    ∀ m, ConvectiveFluxY k j i U' space model m
      = ConvectiveFluxX k j i U space model (axisSwap X Y m) := by
  have e0 : axisSwap X Y 0 = 0 := by decide
  have e1 : axisSwap X Y 1 = 2 := by decide
  have e2 : axisSwap X Y 2 = 1 := by decide
  have e3 : axisSwap X Y 3 = 3 := by decide
  have e4 : axisSwap X Y 4 = 4 := by decide
  have hsq := sumsq_swapXY
    (U (IndexMath k j i space * DIMU + 1) / U (IndexMath k j i space * DIMU))
    (U (IndexMath k j i space * DIMU + 2) / U (IndexMath k j i space * DIMU))
    (U (IndexMath k j i space * DIMU + 3) / U (IndexMath k j i space * DIMU))
  refine forall_fin5 ?_ ?_ ?_ ?_ ?_ <;>
    simp only [e0, e1, e2, e3, e4, ConvectiveFluxX, ConvectiveFluxY, ConvectiveFluxZ, a0, a1, a2,
      a3, a4, vec5_0, vec5_1, vec5_2, vec5_3, vec5_4, hsq]

theorem roe_swapXY (sqrtK : K → K) (Uo : Fin DIMUo → CReal K) {idx idxh idx' idxh' : Int}
    {U U' : Grid K} (model : Model K)
    (a0 : U' (idx') = U (idx))
    (a1 : U' (idx' + 1) = U (idx + 2))
    (a2 : U' (idx' + 2) = U (idx + 1))
    (a3 : U' (idx' + 3) = U (idx + 3))
    (a4 : U' (idx' + 4) = U (idx + 4))
    (b0 : U' (idxh') = U (idxh))
    (b1 : U' (idxh' + 1) = U (idxh + 2))
    (b2 : U' (idxh' + 2) = U (idxh + 1))
    (b3 : U' (idxh' + 3) = U (idxh + 3))
    (b4 : U' (idxh' + 4) = U (idxh + 4)) :
    ComputeRoeAverage sqrtK Uo idx' idxh' U' model
      = ![ComputeRoeAverage sqrtK Uo idx idxh U model 0, ComputeRoeAverage sqrtK Uo idx idxh U model 2, ComputeRoeAverage sqrtK Uo idx idxh U model 1, ComputeRoeAverage sqrtK Uo idx idxh U model 3, ComputeRoeAverage sqrtK Uo idx idxh U model 4, ComputeRoeAverage sqrtK Uo idx idxh U model 5] := by
  simp only [ComputeRoeAverage, a0, a1, a2, a3, a4, b0, b1, b2, b3, b4, vec6_5,
    Matrix.cons_val_zero, Matrix.cons_val_one, Matrix.cons_val_two, Matrix.cons_val_three,
    Matrix.cons_val_four, Matrix.head_cons, Matrix.tail_cons]
  refine vec6_congr rfl rfl rfl rfl ?_ ?_ <;> ac_rfl

theorem eigenBody_swapXY (sqrtK : K → K) (k j i : Int) {U U' : Grid K} (space : Space)
    (model : Model K)
    (h1 : ComputeRoeAverage sqrtK (fun _ => 0.0) (IndexMath k j i space * DIMU)
        (IndexMath k (j + 1) i space * DIMU) U' model 1
      = ComputeRoeAverage sqrtK (fun _ => 0.0) (IndexMath k j i space * DIMU)
        (IndexMath k j (i + 1) space * DIMU) U model 2)
    (h2 : ComputeRoeAverage sqrtK (fun _ => 0.0) (IndexMath k j i space * DIMU)
        (IndexMath k (j + 1) i space * DIMU) U' model 2
      = ComputeRoeAverage sqrtK (fun _ => 0.0) (IndexMath k j i space * DIMU)
        (IndexMath k j (i + 1) space * DIMU) U model 1)
    (h3 : ComputeRoeAverage sqrtK (fun _ => 0.0) (IndexMath k j i space * DIMU)
        (IndexMath k (j + 1) i space * DIMU) U' model 3
      = ComputeRoeAverage sqrtK (fun _ => 0.0) (IndexMath k j i space * DIMU)
        (IndexMath k j (i + 1) space * DIMU) U model 3)
    (h4 : ComputeRoeAverage sqrtK (fun _ => 0.0) (IndexMath k j i space * DIMU)
        (IndexMath k (j + 1) i space * DIMU) U' model 4
      = ComputeRoeAverage sqrtK (fun _ => 0.0) (IndexMath k j i space * DIMU)
        (IndexMath k j (i + 1) space * DIMU) U model 4)
    (h5 : ComputeRoeAverage sqrtK (fun _ => 0.0) (IndexMath k j i space * DIMU)
        (IndexMath k (j + 1) i space * DIMU) U' model 5
      = ComputeRoeAverage sqrtK (fun _ => 0.0) (IndexMath k j i space * DIMU)
        (IndexMath k j (i + 1) space * DIMU) U model 5)
    : (EigenvaluesAndEigenvectorSpaceLY sqrtK k j i U' space model).1
      = (EigenvaluesAndEigenvectorSpaceLX sqrtK k j i U space model).1 ∧
    (∀ r c, (EigenvaluesAndEigenvectorSpaceLY sqrtK k j i U' space model).2 r c
      = (EigenvaluesAndEigenvectorSpaceLX sqrtK k j i U space model).2
          (axisSwap X Y r) (axisSwap X Y c)) ∧
    (∀ r c, EigenvectorSpaceRY sqrtK k j i U' space model r c
      = EigenvectorSpaceRX sqrtK k j i U space model (axisSwap X Y r)
          (axisSwap X Y c)) := by
  have e0 : axisSwap X Y 0 = 0 := by decide
  have e1 : axisSwap X Y 1 = 2 := by decide
  have e2 : axisSwap X Y 2 = 1 := by decide
  have e3 : axisSwap X Y 3 = 3 := by decide
  have e4 : axisSwap X Y 4 = 4 := by decide
  simp only [EigenvaluesAndEigenvectorSpaceLX, EigenvaluesAndEigenvectorSpaceLY,
    EigenvaluesAndEigenvectorSpaceLZ, EigenvectorSpaceRX, EigenvectorSpaceRY, EigenvectorSpaceRZ,
    h1, h2, h3, h4, h5]
  generalize ComputeRoeAverage sqrtK (fun _ => 0.0) (IndexMath k j i space * DIMU)
    (IndexMath k j (i + 1) space * DIMU) U model = Uo
  have hsq := sumsq_swapXY (Uo 1) (Uo 2) (Uo 3)
  simp only [hsq]
  refine ⟨by first | trivial | rfl, ?_, ?_⟩
  · refine forall_fin5 ?_ ?_ ?_ ?_ ?_ <;> refine forall_fin5 ?_ ?_ ?_ ?_ ?_ <;>
      simp only [e0, e1, e2, e3, e4, vec5_0, vec5_1, vec5_2, vec5_3, vec5_4] <;>
      first | rfl | exact cmul_right_comm _ _ _
  · refine forall_fin5 ?_ ?_ ?_ ?_ ?_ <;> refine forall_fin5 ?_ ?_ ?_ ?_ ?_ <;>
      simp only [e0, e1, e2, e3, e4, vec5_0, vec5_1, vec5_2, vec5_3, vec5_4]

theorem eigen_swapXY (sqrtK : K → K) (k j i : Int) {U U' : Grid K} (space : Space)
    (model : Model K)
    (hc : ∀ m : Fin DIMU, U' (IndexMath k j i space * DIMU + (m : Nat))
      = U (IndexMath k j i space * DIMU + (axisSwap X Y m : Nat)))
    (hn : ∀ m : Fin DIMU, U' (neighbour Y k j i space + (m : Nat))
      = U (neighbour X k j i space + (axisSwap X Y m : Nat))) :
    (EigenvaluesAndEigenvectorSpaceLY sqrtK k j i U' space model).1
      = (EigenvaluesAndEigenvectorSpaceLX sqrtK k j i U space model).1 ∧
    (∀ r c, (EigenvaluesAndEigenvectorSpaceLY sqrtK k j i U' space model).2 r c
      = (EigenvaluesAndEigenvectorSpaceLX sqrtK k j i U space model).2
          (axisSwap X Y r) (axisSwap X Y c)) ∧
    (∀ r c, EigenvectorSpaceRY sqrtK k j i U' space model r c
      = EigenvectorSpaceRX sqrtK k j i U space model (axisSwap X Y r)
          (axisSwap X Y c)) := by
  have e0 : axisSwap X Y 0 = 0 := by decide
  have e1 : axisSwap X Y 1 = 2 := by decide
  have e2 : axisSwap X Y 2 = 1 := by decide
  have e3 : axisSwap X Y 3 = 3 := by decide
  have e4 : axisSwap X Y 4 = 4 := by decide
  have a0 := hc 0
  have a1 := hc 1
  have a2 := hc 2
  have a3 := hc 3
  have a4 := hc 4
  have b0 := hn 0
  have b1 := hn 1
  have b2 := hn 2
  have b3 := hn 3
  have b4 := hn 4
  simp only [neighbour, Matrix.cons_val_zero, Matrix.cons_val_one, Matrix.cons_val_two,
    Matrix.head_cons, Matrix.tail_cons, e0, e1, e2, e3, e4, fin5_val_0, fin5_val_1, fin5_val_2,
    fin5_val_3, fin5_val_4, add_zero] at a0 a1 a2 a3 a4 b0 b1 b2 b3 b4
  have hRoe := roe_swapXY sqrtK (fun _ => 0.0) model a0 a1 a2 a3 a4 b0 b1 b2 b3 b4
  exact eigenBody_swapXY sqrtK k j i space model
    ((congrFun hRoe 1).trans (vec6_1 _ _ _ _ _ _)) ((congrFun hRoe 2).trans (vec6_2 _ _ _ _ _ _))
    ((congrFun hRoe 3).trans (vec6_3 _ _ _ _ _ _)) ((congrFun hRoe 4).trans (vec6_4 _ _ _ _ _ _))
    ((congrFun hRoe 5).trans (vec6_5 _ _ _ _ _ _))

theorem flux_swapXY (sqrtK : K → K) (k j i : Int) {U U' : Grid K} (space : Space)
    (model : Model K)
    (hc : ∀ m : Fin DIMU, U' (IndexMath k j i space * DIMU + (m : Nat))
      = U (IndexMath k j i space * DIMU + (axisSwap X Y m : Nat))) :
    (∀ m, (FluxVectorSplitting sqrtK Y k j i U' space model).1 m
      = (FluxVectorSplitting sqrtK X k j i U space model).1 (axisSwap X Y m)) ∧
    (∀ m, (FluxVectorSplitting sqrtK Y k j i U' space model).2 m
      = (FluxVectorSplitting sqrtK X k j i U space model).2 (axisSwap X Y m)) ∧
    (∀ m, ConvectiveFluxY k j i U' space model m
      = ConvectiveFluxX k j i U space model (axisSwap X Y m)) := by
  have e0 : axisSwap X Y 0 = 0 := by decide
  have e1 : axisSwap X Y 1 = 2 := by decide
  have e2 : axisSwap X Y 2 = 1 := by decide
  have e3 : axisSwap X Y 3 = 3 := by decide
  have e4 : axisSwap X Y 4 = 4 := by decide
  have a0 := hc 0
  have a1 := hc 1
  have a2 := hc 2
  have a3 := hc 3
  have a4 := hc 4
  simp only [e0, e1, e2, e3, e4, fin5_val_0, fin5_val_1, fin5_val_2, fin5_val_3, fin5_val_4,
    add_zero] at a0 a1 a2 a3 a4
  refine ⟨fun m => ?_, fun m => ?_, convective_swapXY k j i space model a0 a1 a2 a3 a4⟩
  · rw [FluxVectorSplitting_fst, FluxVectorSplitting_fst,
      splitUo_swapXY sqrtK k j i space model a0 a1 a2 a3 a4, splitLambda_swapXY]
    exact assemble_swapXY _ _ _ (lambdaPlus_two _ _) (lambdaPlus_three _ _) m
  · rw [FluxVectorSplitting_snd, FluxVectorSplitting_snd,
      splitUo_swapXY sqrtK k j i space model a0 a1 a2 a3 a4, splitLambda_swapXY]
    exact assemble_swapXY _ _ _ (lambdaMinus_two _ _) (lambdaMinus_three _ _) m

theorem splitUo_swapXZ (sqrtK : K → K) (k j i : Int) {U U' : Grid K} (space : Space)
    (model : Model K)
    (a0 : U' (IndexMath k j i space * DIMU) = U (IndexMath k j i space * DIMU))
    (a1 : U' (IndexMath k j i space * DIMU + 1) = U (IndexMath k j i space * DIMU + 3))
    (a2 : U' (IndexMath k j i space * DIMU + 2) = U (IndexMath k j i space * DIMU + 2))
    (a3 : U' (IndexMath k j i space * DIMU + 3) = U (IndexMath k j i space * DIMU + 1))
    (a4 : U' (IndexMath k j i space * DIMU + 4) = U (IndexMath k j i space * DIMU + 4)) :
    splitUo sqrtK k j i U' space model
      = ![splitUo sqrtK k j i U space model 0, splitUo sqrtK k j i U space model 3, splitUo sqrtK k j i U space model 2, splitUo sqrtK k j i U space model 1, splitUo sqrtK k j i U space model 4, splitUo sqrtK k j i U space model 5] := by
  have hsq := sumsq_swapXZ (U (IndexMath k j i space * DIMU + 1))
    (U (IndexMath k j i space * DIMU + 2)) (U (IndexMath k j i space * DIMU + 3))
  simp only [splitUo, PrimitiveByConservative, a0, a1, a2, a3, a4, vec6_5,
    Matrix.cons_val_zero, Matrix.cons_val_one, Matrix.cons_val_two, Matrix.cons_val_three,
    Matrix.cons_val_four, Matrix.head_cons, Matrix.tail_cons, hsq]

theorem splitLambda_swapXZ (Uo : Fin DIMUo → CReal K) :
    splitLambda Z ![Uo 0, Uo 3, Uo 2, Uo 1, Uo 4, Uo 5] = splitLambda X Uo := by
  have h1 : fin ((1 : Int) : K) * Uo 1 + fin ((0 : Int) : K) * Uo 2 + fin ((0 : Int) : K) * Uo 3
      = fin ((0 : Int) : K) * Uo 3 + fin ((0 : Int) : K) * Uo 2 + fin ((1 : Int) : K) * Uo 1 := by
    ac_rfl
  simp only [splitLambda, h, vec6_5, Matrix.cons_val_zero, Matrix.cons_val_one,
    Matrix.cons_val_two, Matrix.cons_val_three, Matrix.head_cons, Matrix.tail_cons, h1]

theorem assemble_swapXZ (lp : Fin DIMU → CReal K) (Uo : Fin DIMUo → CReal K) (g : CReal K)
    (l2 : lp 2 = lp 1) (l3 : lp 3 = lp 1) :
    ∀ m, AssembleConvectiveFlux Z lp ![Uo 0, Uo 3, Uo 2, Uo 1, Uo 4, Uo 5] g m
      = AssembleConvectiveFlux X lp Uo g (axisSwap X Z m) := by
  have e0 : axisSwap X Z 0 = 0 := by decide
  have e1 : axisSwap X Z 1 = 3 := by decide
  have e2 : axisSwap X Z 2 = 2 := by decide
  have e3 : axisSwap X Z 3 = 1 := by decide
  have e4 : axisSwap X Z 4 = 4 := by decide
  have hsq := sumsq_swapXZ (Uo 1) (Uo 2) (Uo 3)
  refine forall_fin5 ?_ ?_ ?_ ?_ ?_ <;>
    simp only [e0, e1, e2, e3, e4, AssembleConvectiveFlux, AssembledFluxX, AssembledFluxY,
      AssembledFluxZ, vec6_5, vec5_0, vec5_1, vec5_2, vec5_3, vec5_4, l2, l3, hsq,
      Matrix.cons_val_zero, Matrix.cons_val_one, Matrix.cons_val_two, Matrix.cons_val_three,
      Matrix.cons_val_four, Matrix.head_cons, Matrix.tail_cons]

theorem convective_swapXZ (k j i : Int) {U U' : Grid K} (space : Space) (model : Model K)
    (a0 : U' (IndexMath k j i space * DIMU) = U (IndexMath k j i space * DIMU))
    (a1 : U' (IndexMath k j i space * DIMU + 1) = U (IndexMath k j i space * DIMU + 3))
    (a2 : U' (IndexMath k j i space * DIMU + 2) = U (IndexMath k j i space * DIMU + 2))
    (a3 : U' (IndexMath k j i space * DIMU + 3) = U (IndexMath k j i space * DIMU + 1))
    (a4 : U' (IndexMath k j i space * DIMU + 4) = U (IndexMath k j i space * DIMU + 4)) :
    ∀ m, ConvectiveFluxZ k j i U' space model m
      = ConvectiveFluxX k j i U space model (axisSwap X Z m) := by
  have e0 : axisSwap X Z 0 = 0 := by decide
  have e1 : axisSwap X Z 1 = 3 := by decide
  have e2 : axisSwap X Z 2 = 2 := by decide
  have e3 : axisSwap X Z 3 = 1 := by decide
  have e4 : axisSwap X Z 4 = 4 := by decide
  have hsq := sumsq_swapXZ
    (U (IndexMath k j i space * DIMU + 1) / U (IndexMath k j i space * DIMU))
    (U (IndexMath k j i space * DIMU + 2) / U (IndexMath k j i space * DIMU))
    (U (IndexMath k j i space * DIMU + 3) / U (IndexMath k j i space * DIMU))
  refine forall_fin5 ?_ ?_ ?_ ?_ ?_ <;>
    simp only [e0, e1, e2, e3, e4, ConvectiveFluxX, ConvectiveFluxY, ConvectiveFluxZ, a0, a1, a2,
      a3, a4, vec5_0, vec5_1, vec5_2, vec5_3, vec5_4, hsq]

theorem roe_swapXZ (sqrtK : K → K) (Uo : Fin DIMUo → CReal K) {idx idxh idx' idxh' : Int}
    {U U' : Grid K} (model : Model K)
    (a0 : U' (idx') = U (idx))
    (a1 : U' (idx' + 1) = U (idx + 3))
    (a2 : U' (idx' + 2) = U (idx + 2))
    (a3 : U' (idx' + 3) = U (idx + 1))
    (a4 : U' (idx' + 4) = U (idx + 4))
    (b0 : U' (idxh') = U (idxh))
    (b1 : U' (idxh' + 1) = U (idxh + 3))
    (b2 : U' (idxh' + 2) = U (idxh + 2))
    (b3 : U' (idxh' + 3) = U (idxh + 1))
    (b4 : U' (idxh' + 4) = U (idxh + 4)) :
    ComputeRoeAverage sqrtK Uo idx' idxh' U' model
      = ![ComputeRoeAverage sqrtK Uo idx idxh U model 0, ComputeRoeAverage sqrtK Uo idx idxh U model 3, ComputeRoeAverage sqrtK Uo idx idxh U model 2, ComputeRoeAverage sqrtK Uo idx idxh U model 1, ComputeRoeAverage sqrtK Uo idx idxh U model 4, ComputeRoeAverage sqrtK Uo idx idxh U model 5] := by
  simp only [ComputeRoeAverage, a0, a1, a2, a3, a4, b0, b1, b2, b3, b4, vec6_5,
    Matrix.cons_val_zero, Matrix.cons_val_one, Matrix.cons_val_two, Matrix.cons_val_three,
    Matrix.cons_val_four, Matrix.head_cons, Matrix.tail_cons]
  refine vec6_congr rfl rfl rfl rfl ?_ ?_ <;> ac_rfl

theorem eigenBody_swapXZ (sqrtK : K → K) (k j i : Int) {U U' : Grid K} (space : Space)
    (model : Model K)
    (h1 : ComputeRoeAverage sqrtK (fun _ => 0.0) (IndexMath k j i space * DIMU)
        (IndexMath (k + 1) j i space * DIMU) U' model 1
      = ComputeRoeAverage sqrtK (fun _ => 0.0) (IndexMath k j i space * DIMU)
        (IndexMath k j (i + 1) space * DIMU) U model 3)
    (h2 : ComputeRoeAverage sqrtK (fun _ => 0.0) (IndexMath k j i space * DIMU)
        (IndexMath (k + 1) j i space * DIMU) U' model 2
      = ComputeRoeAverage sqrtK (fun _ => 0.0) (IndexMath k j i space * DIMU)
        (IndexMath k j (i + 1) space * DIMU) U model 2)
    (h3 : ComputeRoeAverage sqrtK (fun _ => 0.0) (IndexMath k j i space * DIMU)
        (IndexMath (k + 1) j i space * DIMU) U' model 3
      = ComputeRoeAverage sqrtK (fun _ => 0.0) (IndexMath k j i space * DIMU)
        (IndexMath k j (i + 1) space * DIMU) U model 1)
    (h4 : ComputeRoeAverage sqrtK (fun _ => 0.0) (IndexMath k j i space * DIMU)
        (IndexMath (k + 1) j i space * DIMU) U' model 4
      = ComputeRoeAverage sqrtK (fun _ => 0.0) (IndexMath k j i space * DIMU)
        (IndexMath k j (i + 1) space * DIMU) U model 4)
    (h5 : ComputeRoeAverage sqrtK (fun _ => 0.0) (IndexMath k j i space * DIMU)
        (IndexMath (k + 1) j i space * DIMU) U' model 5
      = ComputeRoeAverage sqrtK (fun _ => 0.0) (IndexMath k j i space * DIMU)
        (IndexMath k j (i + 1) space * DIMU) U model 5)
    : (EigenvaluesAndEigenvectorSpaceLZ sqrtK k j i U' space model).1
      = (EigenvaluesAndEigenvectorSpaceLX sqrtK k j i U space model).1 ∧
    (∀ r c, (EigenvaluesAndEigenvectorSpaceLZ sqrtK k j i U' space model).2 r c
      = (EigenvaluesAndEigenvectorSpaceLX sqrtK k j i U space model).2
          (axisSwap X Z r) (axisSwap X Z c)) ∧
    (∀ r c, EigenvectorSpaceRZ sqrtK k j i U' space model r c
      = EigenvectorSpaceRX sqrtK k j i U space model (axisSwap X Z r)
          (axisSwap X Z c)) := by
  have e0 : axisSwap X Z 0 = 0 := by decide
  have e1 : axisSwap X Z 1 = 3 := by decide
  have e2 : axisSwap X Z 2 = 2 := by decide
  have e3 : axisSwap X Z 3 = 1 := by decide
  have e4 : axisSwap X Z 4 = 4 := by decide
  simp only [EigenvaluesAndEigenvectorSpaceLX, EigenvaluesAndEigenvectorSpaceLY,
    EigenvaluesAndEigenvectorSpaceLZ, EigenvectorSpaceRX, EigenvectorSpaceRY, EigenvectorSpaceRZ,
    h1, h2, h3, h4, h5]
  generalize ComputeRoeAverage sqrtK (fun _ => 0.0) (IndexMath k j i space * DIMU)
    (IndexMath k j (i + 1) space * DIMU) U model = Uo
  have hsq := sumsq_swapXZ (Uo 1) (Uo 2) (Uo 3)
  simp only [hsq]
  refine ⟨by first | trivial | rfl, ?_, ?_⟩
  · refine forall_fin5 ?_ ?_ ?_ ?_ ?_ <;> refine forall_fin5 ?_ ?_ ?_ ?_ ?_ <;>
      simp only [e0, e1, e2, e3, e4, vec5_0, vec5_1, vec5_2, vec5_3, vec5_4] <;>
      first | rfl | exact cmul_right_comm _ _ _
  · refine forall_fin5 ?_ ?_ ?_ ?_ ?_ <;> refine forall_fin5 ?_ ?_ ?_ ?_ ?_ <;>
      simp only [e0, e1, e2, e3, e4, vec5_0, vec5_1, vec5_2, vec5_3, vec5_4]

theorem eigen_swapXZ (sqrtK : K → K) (k j i : Int) {U U' : Grid K} (space : Space)
    (model : Model K)
    (hc : ∀ m : Fin DIMU, U' (IndexMath k j i space * DIMU + (m : Nat))
      = U (IndexMath k j i space * DIMU + (axisSwap X Z m : Nat)))
    (hn : ∀ m : Fin DIMU, U' (neighbour Z k j i space + (m : Nat))
      = U (neighbour X k j i space + (axisSwap X Z m : Nat))) :
    (EigenvaluesAndEigenvectorSpaceLZ sqrtK k j i U' space model).1
      = (EigenvaluesAndEigenvectorSpaceLX sqrtK k j i U space model).1 ∧
    (∀ r c, (EigenvaluesAndEigenvectorSpaceLZ sqrtK k j i U' space model).2 r c
      = (EigenvaluesAndEigenvectorSpaceLX sqrtK k j i U space model).2
          (axisSwap X Z r) (axisSwap X Z c)) ∧
    (∀ r c, EigenvectorSpaceRZ sqrtK k j i U' space model r c
      = EigenvectorSpaceRX sqrtK k j i U space model (axisSwap X Z r)
          (axisSwap X Z c)) := by
  have e0 : axisSwap X Z 0 = 0 := by decide
  have e1 : axisSwap X Z 1 = 3 := by decide
  have e2 : axisSwap X Z 2 = 2 := by decide
  have e3 : axisSwap X Z 3 = 1 := by decide
  have e4 : axisSwap X Z 4 = 4 := by decide
  have a0 := hc 0
  have a1 := hc 1
  have a2 := hc 2
  have a3 := hc 3
  have a4 := hc 4
  have b0 := hn 0
  have b1 := hn 1
  have b2 := hn 2
  have b3 := hn 3
  have b4 := hn 4
  simp only [neighbour, Matrix.cons_val_zero, Matrix.cons_val_one, Matrix.cons_val_two,
    Matrix.head_cons, Matrix.tail_cons, e0, e1, e2, e3, e4, fin5_val_0, fin5_val_1, fin5_val_2,
    fin5_val_3, fin5_val_4, add_zero] at a0 a1 a2 a3 a4 b0 b1 b2 b3 b4
  have hRoe := roe_swapXZ sqrtK (fun _ => 0.0) model a0 a1 a2 a3 a4 b0 b1 b2 b3 b4
  exact eigenBody_swapXZ sqrtK k j i space model
    ((congrFun hRoe 1).trans (vec6_1 _ _ _ _ _ _)) ((congrFun hRoe 2).trans (vec6_2 _ _ _ _ _ _))
    ((congrFun hRoe 3).trans (vec6_3 _ _ _ _ _ _)) ((congrFun hRoe 4).trans (vec6_4 _ _ _ _ _ _))
    ((congrFun hRoe 5).trans (vec6_5 _ _ _ _ _ _))

theorem flux_swapXZ (sqrtK : K → K) (k j i : Int) {U U' : Grid K} (space : Space)
    (model : Model K)
    (hc : ∀ m : Fin DIMU, U' (IndexMath k j i space * DIMU + (m : Nat))
      = U (IndexMath k j i space * DIMU + (axisSwap X Z m : Nat))) :
    (∀ m, (FluxVectorSplitting sqrtK Z k j i U' space model).1 m
      = (FluxVectorSplitting sqrtK X k j i U space model).1 (axisSwap X Z m)) ∧
    (∀ m, (FluxVectorSplitting sqrtK Z k j i U' space model).2 m
      = (FluxVectorSplitting sqrtK X k j i U space model).2 (axisSwap X Z m)) ∧
    (∀ m, ConvectiveFluxZ k j i U' space model m
      = ConvectiveFluxX k j i U space model (axisSwap X Z m)) := by
  have e0 : axisSwap X Z 0 = 0 := by decide
  have e1 : axisSwap X Z 1 = 3 := by decide
  have e2 : axisSwap X Z 2 = 2 := by decide
  have e3 : axisSwap X Z 3 = 1 := by decide
  have e4 : axisSwap X Z 4 = 4 := by decide
  have a0 := hc 0
  have a1 := hc 1
  have a2 := hc 2
  have a3 := hc 3
  have a4 := hc 4
  simp only [e0, e1, e2, e3, e4, fin5_val_0, fin5_val_1, fin5_val_2, fin5_val_3, fin5_val_4,
    add_zero] at a0 a1 a2 a3 a4
  refine ⟨fun m => ?_, fun m => ?_, convective_swapXZ k j i space model a0 a1 a2 a3 a4⟩
  · rw [FluxVectorSplitting_fst, FluxVectorSplitting_fst,
      splitUo_swapXZ sqrtK k j i space model a0 a1 a2 a3 a4, splitLambda_swapXZ]
    exact assemble_swapXZ _ _ _ (lambdaPlus_two _ _) (lambdaPlus_three _ _) m
  · rw [FluxVectorSplitting_snd, FluxVectorSplitting_snd,
      splitUo_swapXZ sqrtK k j i space model a0 a1 a2 a3 a4, splitLambda_swapXZ]
    exact assemble_swapXZ _ _ _ (lambdaMinus_two _ _) (lambdaMinus_three _ _) m

theorem splitUo_swapYZ (sqrtK : K → K) (k j i : Int) {U U' : Grid K} (space : Space)
    (model : Model K)
    (a0 : U' (IndexMath k j i space * DIMU) = U (IndexMath k j i space * DIMU))
    (a1 : U' (IndexMath k j i space * DIMU + 1) = U (IndexMath k j i space * DIMU + 1))
    (a2 : U' (IndexMath k j i space * DIMU + 2) = U (IndexMath k j i space * DIMU + 3))
    (a3 : U' (IndexMath k j i space * DIMU + 3) = U (IndexMath k j i space * DIMU + 2))
    (a4 : U' (IndexMath k j i space * DIMU + 4) = U (IndexMath k j i space * DIMU + 4)) :
    splitUo sqrtK k j i U' space model
      = ![splitUo sqrtK k j i U space model 0, splitUo sqrtK k j i U space model 1, splitUo sqrtK k j i U space model 3, splitUo sqrtK k j i U space model 2, splitUo sqrtK k j i U space model 4, splitUo sqrtK k j i U space model 5] := by
  have hsq := sumsq_swapYZ (U (IndexMath k j i space * DIMU + 1))
    (U (IndexMath k j i space * DIMU + 2)) (U (IndexMath k j i space * DIMU + 3))
  simp only [splitUo, PrimitiveByConservative, a0, a1, a2, a3, a4, vec6_5,
    Matrix.cons_val_zero, Matrix.cons_val_one, Matrix.cons_val_two, Matrix.cons_val_three,
    Matrix.cons_val_four, Matrix.head_cons, Matrix.tail_cons, hsq]

theorem splitLambda_swapYZ (Uo : Fin DIMUo → CReal K) :
    splitLambda Z ![Uo 0, Uo 1, Uo 3, Uo 2, Uo 4, Uo 5] = splitLambda Y Uo := by
  have h1 : fin ((1 : Int) : K) * Uo 2 + fin ((0 : Int) : K) * Uo 3 + fin ((0 : Int) : K) * Uo 1
      = fin ((0 : Int) : K) * Uo 3 + fin ((1 : Int) : K) * Uo 2 + fin ((0 : Int) : K) * Uo 1 := by
    ac_rfl
  simp only [splitLambda, h, vec6_5, Matrix.cons_val_zero, Matrix.cons_val_one,
    Matrix.cons_val_two, Matrix.cons_val_three, Matrix.head_cons, Matrix.tail_cons, h1]

theorem assemble_swapYZ (lp : Fin DIMU → CReal K) (Uo : Fin DIMUo → CReal K) (g : CReal K)
    (l2 : lp 2 = lp 1) (l3 : lp 3 = lp 1) :
    ∀ m, AssembleConvectiveFlux Z lp ![Uo 0, Uo 1, Uo 3, Uo 2, Uo 4, Uo 5] g m
      = AssembleConvectiveFlux Y lp Uo g (axisSwap Y Z m) := by
  have e0 : axisSwap Y Z 0 = 0 := by decide
  have e1 : axisSwap Y Z 1 = 1 := by decide
  have e2 : axisSwap Y Z 2 = 3 := by decide
  have e3 : axisSwap Y Z 3 = 2 := by decide
  have e4 : axisSwap Y Z 4 = 4 := by decide
  have hsq := sumsq_swapYZ (Uo 1) (Uo 2) (Uo 3)
  refine forall_fin5 ?_ ?_ ?_ ?_ ?_ <;>
    simp only [e0, e1, e2, e3, e4, AssembleConvectiveFlux, AssembledFluxX, AssembledFluxY,
      AssembledFluxZ, vec6_5, vec5_0, vec5_1, vec5_2, vec5_3, vec5_4, l2, l3, hsq,
      Matrix.cons_val_zero, Matrix.cons_val_one, Matrix.cons_val_two, Matrix.cons_val_three,
      Matrix.cons_val_four, Matrix.head_cons, Matrix.tail_cons]

theorem convective_swapYZ (k j i : Int) {U U' : Grid K} (space : Space) (model : Model K)
    (a0 : U' (IndexMath k j i space * DIMU) = U (IndexMath k j i space * DIMU))
    (a1 : U' (IndexMath k j i space * DIMU + 1) = U (IndexMath k j i space * DIMU + 1))
    (a2 : U' (IndexMath k j i space * DIMU + 2) = U (IndexMath k j i space * DIMU + 3))
    (a3 : U' (IndexMath k j i space * DIMU + 3) = U (IndexMath k j i space * DIMU + 2))
    (a4 : U' (IndexMath k j i space * DIMU + 4) = U (IndexMath k j i space * DIMU + 4)) :
    ∀ m, ConvectiveFluxZ k j i U' space model m
      = ConvectiveFluxY k j i U space model (axisSwap Y Z m) := by
  have e0 : axisSwap Y Z 0 = 0 := by decide
  have e1 : axisSwap Y Z 1 = 1 := by decide
  have e2 : axisSwap Y Z 2 = 3 := by decide
  have e3 : axisSwap Y Z 3 = 2 := by decide
  have e4 : axisSwap Y Z 4 = 4 := by decide
  have hsq := sumsq_swapYZ
    (U (IndexMath k j i space * DIMU + 1) / U (IndexMath k j i space * DIMU))
    (U (IndexMath k j i space * DIMU + 2) / U (IndexMath k j i space * DIMU))
    (U (IndexMath k j i space * DIMU + 3) / U (IndexMath k j i space * DIMU))
  refine forall_fin5 ?_ ?_ ?_ ?_ ?_ <;>
    simp only [e0, e1, e2, e3, e4, ConvectiveFluxX, ConvectiveFluxY, ConvectiveFluxZ, a0, a1, a2,
      a3, a4, vec5_0, vec5_1, vec5_2, vec5_3, vec5_4, hsq]

theorem roe_swapYZ (sqrtK : K → K) (Uo : Fin DIMUo → CReal K) {idx idxh idx' idxh' : Int}
    {U U' : Grid K} (model : Model K)
    (a0 : U' (idx') = U (idx))
    (a1 : U' (idx' + 1) = U (idx + 1))
    (a2 : U' (idx' + 2) = U (idx + 3))
    (a3 : U' (idx' + 3) = U (idx + 2))
    (a4 : U' (idx' + 4) = U (idx + 4))
    (b0 : U' (idxh') = U (idxh))
    (b1 : U' (idxh' + 1) = U (idxh + 1))
    (b2 : U' (idxh' + 2) = U (idxh + 3))
    (b3 : U' (idxh' + 3) = U (idxh + 2))
    (b4 : U' (idxh' + 4) = U (idxh + 4)) :
    ComputeRoeAverage sqrtK Uo idx' idxh' U' model
      = ![ComputeRoeAverage sqrtK Uo idx idxh U model 0, ComputeRoeAverage sqrtK Uo idx idxh U model 1, ComputeRoeAverage sqrtK Uo idx idxh U model 3, ComputeRoeAverage sqrtK Uo idx idxh U model 2, ComputeRoeAverage sqrtK Uo idx idxh U model 4, ComputeRoeAverage sqrtK Uo idx idxh U model 5] := by
  simp only [ComputeRoeAverage, a0, a1, a2, a3, a4, b0, b1, b2, b3, b4, vec6_5,
    Matrix.cons_val_zero, Matrix.cons_val_one, Matrix.cons_val_two, Matrix.cons_val_three,
    Matrix.cons_val_four, Matrix.head_cons, Matrix.tail_cons]
  refine vec6_congr rfl rfl rfl rfl ?_ ?_ <;> ac_rfl

theorem eigenBody_swapYZ (sqrtK : K → K) (k j i : Int) {U U' : Grid K} (space : Space)
    (model : Model K)
    (h1 : ComputeRoeAverage sqrtK (fun _ => 0.0) (IndexMath k j i space * DIMU)
        (IndexMath (k + 1) j i space * DIMU) U' model 1
      = ComputeRoeAverage sqrtK (fun _ => 0.0) (IndexMath k j i space * DIMU)
        (IndexMath k (j + 1) i space * DIMU) U model 1)
    (h2 : ComputeRoeAverage sqrtK (fun _ => 0.0) (IndexMath k j i space * DIMU)
        (IndexMath (k + 1) j i space * DIMU) U' model 2
      = ComputeRoeAverage sqrtK (fun _ => 0.0) (IndexMath k j i space * DIMU)
        (IndexMath k (j + 1) i space * DIMU) U model 3)
    (h3 : ComputeRoeAverage sqrtK (fun _ => 0.0) (IndexMath k j i space * DIMU)
        (IndexMath (k + 1) j i space * DIMU) U' model 3
      = ComputeRoeAverage sqrtK (fun _ => 0.0) (IndexMath k j i space * DIMU)
        (IndexMath k (j + 1) i space * DIMU) U model 2)
    (h4 : ComputeRoeAverage sqrtK (fun _ => 0.0) (IndexMath k j i space * DIMU)
        (IndexMath (k + 1) j i space * DIMU) U' model 4
      = ComputeRoeAverage sqrtK (fun _ => 0.0) (IndexMath k j i space * DIMU)
        (IndexMath k (j + 1) i space * DIMU) U model 4)
    (h5 : ComputeRoeAverage sqrtK (fun _ => 0.0) (IndexMath k j i space * DIMU)
        (IndexMath (k + 1) j i space * DIMU) U' model 5
      = ComputeRoeAverage sqrtK (fun _ => 0.0) (IndexMath k j i space * DIMU)
        (IndexMath k (j + 1) i space * DIMU) U model 5)
    : (EigenvaluesAndEigenvectorSpaceLZ sqrtK k j i U' space model).1
      = (EigenvaluesAndEigenvectorSpaceLY sqrtK k j i U space model).1 ∧
    (∀ r c, (EigenvaluesAndEigenvectorSpaceLZ sqrtK k j i U' space model).2 r c
      = (EigenvaluesAndEigenvectorSpaceLY sqrtK k j i U space model).2
          (axisSwap Y Z r) (axisSwap Y Z c)) ∧
    (∀ r c, EigenvectorSpaceRZ sqrtK k j i U' space model r c
      = EigenvectorSpaceRY sqrtK k j i U space model (axisSwap Y Z r)
          (axisSwap Y Z c)) := by
  have e0 : axisSwap Y Z 0 = 0 := by decide
  have e1 : axisSwap Y Z 1 = 1 := by decide
  have e2 : axisSwap Y Z 2 = 3 := by decide
  have e3 : axisSwap Y Z 3 = 2 := by decide
  have e4 : axisSwap Y Z 4 = 4 := by decide
  simp only [EigenvaluesAndEigenvectorSpaceLX, EigenvaluesAndEigenvectorSpaceLY,
    EigenvaluesAndEigenvectorSpaceLZ, EigenvectorSpaceRX, EigenvectorSpaceRY, EigenvectorSpaceRZ,
    h1, h2, h3, h4, h5]
  generalize ComputeRoeAverage sqrtK (fun _ => 0.0) (IndexMath k j i space * DIMU)
    (IndexMath k (j + 1) i space * DIMU) U model = Uo
  have hsq := sumsq_swapYZ (Uo 1) (Uo 2) (Uo 3)
  simp only [hsq]
  refine ⟨by first | trivial | rfl, ?_, ?_⟩
  · refine forall_fin5 ?_ ?_ ?_ ?_ ?_ <;> refine forall_fin5 ?_ ?_ ?_ ?_ ?_ <;>
      simp only [e0, e1, e2, e3, e4, vec5_0, vec5_1, vec5_2, vec5_3, vec5_4] <;>
      first | rfl | exact cmul_right_comm _ _ _
  · refine forall_fin5 ?_ ?_ ?_ ?_ ?_ <;> refine forall_fin5 ?_ ?_ ?_ ?_ ?_ <;>
      simp only [e0, e1, e2, e3, e4, vec5_0, vec5_1, vec5_2, vec5_3, vec5_4]

theorem eigen_swapYZ (sqrtK : K → K) (k j i : Int) {U U' : Grid K} (space : Space)
    (model : Model K)
    (hc : ∀ m : Fin DIMU, U' (IndexMath k j i space * DIMU + (m : Nat))
      = U (IndexMath k j i space * DIMU + (axisSwap Y Z m : Nat)))
    (hn : ∀ m : Fin DIMU, U' (neighbour Z k j i space + (m : Nat))
      = U (neighbour Y k j i space + (axisSwap Y Z m : Nat))) :
    (EigenvaluesAndEigenvectorSpaceLZ sqrtK k j i U' space model).1
      = (EigenvaluesAndEigenvectorSpaceLY sqrtK k j i U space model).1 ∧
    (∀ r c, (EigenvaluesAndEigenvectorSpaceLZ sqrtK k j i U' space model).2 r c
      = (EigenvaluesAndEigenvectorSpaceLY sqrtK k j i U space model).2
          (axisSwap Y Z r) (axisSwap Y Z c)) ∧
    (∀ r c, EigenvectorSpaceRZ sqrtK k j i U' space model r c
      = EigenvectorSpaceRY sqrtK k j i U space model (axisSwap Y Z r)
          (axisSwap Y Z c)) := by
  have e0 : axisSwap Y Z 0 = 0 := by decide
  have e1 : axisSwap Y Z 1 = 1 := by decide
  have e2 : axisSwap Y Z 2 = 3 := by decide
  have e3 : axisSwap Y Z 3 = 2 := by decide
  have e4 : axisSwap Y Z 4 = 4 := by decide
  have a0 := hc 0
  have a1 := hc 1
  have a2 := hc 2
  have a3 := hc 3
  have a4 := hc 4
  have b0 := hn 0
  have b1 := hn 1
  have b2 := hn 2
  have b3 := hn 3
  have b4 := hn 4
  simp only [neighbour, Matrix.cons_val_zero, Matrix.cons_val_one, Matrix.cons_val_two,
    Matrix.head_cons, Matrix.tail_cons, e0, e1, e2, e3, e4, fin5_val_0, fin5_val_1, fin5_val_2,
    fin5_val_3, fin5_val_4, add_zero] at a0 a1 a2 a3 a4 b0 b1 b2 b3 b4
  have hRoe := roe_swapYZ sqrtK (fun _ => 0.0) model a0 a1 a2 a3 a4 b0 b1 b2 b3 b4
  exact eigenBody_swapYZ sqrtK k j i space model
    ((congrFun hRoe 1).trans (vec6_1 _ _ _ _ _ _)) ((congrFun hRoe 2).trans (vec6_2 _ _ _ _ _ _))
    ((congrFun hRoe 3).trans (vec6_3 _ _ _ _ _ _)) ((congrFun hRoe 4).trans (vec6_4 _ _ _ _ _ _))
    ((congrFun hRoe 5).trans (vec6_5 _ _ _ _ _ _))

theorem flux_swapYZ (sqrtK : K → K) (k j i : Int) {U U' : Grid K} (space : Space)
    (model : Model K)
    (hc : ∀ m : Fin DIMU, U' (IndexMath k j i space * DIMU + (m : Nat))
      = U (IndexMath k j i space * DIMU + (axisSwap Y Z m : Nat))) :
    (∀ m, (FluxVectorSplitting sqrtK Z k j i U' space model).1 m
      = (FluxVectorSplitting sqrtK Y k j i U space model).1 (axisSwap Y Z m)) ∧
    (∀ m, (FluxVectorSplitting sqrtK Z k j i U' space model).2 m
      = (FluxVectorSplitting sqrtK Y k j i U space model).2 (axisSwap Y Z m)) ∧
    (∀ m, ConvectiveFluxZ k j i U' space model m
      = ConvectiveFluxY k j i U space model (axisSwap Y Z m)) := by
  have e0 : axisSwap Y Z 0 = 0 := by decide
  have e1 : axisSwap Y Z 1 = 1 := by decide
  have e2 : axisSwap Y Z 2 = 3 := by decide
  have e3 : axisSwap Y Z 3 = 2 := by decide
  have e4 : axisSwap Y Z 4 = 4 := by decide
  have a0 := hc 0
  have a1 := hc 1
  have a2 := hc 2
  have a3 := hc 3
  have a4 := hc 4
  simp only [e0, e1, e2, e3, e4, fin5_val_0, fin5_val_1, fin5_val_2, fin5_val_3, fin5_val_4,
    add_zero] at a0 a1 a2 a3 a4
  refine ⟨fun m => ?_, fun m => ?_, convective_swapYZ k j i space model a0 a1 a2 a3 a4⟩
  · rw [FluxVectorSplitting_fst, FluxVectorSplitting_fst,
      splitUo_swapYZ sqrtK k j i space model a0 a1 a2 a3 a4, splitLambda_swapYZ]
    exact assemble_swapYZ _ _ _ (lambdaPlus_two _ _) (lambdaPlus_three _ _) m
  · rw [FluxVectorSplitting_snd, FluxVectorSplitting_snd,
      splitUo_swapYZ sqrtK k j i space model a0 a1 a2 a3 a4, splitLambda_swapYZ]
    exact assemble_swapYZ _ _ _ (lambdaMinus_two _ _) (lambdaMinus_three _ _) m

/-! ## Helpers for the claims -/

theorem pressure_rescale {ρ : K} (hρ : ρ ≠ 0) (m1 m2 m3 E g : CReal K) :
    fin ρ * (E / fin ρ - 0.5 * (m1 / fin ρ * (m1 / fin ρ) + m2 / fin ρ * (m2 / fin ρ)
      + m3 / fin ρ * (m3 / fin ρ))) * (g - 1.0)
    = (E - 0.5 * (m1 * m1 + m2 * m2 + m3 * m3) / fin ρ) * (g - 1.0) := by
  cases m1 <;> cases m2 <;> cases m3 <;> cases E <;> cases g <;>
    simp [hρ]
  all_goals (left; field_simp; ring)

theorem energy_rescale {ρ : K} (hρ : ρ ≠ 0) (E : CReal K) : fin ρ * (E / fin ρ) = E := by
  cases E <;> simp [hρ]
  field_simp

theorem matVec_zero_ne (A : Fin DIMU → Fin DIMU → CReal K) (r : Fin DIMU) {a : K}
    (h : matVec A (fun _ => 0) r = fin a) : a = 0 := by
  simp only [matVec, zero_eq_fin] at h
  cases h0 : A r 0 <;> cases h1 : A r 1 <;> cases h2 : A r 2 <;> cases h3 : A r 3 <;>
    cases h4 : A r 4 <;> simp [h0, h1, h2, h3, h4] at h
  exact h.symm

theorem rest_state (s : Fin DIMS) (k j i : Int) (U : Grid ℝ) (space : Space) (model : Model ℝ)
    (hγ : model.gamma = 1.4)
    (hcell : ∀ m : Fin DIMU,
      U (IndexMath k j i space * DIMU + (m : Nat)) = fin (![1, 0, 0, 0, 2.5] m))
    (hnbr : ∀ m : Fin DIMU,
      U (neighbour s k j i space + (m : Nat)) = fin (![1, 0, 0, 0, 2.5] m)) :
    ∃ c : ℝ, 0 < c ∧ c * c = 1.4 ∧
      (∀ Uo : Fin DIMUo → CReal ℝ,
        ComputeRoeAverage Real.sqrt Uo (IndexMath k j i space * DIMU) (neighbour s k j i space)
          U model = ![Uo 0, fin 0, fin 0, fin 0, fin 3.5, fin c]) ∧
      (EigenvaluesAndDecompositionCoefficientAlpha Real.sqrt s k j i U space model).1
        = ![fin (-c), fin 0, fin 0, fin 0, fin c] ∧
      ∀ m : Fin DIMU,
        (FluxVectorSplitting Real.sqrt X k j i U space model).1 m
          + (FluxVectorSplitting Real.sqrt X k j i U space model).2 m
          = (![0, 1, 0, 0, 0] : Fin DIMU → CReal ℝ) m := by
  have a0 := hcell 0
  have a1 := hcell 1
  have a2 := hcell 2
  have a3 := hcell 3
  have a4 := hcell 4
  have b0 := hnbr 0
  have b1 := hnbr 1
  have b2 := hnbr 2
  have b3 := hnbr 3
  have b4 := hnbr 4
  simp only [fin5_val_0, fin5_val_1, fin5_val_2, fin5_val_3, fin5_val_4, add_zero, vec5_0,
    vec5_1, vec5_2, vec5_3, vec5_4] at a0 a1 a2 a3 a4 b0 b1 b2 b3 b4
  have hrad : (0:ℝ) < 7/5 := by norm_num
  have hRoe : ∀ Uo : Fin DIMUo → CReal ℝ,
      ComputeRoeAverage Real.sqrt Uo (IndexMath k j i space * DIMU) (neighbour s k j i space)
        U model = ![Uo 0, fin 0, fin 0, fin 0, fin 3.5, fin (Real.sqrt (7/5))] := by
    intro Uo
    simp only [ComputeRoeAverage, a0, a1, a2, a3, a4, b0, b1, b2, b3, b4, hγ]
    norm_num [Real.sqrt_one]
  have hA : Admissible U (IndexMath k j i space * DIMU) model := by
    constructor
    · rw [a0]; norm_num
    · simp only [ComputePressure, a0, a1, a2, a3, a4, hγ]; norm_num
  refine ⟨Real.sqrt (7/5), Real.sqrt_pos.mpr hrad, ?_, hRoe, ?_, ?_⟩
  · rw [Real.mul_self_sqrt hrad.le]; norm_num
  · rw [alpha_eq_matVec]
    have hR0 := hRoe (fun _ => 0.0)
    clear hnbr b0 b1 b2 b3 b4 hRoe
    revert s
    refine forall_fin3 ?_ ?_ ?_ <;> intro hR0 <;>
      simp only [neighbour, Matrix.cons_val_zero, Matrix.cons_val_one, Matrix.cons_val_two,
        Matrix.head_cons, Matrix.tail_cons] at hR0 <;>
      simp only [ComputeEigenvaluesAndEigenvectorSpaceL, EigenvaluesAndEigenvectorSpaceLX,
        EigenvaluesAndEigenvectorSpaceLY, EigenvaluesAndEigenvectorSpaceLZ, hR0,
        Matrix.cons_val_zero, Matrix.cons_val_one, Matrix.cons_val_two, Matrix.cons_val_three,
        Matrix.head_cons, Matrix.tail_cons, vec6_5, fin_sub, fin_add, zero_sub, zero_add]
  · have hsum := flux_split_sum X k j i U space model (by rw [hγ]; norm_num) hA
    intro m
    rw [(hsum m).1]
    revert m
    refine forall_fin5 ?_ ?_ ?_ ?_ ?_ <;>
      simp only [ConvectiveFlux, ConvectiveFluxX, a0, a1, a2, a3, a4, hγ, Matrix.cons_val_zero,
        vec5_0, vec5_1, vec5_2, vec5_3, vec5_4, zero_eq_fin, one_eq_fin] <;>
      norm_num

/-- Admissibility of the first node of a two-node grid. -/
theorem pairGrid_admissible_left (a b : Fin DIMU → K) (model : Model K) (h0 : 0 < a 0)
    (hp : 0 < (a 4 - 1/2 * (a 1 * a 1 + a 2 * a 2 + a 3 * a 3) / a 0) * (model.gamma - 1)) :
    Admissible (pairGrid a b) 0 model := by
  constructor
  · simpa [pairGrid] using h0
  · simpa [ComputePressure, pairGrid, h0.ne'] using hp

/-- Admissibility of the second node of a two-node grid. -/
theorem pairGrid_admissible_right (a b : Fin DIMU → K) (model : Model K) (h0 : 0 < b 0)
    (hp : 0 < (b 4 - 1/2 * (b 1 * b 1 + b 2 * b 2 + b 3 * b 3) / b 0) * (model.gamma - 1)) :
    Admissible (pairGrid a b) 5 model := by
  constructor
  · simpa [pairGrid] using h0
  · simpa [ComputePressure, pairGrid, h0.ne'] using hp

theorem cell_unit : IndexMath 0 0 0 ⟨1, 1⟩ * DIMU = 0 := by
  decide

theorem neighbour_unit (s : Fin DIMS) : neighbour s 0 0 0 ⟨1, 1⟩ = 5 := by
  revert s
  refine forall_fin3 ?_ ?_ ?_ <;> decide

/-! ## Worked examples -/

theorem air_gamma : (1 : ℝ) < (air : Model ℝ).gamma := by norm_num [air]

theorem restGrid_cell : Admissible (restGrid : Grid ℝ) (IndexMath 0 0 0 ⟨1, 1⟩ * DIMU) air := by
  rw [cell_unit]
  exact pairGrid_admissible_left _ _ _ (by norm_num) (by norm_num [air])

theorem restGrid_neighbour (s : Fin DIMS) :
    Admissible (restGrid : Grid ℝ) (neighbour s 0 0 0 ⟨1, 1⟩) air := by
  rw [neighbour_unit]
  exact pairGrid_admissible_right _ _ _ (by norm_num) (by norm_num [air])

theorem jumpGrid_cell : Admissible (jumpGrid : Grid ℝ) (IndexMath 0 0 0 ⟨1, 1⟩ * DIMU) air := by
  rw [cell_unit]
  exact pairGrid_admissible_left _ _ _ (by norm_num) (by norm_num [air])

theorem jumpGrid_neighbour (s : Fin DIMS) :
    Admissible (jumpGrid : Grid ℝ) (neighbour s 0 0 0 ⟨1, 1⟩) air := by
  rw [neighbour_unit]
  exact pairGrid_admissible_right _ _ _ (by norm_num) (by norm_num [air])

theorem restGrid_equal (s : Fin DIMS) : ∀ m : Fin DIMU,
    (restGrid : Grid ℝ) (neighbour s 0 0 0 ⟨1, 1⟩ + (m : Nat))
      = restGrid (IndexMath 0 0 0 ⟨1, 1⟩ * DIMU + (m : Nat)) := by
  rw [neighbour_unit, cell_unit]
  refine forall_fin5 ?_ ?_ ?_ ?_ ?_ <;>
    simp [restGrid, pairGrid, fin5_val_0, fin5_val_1, fin5_val_2, fin5_val_3, fin5_val_4]

theorem coldGrid_equal : ∀ m : Fin DIMU,
    (coldGrid : Grid ℝ) (neighbour X 0 0 0 ⟨1, 1⟩ + (m : Nat))
      = coldGrid (IndexMath 0 0 0 ⟨1, 1⟩ * DIMU + (m : Nat)) := by
  rw [neighbour_unit, cell_unit]
  refine forall_fin5 ?_ ?_ ?_ ?_ ?_ <;>
    simp [coldGrid, pairGrid, fin5_val_0, fin5_val_1, fin5_val_2, fin5_val_3, fin5_val_4]

theorem jumpGrid_delta : deltaU X 0 0 0 (jumpGrid : Grid ℝ) ⟨1, 1⟩
    = ![fin 0, fin 1, fin 0, fin 0, fin (3/2)] := by
  refine funext (forall_fin5 ?_ ?_ ?_ ?_ ?_) <;>
    simp only [deltaU, neighbour_unit, cell_unit, fin5_val_0, fin5_val_1, fin5_val_2, fin5_val_3,
      fin5_val_4, vec5_0, vec5_1, vec5_2, vec5_3, vec5_4] <;>
    norm_num [jumpGrid, pairGrid]

theorem coldGrid_alpha :
    (EigenvaluesAndDecompositionCoefficientAlpha Real.sqrt X 0 0 0 (coldGrid : Grid ℝ) ⟨1, 1⟩
      air).2 0 = undef := by
  rw [alpha_eq_matVec]
  norm_num [ComputeEigenvaluesAndEigenvectorSpaceL, EigenvaluesAndEigenvectorSpaceLX,
    ComputeRoeAverage, matVec, IndexMath, wrapInt, coldGrid, pairGrid, vec6_5, air]


/-- The first node of a two-node grid, read through the index arithmetic of a 1x1 plane. -/
theorem pairGrid_cell (a b : Fin DIMU → K) : ∀ m : Fin DIMU,
    pairGrid a b (IndexMath 0 0 0 ⟨1, 1⟩ * DIMU + (m : Nat)) = fin (a m) := by
  rw [cell_unit]
  refine forall_fin5 ?_ ?_ ?_ ?_ ?_ <;>
    simp [pairGrid, fin5_val_0, fin5_val_1, fin5_val_2, fin5_val_3, fin5_val_4]

/-- The second node of a two-node grid is the neighbour of the first in every direction. -/
theorem pairGrid_nbr (s : Fin DIMS) (a b : Fin DIMU → K) : ∀ m : Fin DIMU,
    pairGrid a b (neighbour s 0 0 0 ⟨1, 1⟩ + (m : Nat)) = fin (b m) := by
  rw [neighbour_unit]
  refine forall_fin5 ?_ ?_ ?_ ?_ ?_ <;>
    simp [pairGrid, fin5_val_0, fin5_val_1, fin5_val_2, fin5_val_3, fin5_val_4]

theorem restGrid_values : ∀ m : Fin DIMU,
    (fin ((![1, 0, 0, 0, 5/2] : Fin DIMU → ℝ) m) : CReal ℝ) = fin (![1, 0, 0, 0, 2.5] m) := by
  refine forall_fin5 ?_ ?_ ?_ ?_ ?_ <;> norm_num

/-! ## Index arithmetic -/

/-- A row-major offset determines its quotient and remainder. -/
theorem rowMajor_inj {n a b i i' : Int} (hi : 0 ≤ i) (hin : i < n) (hi' : 0 ≤ i')
    (hin' : i' < n) (heq : a * n + i = b * n + i') : a = b ∧ i = i' := by
  have hn : 0 < n := lt_of_le_of_lt hi hin
  have e1 : (a * n + i) % n = i := by
    rw [add_comm, Int.add_mul_emod_self, Int.emod_eq_of_lt hi hin]
  have e2 : (b * n + i') % n = i' := by
    rw [add_comm, Int.add_mul_emod_self, Int.emod_eq_of_lt hi' hin']
  have hii : i = i' := by rw [← e1, ← e2, heq]
  subst hii
  exact ⟨mul_right_cancel₀ hn.ne' (add_right_cancel heq), rfl⟩

/-- A value in the range of a C `int` is not changed by the wrap. -/
theorem wrapInt_of_range {n : Int} (h1 : -2147483648 ≤ n) (h2 : n ≤ 2147483647) :
    wrapInt n = n := by
  unfold wrapInt
  omega

/-- On a grid of `kMax * jMax * iMax` nodes that a C `int` can count, `IndexMath` does not
overflow: it is the row-major offset, and it is smaller than the number of nodes. -/
theorem IndexMath_exact (space : Space) (kMax : Int) {k j i : Int}
    (hk : 0 ≤ k) (hkm : k < kMax) (hj : 0 ≤ j) (hjm : j < space.jMax)
    (hi : 0 ≤ i) (him : i < space.iMax)
    (hN : kMax * space.jMax * space.iMax ≤ 2147483647) :
    IndexMath k j i space = (k * space.jMax + j) * space.iMax + i ∧
    0 ≤ IndexMath k j i space ∧ IndexMath k j i space + 1 ≤ kMax * space.jMax * space.iMax := by
  have hJ : 1 ≤ space.jMax := by omega
  have hI : 1 ≤ space.iMax := by omega
  have a0 : 0 ≤ k * space.jMax := mul_nonneg hk (by omega)
  have a1 : k * space.jMax + j + 1 ≤ kMax * space.jMax := by
    have : (k + 1) * space.jMax ≤ kMax * space.jMax :=
      mul_le_mul_of_nonneg_right (by omega) (by omega)
    linarith
  have b0 : 0 ≤ (k * space.jMax + j) * space.iMax := mul_nonneg (by omega) (by omega)
  have b1 : (k * space.jMax + j) * space.iMax + i + 1 ≤ kMax * space.jMax * space.iMax := by
    have : (k * space.jMax + j + 1) * space.iMax ≤ kMax * space.jMax * space.iMax :=
      mul_le_mul_of_nonneg_right a1 (by omega)
    linarith
  have c1 : kMax * space.jMax ≤ kMax * space.jMax * space.iMax := by
    have h0 : 0 ≤ kMax * space.jMax := by linarith
    have := mul_le_mul_of_nonneg_left hI h0
    linarith
  have e1 : wrapInt (k * space.jMax) = k * space.jMax :=
    wrapInt_of_range (by linarith) (by linarith)
  have e2 : wrapInt (k * space.jMax + j) = k * space.jMax + j :=
    wrapInt_of_range (by linarith) (by linarith)
  have e3 : wrapInt ((k * space.jMax + j) * space.iMax) = (k * space.jMax + j) * space.iMax :=
    wrapInt_of_range (by linarith) (by linarith)
  have e4 : wrapInt ((k * space.jMax + j) * space.iMax + i)
      = (k * space.jMax + j) * space.iMax + i :=
    wrapInt_of_range (by linarith) (by linarith)
  have hE : IndexMath k j i space = (k * space.jMax + j) * space.iMax + i := by
    unfold IndexMath
    rw [e1, e2, e3, e4]
  rw [hE]
  exact ⟨rfl, by linarith, b1⟩

theorem IndexMath_inj (space : Space) (kMax : Int) {k j i k' j' i' : Int}
    (hk : 0 ≤ k) (hkm : k < kMax) (hk' : 0 ≤ k') (hkm' : k' < kMax)
    (hj : 0 ≤ j) (hjm : j < space.jMax) (hj' : 0 ≤ j') (hjm' : j' < space.jMax)
    (hi : 0 ≤ i) (him : i < space.iMax) (hi' : 0 ≤ i') (him' : i' < space.iMax)
    (hN : kMax * space.jMax * space.iMax ≤ 2147483647)
    (heq : IndexMath k j i space = IndexMath k' j' i' space) : k = k' ∧ j = j' ∧ i = i' := by
  rw [(IndexMath_exact space kMax hk hkm hj hjm hi him hN).1,
    (IndexMath_exact space kMax hk' hkm' hj' hjm' hi' him' hN).1] at heq
  obtain ⟨h1, h2⟩ := rowMajor_inj hi him hi' him' heq
  obtain ⟨h3, h4⟩ := rowMajor_inj hj hjm hj' hjm' h1
  exact ⟨h3, h4, h2⟩

/-- When also five times the number of nodes fits a C `int`, the strided offsets
`IndexMath * DIMU + m` are computed without overflow. -/
theorem offset_exact (space : Space) (kMax : Int) {k j i : Int}
    (hk : 0 ≤ k) (hkm : k < kMax) (hj : 0 ≤ j) (hjm : j < space.jMax)
    (hi : 0 ≤ i) (him : i < space.iMax)
    (hN : kMax * space.jMax * space.iMax * DIMU ≤ 2147483647) (m : Fin DIMU) :
    wrapInt (wrapInt (IndexMath k j i space * DIMU) + (m : Nat))
      = IndexMath k j i space * DIMU + (m : Nat) := by
  have hJ : 1 ≤ space.jMax := by omega
  have hI : 1 ≤ space.iMax := by omega
  have hN0 : 0 ≤ kMax * space.jMax * space.iMax :=
    mul_nonneg (mul_nonneg (by omega) (by omega)) (by omega)
  have h5 : ((DIMU : Nat) : Int) = 5 := rfl
  rw [h5] at hN ⊢
  obtain ⟨-, h0, h1⟩ := IndexMath_exact space kMax hk hkm hj hjm hi him (by linarith)
  have hm : ((m : Nat) : Int) < 5 := by exact_mod_cast m.2
  have hm0 : (0 : Int) ≤ ((m : Nat) : Int) := Int.natCast_nonneg _
  have e1 : wrapInt (IndexMath k j i space * 5) = IndexMath k j i space * 5 :=
    wrapInt_of_range (by linarith) (by linarith)
  rw [e1]
  exact wrapInt_of_range (by linarith) (by linarith)

/-- Overflow of `IndexMath`: on a 65536 x 65536 plane the nodes `(1, 0, 0)` and `(0, 0, 0)`
get the same index. -/
theorem IndexMath_wraps :
    IndexMath 1 0 0 ⟨65536, 65536⟩ = IndexMath 0 0 0 ⟨65536, 65536⟩ := by
  decide

/-- Overflow of the stride: on a 1024 x 1024 plane the offset of node `(819, 204, 820)` is 4,
the last slot of the block of node `(0, 0, 0)`. -/
theorem stride_wraps :
    wrapInt (IndexMath 819 204 820 ⟨1024, 1024⟩ * DIMU)
      = wrapInt (IndexMath 0 0 0 ⟨1024, 1024⟩ * DIMU) + 4 := by
  decide

/-! ## Temperature and the reverse round trip -/

theorem temperature_fin {U : Grid ℝ} {idx : Int} {model : Model ℝ} (hγ : 1 < model.gamma)
    (hR : 0 < model.gasR) (hcv : 0 < model.cv) (hA : Admissible U idx model) :
    ∃ T Tp : ℝ, ComputeTemperature idx U model = fin T ∧
      PrimitiveByConservative idx U model 5 = fin Tp ∧ 0 < T ∧ 0 < Tp ∧
      T * ((model.gamma - 1) * model.cv) = Tp * model.gasR := by
  obtain ⟨ρ, m1, m2, m3, E, e0, e1, e2, e3, e4, hρ, hp⟩ := admissible_fin hA
  have hρ0 : ρ ≠ 0 := hρ.ne'
  have hg : 0 < model.gamma - 1 := by linarith
  have he : 0 < E - 1/2 * (m1 * m1 + m2 * m2 + m3 * m3) / ρ := by
    rcases (mul_pos_iff.mp hp) with h | h
    · exact h.1
    · linarith [h.2]
  have h1 : ρ * model.cv ≠ 0 := (mul_pos hρ hcv).ne'
  have h2 : ρ * model.gasR ≠ 0 := (mul_pos hρ hR).ne'
  refine ⟨(E - 1/2 * (m1 * m1 + m2 * m2 + m3 * m3) / ρ) / (ρ * model.cv),
    (E - 1/2 * (m1 * m1 + m2 * m2 + m3 * m3) / ρ) * (model.gamma - 1) / (ρ * model.gasR),
    ?_, ?_, div_pos he (mul_pos hρ hcv), div_pos hp (mul_pos hρ hR), ?_⟩
  · simp only [ComputeTemperature, e0, e1, e2, e3, e4, lit_half, fin_mul, fin_add, fin_sub,
      div_fin_of_ne hρ0, div_fin_of_ne h1]
  · simp only [PrimitiveByConservative, vec6_5, e0, e1, e2, e3, e4, lit_half, lit_one, fin_mul,
      fin_add, fin_sub, div_fin_of_ne hρ0, div_fin_of_ne h2]
  · field_simp
    ring

theorem airTemperature_ne :
    ComputeTemperature 0 (restGrid : Grid ℝ) air ≠ PrimitiveByConservative 0 restGrid air 5 := by
  norm_num [ComputeTemperature, PrimitiveByConservative, restGrid, pairGrid, air, vec6_5]

/-! ## The Roe average against its reference form -/

/-- Total enthalpy: the form computed by `ComputeRoeAverage` against `(E + p) / rho`. -/
theorem enthalpy_rescale {ρ : K} (hρ : ρ ≠ 0) (m1 m2 m3 E g : CReal K) :
    E / fin ρ * g - 0.5 * (m1 / fin ρ * (m1 / fin ρ) + m2 / fin ρ * (m2 / fin ρ)
      + m3 / fin ρ * (m3 / fin ρ)) * (g - 1.0)
    = (E + (E - 0.5 * (m1 * m1 + m2 * m2 + m3 * m3) / fin ρ) * (g - 1.0)) / fin ρ := by
  cases m1 <;> cases m2 <;> cases m3 <;> cases E <;> cases g <;>
    simp [hρ]
  field_simp
  ring

theorem half_mul_eq_div_two (x : CReal K) : 0.5 * x = x / 2 := by
  cases x <;> simp
  ring

theorem two_mul_fin (c : K) : (2.0 : CReal K) * fin c = fin (2 * c) := by
  simp

theorem two_mul_mul_fin (c : K) : (2.0 : CReal K) * fin c * fin c = fin (2 * c * c) := by
  simp

/-! ## Eigenvalue splitting -/

theorem half_add_abs (x : K) : 1/2 * (x + |x|) = max x 0 := by
  rcases le_total 0 x with hx | hx
  · rw [abs_of_nonneg hx, max_eq_left hx]; ring
  · rw [abs_of_nonpos hx, max_eq_right hx]; ring

theorem half_sub_abs (x : K) : 1/2 * (x - |x|) = min x 0 := by
  rcases le_total 0 x with hx | hx
  · rw [abs_of_nonneg hx, min_eq_right hx]; ring
  · rw [abs_of_nonpos hx, min_eq_left hx]; ring

theorem lambdaPlus_fin {lambda : Fin DIMU → CReal K} {l : Fin DIMU → K}
    (hl : lambda = fun r => fin (l r)) : lambdaPlus lambda = fun r => fin (max (l r) 0) := by
  subst hl
  funext r
  simp only [lambdaPlus, lit_half, fin_fabs, fin_add, fin_mul, half_add_abs]

theorem lambdaMinus_fin {lambda : Fin DIMU → CReal K} {l : Fin DIMU → K}
    (hl : lambda = fun r => fin (l r)) : lambdaMinus lambda = fun r => fin (min (l r) 0) := by
  subst hl
  funext r
  simp only [lambdaMinus, lit_half, fin_fabs, fin_sub, fin_mul, half_sub_abs]

theorem max_mul_min_zero (x : K) : max x 0 * min x 0 = 0 := by
  rcases le_total 0 x with hx | hx
  · rw [min_eq_right hx, mul_zero]
  · rw [max_eq_right hx, zero_mul]

/-- The flux assembled from vanishing eigenvalues on a finite buffer vanishes. -/
theorem assemble_zero (s : Fin DIMS) (A u v w e c g : K) :
    AssembleConvectiveFlux s (fun _ => fin 0) ![fin A, fin u, fin v, fin w, fin e, fin c] (fin g)
      = fun _ => 0 := by
  revert s
  refine forall_fin3 ?_ ?_ ?_ <;>
    simp only [AssembleConvectiveFlux, AssembledFluxX, AssembledFluxY, AssembledFluxZ, lit_half,
      two_eq_fin, one_eq_fin, zero_eq_fin, fin_mul, fin_add, fin_sub, vec6_5,
      Matrix.cons_val_zero, Matrix.cons_val_one, Matrix.head_cons, Matrix.cons_val_two,
      Matrix.cons_val_three, Matrix.cons_val_four, Matrix.tail_cons, mul_zero, zero_mul,
      add_zero, sub_zero] <;>
    exact funext (forall_fin5 rfl rfl rfl rfl rfl)

theorem add_fin_zero (x : CReal K) : x + fin 0 = x := by
  cases x
  · simp
  · rfl

/-- The eigenvalues formed by `FluxVectorSplitting` on a cell of density `rho > 0`, pressure
`p > 0` and velocity `vn` along `s`. -/
theorem splitLambda_cell (s : Fin DIMS) {k j i : Int} {U : Grid ℝ} {space : Space}
    {model : Model ℝ} (hγ : 1 < model.gamma) {ρ p vn : ℝ}
    (h0 : U (IndexMath k j i space * DIMU) = fin ρ)
    (hm : U (IndexMath k j i space * DIMU + ((comp s : Fin DIMU) : Nat)) = fin (ρ * vn))
    (hp : ComputePressure (IndexMath k j i space * DIMU) U model = fin p)
    (hρ : 0 < ρ) (hpp : 0 < p) :
    Admissible U (IndexMath k j i space * DIMU) model ∧
    0 < Real.sqrt (model.gamma * p / ρ) ∧
    (∃ A u v w e, splitUo Real.sqrt k j i U space model
      = ![fin A, fin u, fin v, fin w, fin e, fin (Real.sqrt (model.gamma * p / ρ))]) ∧
    splitLambda s (splitUo Real.sqrt k j i U space model)
      = fun r => fin (![vn - Real.sqrt (model.gamma * p / ρ), vn, vn, vn,
          vn + Real.sqrt (model.gamma * p / ρ)] r) := by
  have hA : Admissible U (IndexMath k j i space * DIMU) model :=
    ⟨by rw [h0]; exact hρ, by rw [hp]; exact hpp⟩
  obtain ⟨ρ', A, u, v, w, C, c, e0, e1, e2, e3, e4, hρ', hc, hρA, hcc, hUo⟩ :=
    splitUo_admissible hγ hA
  have hρρ : ρ' = ρ := fin.inj (e0.symm.trans h0)
  subst hρρ
  have hρ0 : ρ' ≠ 0 := hρ.ne'
  have hpe : p = ρ' * C * (model.gamma - 1) := by
    have h1 : ComputePressure (IndexMath k j i space * DIMU) U model
        = fin ((ρ' * (C + 1/2 * (u * u + v * v + w * w))
          - 1/2 * (ρ' * u * (ρ' * u) + ρ' * v * (ρ' * v) + ρ' * w * (ρ' * w)) / ρ')
          * (model.gamma - 1)) := by
      simp only [ComputePressure, e0, e1, e2, e3, e4, lit_half, lit_one, fin_mul, fin_add,
        fin_sub, div_fin_of_ne hρ0]
    have h2 := fin.inj (hp.symm.trans h1)
    rw [h2]
    field_simp
    ring
  have hsq : Real.sqrt (model.gamma * p / ρ') = c := by
    have h3 : model.gamma * p / ρ' = c * c := by
      rw [hcc, hpe]
      field_simp
      ring
    rw [h3]
    exact Real.sqrt_mul_self hc.le
  rw [hsq]
  refine ⟨hA, hc, ⟨A, u, v, w, _, hUo⟩, ?_⟩
  revert s
  refine forall_fin3 ?_ ?_ ?_ <;> intro hm
  · have hv : u = vn := mul_left_cancel₀ hρ0 (fin.inj (e1.symm.trans hm))
    subst hv
    simp only [hUo, splitLambda, h, vec6_5, Matrix.cons_val_zero, Matrix.cons_val_one,
      Matrix.head_cons, Matrix.cons_val_two, Matrix.cons_val_three, Matrix.tail_cons,
      Int.cast_zero, Int.cast_one, fin_mul, fin_add, fin_sub, zero_mul, one_mul, zero_add]
    exact funext (forall_fin5 rfl rfl rfl rfl rfl)
  · have hv : v = vn := mul_left_cancel₀ hρ0 (fin.inj (e2.symm.trans hm))
    subst hv
    simp only [hUo, splitLambda, h, vec6_5, Matrix.cons_val_zero, Matrix.cons_val_one,
      Matrix.head_cons, Matrix.cons_val_two, Matrix.cons_val_three, Matrix.tail_cons,
      Int.cast_zero, Int.cast_one, fin_mul, fin_add, fin_sub, zero_mul, one_mul, zero_add,
      add_zero]
    exact funext (forall_fin5 rfl rfl rfl rfl rfl)
  · have hv : w = vn := mul_left_cancel₀ hρ0 (fin.inj (e3.symm.trans hm))
    subst hv
    simp only [hUo, splitLambda, h, vec6_5, Matrix.cons_val_zero, Matrix.cons_val_one,
      Matrix.head_cons, Matrix.cons_val_two, Matrix.cons_val_three, Matrix.tail_cons,
      Int.cast_zero, Int.cast_one, fin_mul, fin_add, fin_sub, zero_mul, one_mul, zero_add,
      add_zero]
    exact funext (forall_fin5 rfl rfl rfl rfl rfl)

/-- Upwinding: when no eigenvalue of the cell is negative `Fminus` vanishes and `Fplus` is the
raw flux, and symmetrically when none is positive. -/
theorem split_upwind (s : Fin DIMS) (k j i : Int) (U : Grid ℝ) (space : Space) (model : Model ℝ)
    (hγ : 1 < model.gamma) (hA : Admissible U (IndexMath k j i space * DIMU) model)
    {l : Fin DIMU → ℝ}
    (hl : splitLambda s (splitUo Real.sqrt k j i U space model) = fun r => fin (l r)) :
    ((∀ r, 0 ≤ l r) →
      (FluxVectorSplitting Real.sqrt s k j i U space model).2 = (fun _ => 0) ∧
      (FluxVectorSplitting Real.sqrt s k j i U space model).1
        = ConvectiveFlux s k j i U space model) ∧
    ((∀ r, l r ≤ 0) →
      (FluxVectorSplitting Real.sqrt s k j i U space model).1 = (fun _ => 0) ∧
      (FluxVectorSplitting Real.sqrt s k j i U space model).2
        = ConvectiveFlux s k j i U space model) := by
  obtain ⟨ρ, A, u, v, w, C, c, -, -, -, -, -, -, -, -, -, hUo⟩ := splitUo_admissible hγ hA
  have hsum := flux_split_sum s k j i U space model hγ hA
  constructor
  · intro hpos
    have hm : (FluxVectorSplitting Real.sqrt s k j i U space model).2 = (fun _ => 0) := by
      rw [FluxVectorSplitting_snd, lambdaMinus_fin hl]
      have hz : (fun r => fin (min (l r) 0)) = fun _ : Fin DIMU => (fin 0 : CReal ℝ) :=
        funext fun r => congrArg fin (min_eq_right (hpos r))
      rw [hz, hUo, assemble_zero]
    refine ⟨hm, funext fun m => ?_⟩
    have h1 := (hsum m).1
    rw [hm] at h1
    exact (add_fin_zero _).symm.trans h1
  · intro hneg
    have hm : (FluxVectorSplitting Real.sqrt s k j i U space model).1 = (fun _ => 0) := by
      rw [FluxVectorSplitting_fst, lambdaPlus_fin hl]
      have hz : (fun r => fin (max (l r) 0)) = fun _ : Fin DIMU => (fin 0 : CReal ℝ) :=
        funext fun r => congrArg fin (max_eq_right (hneg r))
      rw [hz, hUo, assemble_zero]
    refine ⟨hm, funext fun m => ?_⟩
    have h1 := (hsum m).1
    rw [hm] at h1
    exact (fin_zero_add _).symm.trans h1

/-- The right node of the velocity jump: density 1, x-velocity 2, pressure 1. -/
theorem jumpGrid_right :
    (jumpGrid : Grid ℝ) (IndexMath 0 0 1 ⟨1, 1⟩ * DIMU) = fin 1 ∧
    (jumpGrid : Grid ℝ) (IndexMath 0 0 1 ⟨1, 1⟩ * DIMU + ((comp X : Fin DIMU) : Nat))
      = fin (1 * 2) ∧
    ComputePressure (IndexMath 0 0 1 ⟨1, 1⟩ * DIMU) (jumpGrid : Grid ℝ) air = fin 1 := by
  refine ⟨?_, ?_, ?_⟩
  · norm_num [IndexMath, wrapInt, jumpGrid, pairGrid]
  · norm_num [IndexMath, wrapInt, jumpGrid, pairGrid, comp]
  · norm_num [IndexMath, wrapInt, ComputePressure, jumpGrid, pairGrid, air]

theorem air_sound_le : Real.sqrt ((air : Model ℝ).gamma * 1 / 1) ≤ 2 :=
  Real.sqrt_le_iff.mpr ⟨by norm_num, by norm_num [air]⟩

/-! ## Eigenvectors of the flux Jacobian -/

set_option maxHeartbeats 4000000 in
theorem jacobian_mul_matR (s : Fin DIMS) (g u v w hT c : ℝ)
    (hcc : c * c = (g - 1) * (hT - 1/2 * (u * u + v * v + w * w))) :
    fluxJacobian s g u v w hT * matR s u v w hT c
      = matR s u v w hT c * Matrix.diagonal (lamVec s u v w c) := by
  revert s
  refine forall_fin3 ?_ ?_ ?_ <;> refine Matrix.ext (forall_fin5 ?_ ?_ ?_ ?_ ?_) <;>
    refine forall_fin5 ?_ ?_ ?_ ?_ ?_ <;>
    rw [Matrix.mul_apply, Fin.sum_univ_five, Matrix.mul_diagonal] <;>
    simp only [matR, matRX, matRY, matRZ, fluxJacobian, fluxJacobianX, fluxJacobianY,
      fluxJacobianZ, lamVec, Matrix.of_apply,
      vec5_0, vec5_1, vec5_2, vec5_3, vec5_4, Matrix.cons_val_zero, Matrix.cons_val_one,
      Matrix.cons_val_two, Matrix.head_cons, Matrix.tail_cons]
  iterate 5 ring1
  · linear_combination (-1 : ℝ) * hcc
  iterate 3 ring1
  · linear_combination (-1 : ℝ) * hcc
  iterate 10 ring1
  · linear_combination (-u) * hcc
  iterate 3 ring1
  · linear_combination (-u) * hcc
  iterate 10 ring1
  · linear_combination (-1 : ℝ) * hcc
  iterate 3 ring1
  · linear_combination (-1 : ℝ) * hcc
  iterate 5 ring1
  · linear_combination (-v) * hcc
  iterate 3 ring1
  · linear_combination (-v) * hcc
  iterate 15 ring1
  · linear_combination (-1 : ℝ) * hcc
  iterate 3 ring1
  · linear_combination (-1 : ℝ) * hcc
  · linear_combination (-w) * hcc
  iterate 3 ring1
  · linear_combination (-w) * hcc

/-- On a finite state of nonzero density the raw convective flux is the Euler flux over the
field. -/
theorem convectiveFlux_fin (s : Fin DIMS) (k j i : Int) {U : Grid K} (space : Space)
    (model : Model K) {q : Fin DIMU → K}
    (hq : ∀ m : Fin DIMU, U (IndexMath k j i space * DIMU + (m : Nat)) = fin (q m))
    (hρ : q 0 ≠ 0) :
    ConvectiveFlux s k j i U space model = fun m => fin (eulerFlux s model.gamma q m) := by
  have e0 : U (IndexMath k j i space * DIMU) = fin (q 0) := by
    have := hq 0
    rwa [fin5_val_0, add_zero] at this
  have e1 : U (IndexMath k j i space * DIMU + 1) = fin (q 1) := hq 1
  have e2 : U (IndexMath k j i space * DIMU + 2) = fin (q 2) := hq 2
  have e3 : U (IndexMath k j i space * DIMU + 3) = fin (q 3) := hq 3
  have e4 : U (IndexMath k j i space * DIMU + 4) = fin (q 4) := hq 4
  revert s
  refine forall_fin3 ?_ ?_ ?_ <;>
    simp only [ConvectiveFlux, ConvectiveFluxX, ConvectiveFluxY, ConvectiveFluxZ, eulerFlux,
      eulerFluxX, eulerFluxY, eulerFluxZ, e0, e1, e2, e3, e4, lit_half, lit_one, fin_mul,
      fin_add, fin_sub, div_fin_of_ne hρ, Matrix.cons_val_zero, Matrix.cons_val_one,
      Matrix.cons_val_two, Matrix.head_cons, Matrix.tail_cons] <;>
    exact funext (forall_fin5 rfl rfl rfl rfl rfl)

/-! ## The Jacobian is the derivative of the flux -/

/-- Derivative of a quotient at a point where the denominator is `rho` and the numerator
`rho * u`, with `iota` the inverse of `rho`. -/
theorem quot_hasDerivAt {a b : ℝ → ℝ} {a' b' ρ ι u : ℝ} (ha : HasDerivAt a a' 0)
    (hb : HasDerivAt b b' 0) (hb0 : b 0 = ρ) (ha0 : a 0 = ρ * u) (hι : ρ * ι = 1) :
    HasDerivAt (fun t => a t / b t) ((a' - u * b') * ι) 0 := by
  have hρ0 : ρ ≠ 0 := left_ne_zero_of_mul_eq_one hι
  have hinv : ρ⁻¹ = ι := (eq_inv_of_mul_eq_one_right hι).symm
  refine HasDerivAt.congr_deriv (ha.div hb (by rw [hb0]; exact hρ0)) ?_
  rw [hb0, ha0, div_eq_mul_inv, ← inv_pow, hinv]
  linear_combination ((a' - u * b') * ι) * hι

set_option maxHeartbeats 4000000 in
/-- Derivative of the Euler flux along a differentiable path of states through
`(rho, rho u, rho v, rho w, rho e)`. -/
theorem eulerFlux_deriv_core (s : Fin DIMS) (g ρ ι u v w e : ℝ) (d : Fin DIMU → ℝ)
    (hι : ρ * ι = 1) (Q : ℝ → Fin DIMU → ℝ)
    (hQ : ∀ n, HasDerivAt (fun t => Q t n) (d n) 0)
    (q0 : Q 0 0 = ρ) (q1 : Q 0 1 = ρ * u) (q2 : Q 0 2 = ρ * v) (q3 : Q 0 3 = ρ * w)
    (q4 : Q 0 4 = ρ * e) (m : Fin DIMU) :
    HasDerivAt (fun t : ℝ => eulerFlux s g (Q t) m)
      ((fluxJacobian s g u v w (e + (e - 1/2 * (u * u + v * v + w * w)) * (g - 1))).mulVec d m)
      0 := by
  have hρ0 : ρ ≠ 0 := left_ne_zero_of_mul_eq_one hι
  have h0 := hQ 0
  have hu := quot_hasDerivAt (hQ 1) h0 q0 q1 hι
  have hv := quot_hasDerivAt (hQ 2) h0 q0 q2 hι
  have hw := quot_hasDerivAt (hQ 3) h0 q0 q3 hι
  have he := quot_hasDerivAt (hQ 4) h0 q0 q4 hι
  have hp := (h0.mul (he.sub (HasDerivAt.const_mul (1/2 : ℝ)
    (((hu.mul hu).add (hv.mul hv)).add (hw.mul hw))))).mul_const (g - 1)
  revert s m
  refine forall_fin3 (forall_fin5 ?_ ?_ ?_ ?_ ?_) (forall_fin5 ?_ ?_ ?_ ?_ ?_)
    (forall_fin5 ?_ ?_ ?_ ?_ ?_)
  · refine HasDerivAt.congr_deriv (h0.mul hu) ?_
    simp only [q0, q1, q2, q3, q4, mul_div_cancel_left₀ _ hρ0, fluxJacobian, fluxJacobianX,
      Matrix.mulVec, Matrix.dotProduct, Fin.sum_univ_five, Matrix.of_apply, vec5_0, vec5_1,
      vec5_2, vec5_3, vec5_4, Matrix.cons_val_zero, Matrix.cons_val_one, Matrix.cons_val_two,
      Matrix.head_cons, Matrix.tail_cons]
    linear_combination (d 1 + (-1 : ℝ) * u * d 0) * hι
  · refine HasDerivAt.congr_deriv (((h0.mul hu).mul hu).add hp) ?_
    simp only [q0, q1, q2, q3, q4, mul_div_cancel_left₀ _ hρ0, fluxJacobian, fluxJacobianX,
      Matrix.mulVec, Matrix.dotProduct, Fin.sum_univ_five, Matrix.of_apply, vec5_0, vec5_1,
      vec5_2, vec5_3, vec5_4, Matrix.cons_val_zero, Matrix.cons_val_one, Matrix.cons_val_two,
      Matrix.head_cons, Matrix.tail_cons]
    linear_combination ((-1 : ℝ) * d 4 + g * d 4 + e * d 0 + (-1 : ℝ) * e * g * d 0 + w * d 3 + (-1 : ℝ) * w * g * d 3 + (-1 : ℝ) * w * w * d 0 + w * w * g * d 0 + v * d 2 + (-1 : ℝ) * v * g * d 2 + (-1 : ℝ) * v * v * d 0 + v * v * g * d 0 + (3 : ℝ) * u * d 1 + (-1 : ℝ) * u * g * d 1 + (-3 : ℝ) * u * u * d 0 + u * u * g * d 0) * hι
  · refine HasDerivAt.congr_deriv ((h0.mul hu).mul hv) ?_
    simp only [q0, q1, q2, q3, q4, mul_div_cancel_left₀ _ hρ0, fluxJacobian, fluxJacobianX,
      Matrix.mulVec, Matrix.dotProduct, Fin.sum_univ_five, Matrix.of_apply, vec5_0, vec5_1,
      vec5_2, vec5_3, vec5_4, Matrix.cons_val_zero, Matrix.cons_val_one, Matrix.cons_val_two,
      Matrix.head_cons, Matrix.tail_cons]
    linear_combination (v * d 1 + u * d 2 + (-2 : ℝ) * u * v * d 0) * hι
  · refine HasDerivAt.congr_deriv ((h0.mul hu).mul hw) ?_
    simp only [q0, q1, q2, q3, q4, mul_div_cancel_left₀ _ hρ0, fluxJacobian, fluxJacobianX,
      Matrix.mulVec, Matrix.dotProduct, Fin.sum_univ_five, Matrix.of_apply, vec5_0, vec5_1,
      vec5_2, vec5_3, vec5_4, Matrix.cons_val_zero, Matrix.cons_val_one, Matrix.cons_val_two,
      Matrix.head_cons, Matrix.tail_cons]
    linear_combination (w * d 1 + u * d 3 + (-2 : ℝ) * u * w * d 0) * hι
  · refine HasDerivAt.congr_deriv (((h0.mul he).add hp).mul hu) ?_
    simp only [q0, q1, q2, q3, q4, mul_div_cancel_left₀ _ hρ0, fluxJacobian, fluxJacobianX,
      Matrix.mulVec, Matrix.dotProduct, Fin.sum_univ_five, Matrix.of_apply, vec5_0, vec5_1,
      vec5_2, vec5_3, vec5_4, Matrix.cons_val_zero, Matrix.cons_val_one, Matrix.cons_val_two,
      Matrix.head_cons, Matrix.tail_cons]
    linear_combination (e * g * d 1 + (1/2 : ℝ) * w * w * d 1 + (-1/2 : ℝ) * w * w * g * d 1 + (1/2 : ℝ) * v * v * d 1 + (-1/2 : ℝ) * v * v * g * d 1 + u * g * d 4 + (-2 : ℝ) * u * e * g * d 0 + u * w * d 3 + (-1 : ℝ) * u * w * g * d 3 + (-3/2 : ℝ) * u * w * w * d 0 + (3/2 : ℝ) * u * w * w * g * d 0 + u * v * d 2 + (-1 : ℝ) * u * v * g * d 2 + (-3/2 : ℝ) * u * v * v * d 0 + (3/2 : ℝ) * u * v * v * g * d 0 + (3/2 : ℝ) * u * u * d 1 + (-3/2 : ℝ) * u * u * g * d 1 + (-3/2 : ℝ) * u * u * u * d 0 + (3/2 : ℝ) * u * u * u * g * d 0) * hι
  · refine HasDerivAt.congr_deriv (h0.mul hv) ?_
    simp only [q0, q1, q2, q3, q4, mul_div_cancel_left₀ _ hρ0, fluxJacobian, fluxJacobianY,
      Matrix.mulVec, Matrix.dotProduct, Fin.sum_univ_five, Matrix.of_apply, vec5_0, vec5_1,
      vec5_2, vec5_3, vec5_4, Matrix.cons_val_zero, Matrix.cons_val_one, Matrix.cons_val_two,
      Matrix.head_cons, Matrix.tail_cons]
    linear_combination (d 2 + (-1 : ℝ) * v * d 0) * hι
  · refine HasDerivAt.congr_deriv ((h0.mul hv).mul hu) ?_
    simp only [q0, q1, q2, q3, q4, mul_div_cancel_left₀ _ hρ0, fluxJacobian, fluxJacobianY,
      Matrix.mulVec, Matrix.dotProduct, Fin.sum_univ_five, Matrix.of_apply, vec5_0, vec5_1,
      vec5_2, vec5_3, vec5_4, Matrix.cons_val_zero, Matrix.cons_val_one, Matrix.cons_val_two,
      Matrix.head_cons, Matrix.tail_cons]
    linear_combination (v * d 1 + u * d 2 + (-2 : ℝ) * u * v * d 0) * hι
  · refine HasDerivAt.congr_deriv (((h0.mul hv).mul hv).add hp) ?_
    simp only [q0, q1, q2, q3, q4, mul_div_cancel_left₀ _ hρ0, fluxJacobian, fluxJacobianY,
      Matrix.mulVec, Matrix.dotProduct, Fin.sum_univ_five, Matrix.of_apply, vec5_0, vec5_1,
      vec5_2, vec5_3, vec5_4, Matrix.cons_val_zero, Matrix.cons_val_one, Matrix.cons_val_two,
      Matrix.head_cons, Matrix.tail_cons]
    linear_combination ((-1 : ℝ) * d 4 + g * d 4 + e * d 0 + (-1 : ℝ) * e * g * d 0 + w * d 3 + (-1 : ℝ) * w * g * d 3 + (-1 : ℝ) * w * w * d 0 + w * w * g * d 0 + (3 : ℝ) * v * d 2 + (-1 : ℝ) * v * g * d 2 + (-3 : ℝ) * v * v * d 0 + v * v * g * d 0 + u * d 1 + (-1 : ℝ) * u * g * d 1 + (-1 : ℝ) * u * u * d 0 + u * u * g * d 0) * hι
  · refine HasDerivAt.congr_deriv ((h0.mul hv).mul hw) ?_
    simp only [q0, q1, q2, q3, q4, mul_div_cancel_left₀ _ hρ0, fluxJacobian, fluxJacobianY,
      Matrix.mulVec, Matrix.dotProduct, Fin.sum_univ_five, Matrix.of_apply, vec5_0, vec5_1,
      vec5_2, vec5_3, vec5_4, Matrix.cons_val_zero, Matrix.cons_val_one, Matrix.cons_val_two,
      Matrix.head_cons, Matrix.tail_cons]
    linear_combination (w * d 2 + v * d 3 + (-2 : ℝ) * v * w * d 0) * hι
  · refine HasDerivAt.congr_deriv (((h0.mul he).add hp).mul hv) ?_
    simp only [q0, q1, q2, q3, q4, mul_div_cancel_left₀ _ hρ0, fluxJacobian, fluxJacobianY,
      Matrix.mulVec, Matrix.dotProduct, Fin.sum_univ_five, Matrix.of_apply, vec5_0, vec5_1,
      vec5_2, vec5_3, vec5_4, Matrix.cons_val_zero, Matrix.cons_val_one, Matrix.cons_val_two,
      Matrix.head_cons, Matrix.tail_cons]
    linear_combination (e * g * d 2 + (1/2 : ℝ) * w * w * d 2 + (-1/2 : ℝ) * w * w * g * d 2 + v * g * d 4 + (-2 : ℝ) * v * e * g * d 0 + v * w * d 3 + (-1 : ℝ) * v * w * g * d 3 + (-3/2 : ℝ) * v * w * w * d 0 + (3/2 : ℝ) * v * w * w * g * d 0 + (3/2 : ℝ) * v * v * d 2 + (-3/2 : ℝ) * v * v * g * d 2 + (-3/2 : ℝ) * v * v * v * d 0 + (3/2 : ℝ) * v * v * v * g * d 0 + u * v * d 1 + (-1 : ℝ) * u * v * g * d 1 + (1/2 : ℝ) * u * u * d 2 + (-1/2 : ℝ) * u * u * g * d 2 + (-3/2 : ℝ) * u * u * v * d 0 + (3/2 : ℝ) * u * u * v * g * d 0) * hι
  · refine HasDerivAt.congr_deriv (h0.mul hw) ?_
    simp only [q0, q1, q2, q3, q4, mul_div_cancel_left₀ _ hρ0, fluxJacobian, fluxJacobianZ,
      Matrix.mulVec, Matrix.dotProduct, Fin.sum_univ_five, Matrix.of_apply, vec5_0, vec5_1,
      vec5_2, vec5_3, vec5_4, Matrix.cons_val_zero, Matrix.cons_val_one, Matrix.cons_val_two,
      Matrix.head_cons, Matrix.tail_cons]
    linear_combination (d 3 + (-1 : ℝ) * w * d 0) * hι
  · refine HasDerivAt.congr_deriv ((h0.mul hw).mul hu) ?_
    simp only [q0, q1, q2, q3, q4, mul_div_cancel_left₀ _ hρ0, fluxJacobian, fluxJacobianZ,
      Matrix.mulVec, Matrix.dotProduct, Fin.sum_univ_five, Matrix.of_apply, vec5_0, vec5_1,
      vec5_2, vec5_3, vec5_4, Matrix.cons_val_zero, Matrix.cons_val_one, Matrix.cons_val_two,
      Matrix.head_cons, Matrix.tail_cons]
    linear_combination (w * d 1 + u * d 3 + (-2 : ℝ) * u * w * d 0) * hι
  · refine HasDerivAt.congr_deriv ((h0.mul hw).mul hv) ?_
    simp only [q0, q1, q2, q3, q4, mul_div_cancel_left₀ _ hρ0, fluxJacobian, fluxJacobianZ,
      Matrix.mulVec, Matrix.dotProduct, Fin.sum_univ_five, Matrix.of_apply, vec5_0, vec5_1,
      vec5_2, vec5_3, vec5_4, Matrix.cons_val_zero, Matrix.cons_val_one, Matrix.cons_val_two,
      Matrix.head_cons, Matrix.tail_cons]
    linear_combination (w * d 2 + v * d 3 + (-2 : ℝ) * v * w * d 0) * hι
  · refine HasDerivAt.congr_deriv (((h0.mul hw).mul hw).add hp) ?_
    simp only [q0, q1, q2, q3, q4, mul_div_cancel_left₀ _ hρ0, fluxJacobian, fluxJacobianZ,
      Matrix.mulVec, Matrix.dotProduct, Fin.sum_univ_five, Matrix.of_apply, vec5_0, vec5_1,
      vec5_2, vec5_3, vec5_4, Matrix.cons_val_zero, Matrix.cons_val_one, Matrix.cons_val_two,
      Matrix.head_cons, Matrix.tail_cons]
    linear_combination ((-1 : ℝ) * d 4 + g * d 4 + e * d 0 + (-1 : ℝ) * e * g * d 0 + (3 : ℝ) * w * d 3 + (-1 : ℝ) * w * g * d 3 + (-3 : ℝ) * w * w * d 0 + w * w * g * d 0 + v * d 2 + (-1 : ℝ) * v * g * d 2 + (-1 : ℝ) * v * v * d 0 + v * v * g * d 0 + u * d 1 + (-1 : ℝ) * u * g * d 1 + (-1 : ℝ) * u * u * d 0 + u * u * g * d 0) * hι
  · refine HasDerivAt.congr_deriv (((h0.mul he).add hp).mul hw) ?_
    simp only [q0, q1, q2, q3, q4, mul_div_cancel_left₀ _ hρ0, fluxJacobian, fluxJacobianZ,
      Matrix.mulVec, Matrix.dotProduct, Fin.sum_univ_five, Matrix.of_apply, vec5_0, vec5_1,
      vec5_2, vec5_3, vec5_4, Matrix.cons_val_zero, Matrix.cons_val_one, Matrix.cons_val_two,
      Matrix.head_cons, Matrix.tail_cons]
    linear_combination (e * g * d 3 + w * g * d 4 + (-2 : ℝ) * w * e * g * d 0 + (3/2 : ℝ) * w * w * d 3 + (-3/2 : ℝ) * w * w * g * d 3 + (-3/2 : ℝ) * w * w * w * d 0 + (3/2 : ℝ) * w * w * w * g * d 0 + v * w * d 2 + (-1 : ℝ) * v * w * g * d 2 + (1/2 : ℝ) * v * v * d 3 + (-1/2 : ℝ) * v * v * g * d 3 + (-3/2 : ℝ) * v * v * w * d 0 + (3/2 : ℝ) * v * v * w * g * d 0 + u * w * d 1 + (-1 : ℝ) * u * w * g * d 1 + (1/2 : ℝ) * u * u * d 3 + (-1/2 : ℝ) * u * u * g * d 3 + (-3/2 : ℝ) * u * u * w * d 0 + (3/2 : ℝ) * u * u * w * g * d 0) * hι

theorem enthalpyOf_eq (g : ℝ) (q : Fin DIMU → ℝ) (hρ : q 0 ≠ 0) :
    enthalpyOf g q = q 4 / q 0 + (q 4 / q 0 - 1/2 * (q 1 / q 0 * (q 1 / q 0)
      + q 2 / q 0 * (q 2 / q 0) + q 3 / q 0 * (q 3 / q 0))) * (g - 1) := by
  unfold enthalpyOf
  field_simp
  ring

/-- Directional derivative of the Euler flux: along every direction `δ` of state space, at
every state of nonzero density, the derivative of `t ↦ F(q + t δ)` at `0` is the Jacobian at
the velocity and total enthalpy of `q`, applied to `δ`. -/
theorem eulerFlux_hasDerivAt (s : Fin DIMS) (g : ℝ) (q δ : Fin DIMU → ℝ) (hρ : q 0 ≠ 0)
    (m : Fin DIMU) :
    HasDerivAt (fun t : ℝ => eulerFlux s g (q + t • δ) m)
      ((fluxJacobian s g (q 1 / q 0) (q 2 / q 0) (q 3 / q 0) (enthalpyOf g q)).mulVec δ m)
      0 := by
  have hc : ∀ n : Fin DIMU, HasDerivAt (fun t : ℝ => (q + t • δ) n) (δ n) 0 := by
    intro n
    have := ((hasDerivAt_id (0 : ℝ)).mul_const (δ n)).const_add (q n)
    simpa using this
  have hv : ∀ n : Fin DIMU, (q + (0 : ℝ) • δ) n = q 0 * (q n / q 0) := by
    intro n
    rw [zero_smul, add_zero, mul_div_cancel₀ _ hρ]
  rw [enthalpyOf_eq g q hρ]
  exact eulerFlux_deriv_core s g (q 0) (q 0)⁻¹ (q 1 / q 0) (q 2 / q 0) (q 3 / q 0) (q 4 / q 0) δ
    (mul_inv_cancel₀ hρ) (fun t => q + t • δ) hc (by simp) (hv 1) (hv 2)
    (hv 3) (hv 4) m

/-! ## The Roe linearisation -/

set_option maxHeartbeats 4000000 in
/-- The Roe property over the field: the Jacobian at the Roe-averaged velocity and enthalpy
maps the jump of two states to the jump of their fluxes. The densities are written
`sigma J^2` (left) and `sigma (1 - J)^2` (right), so that the Roe weights of the two states are
`J` and `1 - J`. -/
theorem roe_property (s : Fin DIMS) (g σ J uL vL wL eL uR vR wR eR : ℝ)
    (hL : σ * J * J ≠ 0) (hR : σ * (1 - J) * (1 - J) ≠ 0) (m : Fin DIMU) :
    (fluxJacobian s g (J * uL + (1 - J) * uR) (J * vL + (1 - J) * vR) (J * wL + (1 - J) * wR)
        (J * (eL * g - 1/2 * (uL * uL + vL * vL + wL * wL) * (g - 1))
          + (1 - J) * (eR * g - 1/2 * (uR * uR + vR * vR + wR * wR) * (g - 1)))).mulVec
      (fun n => ![σ * (1 - J) * (1 - J), σ * (1 - J) * (1 - J) * uR, σ * (1 - J) * (1 - J) * vR,
          σ * (1 - J) * (1 - J) * wR, σ * (1 - J) * (1 - J) * eR] n
        - ![σ * J * J, σ * J * J * uL, σ * J * J * vL, σ * J * J * wL, σ * J * J * eL] n) m
    = eulerFlux s g ![σ * (1 - J) * (1 - J), σ * (1 - J) * (1 - J) * uR,
          σ * (1 - J) * (1 - J) * vR, σ * (1 - J) * (1 - J) * wR, σ * (1 - J) * (1 - J) * eR] m
      - eulerFlux s g ![σ * J * J, σ * J * J * uL, σ * J * J * vL, σ * J * J * wL,
          σ * J * J * eL] m := by
  revert s m
  refine forall_fin3 (forall_fin5 ?_ ?_ ?_ ?_ ?_) (forall_fin5 ?_ ?_ ?_ ?_ ?_)
    (forall_fin5 ?_ ?_ ?_ ?_ ?_) <;>
    simp only [fluxJacobian, fluxJacobianX, fluxJacobianY, fluxJacobianZ, eulerFlux, eulerFluxX,
      eulerFluxY, eulerFluxZ, Matrix.mulVec, Matrix.dotProduct, Fin.sum_univ_five,
      Matrix.of_apply, vec5_0, vec5_1, vec5_2, vec5_3, vec5_4, Matrix.cons_val_zero,
      Matrix.cons_val_one, Matrix.cons_val_two, Matrix.head_cons, Matrix.tail_cons,
      mul_div_cancel_left₀ _ hL, mul_div_cancel_left₀ _ hR] <;>
    ring1

/-- The waves of the eigen-decomposition add up to the Jacobian applied to the jump. -/
theorem roe_waves (s : Fin DIMS) (g u v w hT c b d : ℝ)
    (hcc : c * c = (g - 1) * (hT - 1/2 * (u * u + v * v + w * w)))
    (hb : 2 * b * (hT - 1/2 * (u * u + v * v + w * w)) = 1) (hd : 2 * d * c = 1)
    (δ : Fin DIMU → ℝ) :
    (matR s u v w hT c).mulVec
        (fun k => lamVec s u v w c k * (matL s b d u v w).mulVec δ k)
      = (fluxJacobian s g u v w hT).mulVec δ := by
  have h1 : (fun k => lamVec s u v w c k * (matL s b d u v w).mulVec δ k)
      = (Matrix.diagonal (lamVec s u v w c)).mulVec ((matL s b d u v w).mulVec δ) := by
    funext k
    rw [Matrix.mulVec_diagonal]
  rw [h1, Matrix.mulVec_mulVec, Matrix.mulVec_mulVec, ← jacobian_mul_matR s g u v w hT c hcc,
    Matrix.mul_assoc, matR_mul_matL s u v w hT c b d hb hd, Matrix.mul_one]

theorem cmul_comm (a b : CReal K) : a * b = b * a := by
  cases a <;> cases b <;> first | rfl | exact congrArg fin (mul_comm _ _)

/-- The eigenstructure written for a node pair whose Roe average is finite with a nonzero
sound speed. -/
theorem eigen_of_roe (s : Fin DIMS) {k j i : Int} {U : Grid ℝ} {space : Space} {model : Model ℝ}
    {u v w hT c : ℝ}
    (hRoe : ComputeRoeAverage Real.sqrt (fun _ => 0.0) (IndexMath k j i space * DIMU)
      (neighbour s k j i space) U model = ![0.0, fin u, fin v, fin w, fin hT, fin c])
    (hc : c ≠ 0) :
    ComputeEigenvaluesAndEigenvectorSpaceL Real.sqrt s k j i U space model
      = (fun r => fin (lamVec s u v w c r),
         fun r t => fin (matL s ((model.gamma - 1) / (2 * c * c)) (1 / (2 * c)) u v w r t)) ∧
    EigenvectorSpaceR Real.sqrt s k j i U space model
      = fun r t => fin (matR s u v w hT c r t) := by
  have h2c : 2 * c ≠ 0 := mul_ne_zero two_ne_zero hc
  have h2cc : 2 * c * c ≠ 0 := mul_ne_zero h2c hc
  revert s
  refine forall_fin3 ?_ ?_ ?_ <;> intro hRoe
  all_goals
    simp only [neighbour, Matrix.cons_val_zero, Matrix.cons_val_one, Matrix.cons_val_two,
      Matrix.head_cons, Matrix.tail_cons] at hRoe
    refine ⟨?_, ?_⟩
    · simp only [ComputeEigenvaluesAndEigenvectorSpaceL, Matrix.cons_val_zero,
        EigenvaluesAndEigenvectorSpaceLX, EigenvaluesAndEigenvectorSpaceLY,
        EigenvaluesAndEigenvectorSpaceLZ, hRoe, vec6_5, Matrix.cons_val_one, Matrix.head_cons,
        Matrix.cons_val_two, Matrix.cons_val_three, Matrix.tail_cons, lit_half, lit_one, lit_two,
        two_eq_fin, one_eq_fin, fin_mul, fin_add, fin_sub, fin_neg, div_fin_of_ne h2c,
        div_fin_of_ne h2cc]
      refine Prod.ext (funext (forall_fin5 rfl rfl rfl rfl rfl))
        (funext (forall_fin5 ?_ ?_ ?_ ?_ ?_)) <;>
        exact funext (forall_fin5 rfl rfl rfl rfl rfl)
    · simp only [EigenvectorSpaceR, Matrix.cons_val_zero,
        EigenvectorSpaceRX, EigenvectorSpaceRY, EigenvectorSpaceRZ, hRoe, vec6_5,
        Matrix.cons_val_one, Matrix.head_cons,
        Matrix.cons_val_two, Matrix.cons_val_three, Matrix.cons_val_four, Matrix.tail_cons,
        lit_half, lit_one, lit_two,
        two_eq_fin, one_eq_fin, zero_eq_fin, fin_mul, fin_add, fin_sub, fin_neg]
      refine funext (forall_fin5 ?_ ?_ ?_ ?_ ?_) <;>
        exact funext (forall_fin5 rfl rfl rfl rfl rfl)

/-- The Roe average of two admissible nodes in explicit form: the densities are `sigma J^2`
and `sigma (1 - J)^2`, the averaged velocity and enthalpy are the combinations of the two
states with weights `J` and `1 - J`. -/
theorem roe_explicit (Uo : Fin DIMUo → CReal ℝ) {U : Grid ℝ} {idx idxh : Int}
    {model : Model ℝ} (hγ : 1 < model.gamma)
    (hA : Admissible U idx model) (hAh : Admissible U idxh model) :
    ∃ σ J u v w e uh vh wh eh c : ℝ, 0 < σ ∧ 0 < J ∧ J < 1 ∧ 0 < c ∧
      (∀ m : Fin DIMU, U (idx + (m : Nat))
        = fin (![σ * J * J, σ * J * J * u, σ * J * J * v, σ * J * J * w, σ * J * J * e] m)) ∧
      (∀ m : Fin DIMU, U (idxh + (m : Nat))
        = fin (![σ * (1 - J) * (1 - J), σ * (1 - J) * (1 - J) * uh, σ * (1 - J) * (1 - J) * vh,
            σ * (1 - J) * (1 - J) * wh, σ * (1 - J) * (1 - J) * eh] m)) ∧
      c * c = (model.gamma - 1) *
        ((J * (e * model.gamma - 1/2 * (u * u + v * v + w * w) * (model.gamma - 1))
            + (1 - J) * (eh * model.gamma - 1/2 * (uh * uh + vh * vh + wh * wh)
              * (model.gamma - 1)))
          - 1/2 * ((J * u + (1 - J) * uh) * (J * u + (1 - J) * uh)
            + (J * v + (1 - J) * vh) * (J * v + (1 - J) * vh)
            + (J * w + (1 - J) * wh) * (J * w + (1 - J) * wh))) ∧
      ComputeRoeAverage Real.sqrt Uo idx idxh U model
        = ![Uo 0, fin (J * u + (1 - J) * uh), fin (J * v + (1 - J) * vh),
            fin (J * w + (1 - J) * wh),
            fin (J * (e * model.gamma - 1/2 * (u * u + v * v + w * w) * (model.gamma - 1))
              + (1 - J) * (eh * model.gamma - 1/2 * (uh * uh + vh * vh + wh * wh)
                * (model.gamma - 1))),
            fin c] := by
  obtain ⟨ρ, u, v, w, E, e0, e1, e2, e3, e4, hρ, -⟩ := admissible_vel hγ hA
  obtain ⟨ρh, uh, vh, wh, Eh, f0, f1, f2, f3, f4, hρh, -⟩ := admissible_vel hγ hAh
  obtain ⟨u', v', w', hT', c, hRoe, hc, hcc⟩ := roe_admissible Uo hγ hA hAh
  have hρ0 : ρ ≠ 0 := hρ.ne'
  have hρh0 : ρh ≠ 0 := hρh.ne'
  have hD : 0 < Real.sqrt (ρh / ρ) := Real.sqrt_pos.mpr (div_pos hρh hρ)
  have hDD : Real.sqrt (ρh / ρ) * Real.sqrt (ρh / ρ) = ρh / ρ :=
    Real.mul_self_sqrt (div_pos hρh hρ).le
  have hslots : ComputeRoeAverage Real.sqrt Uo idx idxh U model 1
        = fin ((u + Real.sqrt (ρh / ρ) * uh) / (1 + Real.sqrt (ρh / ρ))) ∧
      ComputeRoeAverage Real.sqrt Uo idx idxh U model 2
        = fin ((v + Real.sqrt (ρh / ρ) * vh) / (1 + Real.sqrt (ρh / ρ))) ∧
      ComputeRoeAverage Real.sqrt Uo idx idxh U model 3
        = fin ((w + Real.sqrt (ρh / ρ) * wh) / (1 + Real.sqrt (ρh / ρ))) ∧
      ComputeRoeAverage Real.sqrt Uo idx idxh U model 4
        = fin (((E / ρ * model.gamma - 1/2 * (u * u + v * v + w * w) * (model.gamma - 1))
          + Real.sqrt (ρh / ρ) * (Eh / ρh * model.gamma
            - 1/2 * (uh * uh + vh * vh + wh * wh) * (model.gamma - 1)))
          / (1 + Real.sqrt (ρh / ρ))) := by
    have hD1 : 1 + Real.sqrt (ρh / ρ) ≠ 0 := by positivity
    refine ⟨?_, ?_, ?_, ?_⟩ <;>
      simp only [ComputeRoeAverage, e0, e1, e2, e3, e4, f0, f1, f2, f3, f4, lit_half, lit_one,
        fin_mul, fin_add, fin_sub, div_fin_of_ne hρ0, div_fin_of_ne hρh0,
        mul_div_cancel_left₀ _ hρ0, mul_div_cancel_left₀ _ hρh0,
        sqrt_fin_of_nonneg _ (div_pos hρh hρ).le, div_fin_of_ne hD1, Matrix.cons_val_zero,
        Matrix.cons_val_one, Matrix.cons_val_two, Matrix.cons_val_three, Matrix.cons_val_four,
        Matrix.head_cons, Matrix.tail_cons]
  generalize Real.sqrt (ρh / ρ) = D at hD hDD hslots
  have hD1 : 1 + D ≠ 0 := by positivity
  have hρh' : ρh = ρ * D * D := by
    field_simp at hDD
    linarith
  subst hρh'
  have hJ1 : (1 : ℝ) - 1 / (1 + D) = D / (1 + D) := by
    field_simp
  obtain ⟨s1, s2, s3, s4⟩ := hslots
  have hu' : u' = 1 / (1 + D) * u + (1 - 1 / (1 + D)) * uh := by
    have := fin.inj (((congrFun hRoe 1).trans (vec6_1 _ _ _ _ _ _)).symm.trans s1)
    rw [this, hJ1]
    field_simp
  have hv' : v' = 1 / (1 + D) * v + (1 - 1 / (1 + D)) * vh := by
    have := fin.inj (((congrFun hRoe 2).trans (vec6_2 _ _ _ _ _ _)).symm.trans s2)
    rw [this, hJ1]
    field_simp
  have hw' : w' = 1 / (1 + D) * w + (1 - 1 / (1 + D)) * wh := by
    have := fin.inj (((congrFun hRoe 3).trans (vec6_3 _ _ _ _ _ _)).symm.trans s3)
    rw [this, hJ1]
    field_simp
  have hH' : hT' = 1 / (1 + D) * (E / ρ * model.gamma
        - 1/2 * (u * u + v * v + w * w) * (model.gamma - 1))
      + (1 - 1 / (1 + D)) * (Eh / (ρ * D * D) * model.gamma
        - 1/2 * (uh * uh + vh * vh + wh * wh) * (model.gamma - 1)) := by
    have := fin.inj (((congrFun hRoe 4).trans (vec6_4 _ _ _ _ _ _)).symm.trans s4)
    rw [this, hJ1]
    field_simp
    ring
  subst hu' hv' hw' hH'
  have hσ : ρ * (1 + D) * (1 + D) * (1 / (1 + D)) * (1 / (1 + D)) = ρ := by
    field_simp
  have hσh : ρ * (1 + D) * (1 + D) * (1 - 1 / (1 + D)) * (1 - 1 / (1 + D)) = ρ * D * D := by
    rw [hJ1]
    field_simp
    ring
  refine ⟨ρ * (1 + D) * (1 + D), 1 / (1 + D), u, v, w, E / ρ, uh, vh, wh, Eh / (ρ * D * D), c,
    by positivity, by positivity, ?_, hc, ?_, ?_, hcc, hRoe⟩
  · rw [div_lt_one (by positivity)]
    linarith
  · rw [hσ]
    refine forall_fin5 ?_ ?_ ?_ ?_ ?_
    · show U (idx + ((0 : Nat) : Int)) = _
      rw [Nat.cast_zero, add_zero]; exact e0
    · exact e1
    · exact e2
    · exact e3
    · show U (idx + 4) = fin (ρ * (E / ρ))
      rw [mul_div_cancel₀ _ hρ0]; exact e4
  · rw [hσh]
    refine forall_fin5 ?_ ?_ ?_ ?_ ?_
    · show U (idxh + ((0 : Nat) : Int)) = _
      rw [Nat.cast_zero, add_zero]; exact f0
    · exact f1
    · exact f2
    · exact f3
    · show U (idxh + 4) = fin (ρ * D * D * (Eh / (ρ * D * D)))
      rw [mul_div_cancel₀ _ hρh0]; exact f4

/-- No column of `R` vanishes. -/
theorem matR_col_ne_zero (s : Fin DIMS) (u v w hT c b d : ℝ)
    (hb : 2 * b * (hT - 1/2 * (u * u + v * v + w * w)) = 1) (hd : 2 * d * c = 1)
    (k : Fin DIMU) : ∃ m, matR s u v w hT c m k ≠ 0 := by
  by_contra hall
  push_neg at hall
  have h1 := congrFun (congrFun (matL_mul_matR s u v w hT c b d hb hd) k) k
  rw [Matrix.mul_apply, Matrix.one_apply_eq] at h1
  simp only [hall, mul_zero, Finset.sum_const_zero] at h1
  exact zero_ne_one h1

/-- The eigenvector relation for the matrices written by the code: with `A` the flux Jacobian
at the Roe-averaged velocity and enthalpy, `A R = R diag(lambda)`, entry by entry, and no
column of `R` vanishes. -/
theorem jacobian_eigen (s : Fin DIMS) (k j i : Int) (U : Grid ℝ) (space : Space)
    (model : Model ℝ) (hγ : 1 < model.gamma)
    (hA : Admissible U (IndexMath k j i space * DIMU) model)
    (hAh : Admissible U (neighbour s k j i space) model) :
    ∃ u v w hT c : ℝ,
      ComputeRoeAverage Real.sqrt (fun _ => 0.0) (IndexMath k j i space * DIMU)
        (neighbour s k j i space) U model = ![0.0, fin u, fin v, fin w, fin hT, fin c] ∧
      0 < c ∧
      matMul (fun a b => fin (fluxJacobian s model.gamma u v w hT a b))
          (EigenvectorSpaceR Real.sqrt s k j i U space model)
        = (fun m n => (ComputeEigenvaluesAndEigenvectorSpaceL Real.sqrt s k j i U space model).1 n
            * EigenvectorSpaceR Real.sqrt s k j i U space model m n) ∧
      ∀ n, ∃ m x, EigenvectorSpaceR Real.sqrt s k j i U space model m n = fin x ∧ x ≠ 0 := by
  obtain ⟨u, v, w, hT, c, hRoe, hc, hcc⟩ := roe_admissible (fun _ => 0.0) hγ hA hAh
  obtain ⟨hL, hR⟩ := eigen_of_roe s hRoe hc.ne'
  have hc0 : c ≠ 0 := hc.ne'
  have hγ1 : model.gamma - 1 ≠ 0 := by linarith
  have hb : 2 * ((model.gamma - 1) / (2 * c * c)) * (hT - 1/2 * (u * u + v * v + w * w)) = 1 := by
    field_simp
    linear_combination (-4 : ℝ) * hcc
  have hd : 2 * (1 / (2 * c)) * c = 1 := by
    field_simp
  refine ⟨u, v, w, hT, c, hRoe, hc, ?_, ?_⟩
  · rw [hL, hR, matMul_fin, jacobian_mul_matR s model.gamma u v w hT c hcc]
    funext m n
    rw [Matrix.mul_diagonal, fin_mul, mul_comm]
  · intro n
    obtain ⟨m, hm⟩ := matR_col_ne_zero s u v w hT c _ _ hb hd n
    exact ⟨m, _, by rw [hR], hm⟩

/-- The characteristic waves reproduce the flux jump between a node and its neighbour. -/
theorem roe_flux_jump (s : Fin DIMS) (k j i : Int) (U : Grid ℝ) (space : Space)
    (model : Model ℝ) (hγ : 1 < model.gamma)
    (hA : Admissible U (IndexMath k j i space * DIMU) model)
    (hAh : Admissible U (neighbour s k j i space) model) :
    ∃ F : Fin DIMU → ℝ,
      (fun m => ConvectiveFlux s (k + h s Z) (j + h s Y) (i + h s X) U space model m
        - ConvectiveFlux s k j i U space model m) = (fun m => fin (F m)) ∧
      matVec (EigenvectorSpaceR Real.sqrt s k j i U space model)
        (fun r => (EigenvaluesAndDecompositionCoefficientAlpha Real.sqrt s k j i U space model).1 r
          * (EigenvaluesAndDecompositionCoefficientAlpha Real.sqrt s k j i U space model).2 r)
        = fun m => fin (F m) := by
  obtain ⟨σ, J, u, v, w, e, uh, vh, wh, eh, c, hσ, hJ, hJ1, hc, hqL, hqR, hcc, hRoe⟩ :=
    roe_explicit (fun _ => 0.0) hγ hA hAh
  obtain ⟨hL, hR⟩ := eigen_of_roe s hRoe hc.ne'
  have hc0 : c ≠ 0 := hc.ne'
  have hγ1 : model.gamma - 1 ≠ 0 := by linarith
  have hJ' : 0 < 1 - J := by linarith
  have hρL : σ * J * J ≠ 0 := by positivity
  have hρR : σ * (1 - J) * (1 - J) ≠ 0 := by positivity
  generalize hH : J * (e * model.gamma - 1/2 * (u * u + v * v + w * w) * (model.gamma - 1))
    + (1 - J) * (eh * model.gamma - 1/2 * (uh * uh + vh * vh + wh * wh) * (model.gamma - 1))
    = hT at hcc hL hR
  generalize hu : J * u + (1 - J) * uh = uu at hcc hL hR
  generalize hv : J * v + (1 - J) * vh = vv at hcc hL hR
  generalize hw : J * w + (1 - J) * wh = ww at hcc hL hR
  have hbb : 2 * ((model.gamma - 1) / (2 * c * c)) * (hT - 1/2 * (uu * uu + vv * vv + ww * ww))
      = 1 := by
    field_simp
    linear_combination (-4 : ℝ) * hcc
  have hd : 2 * (1 / (2 * c)) * c = 1 := by
    field_simp
  have hδ : deltaU s k j i U space = fun n =>
      fin (![σ * (1 - J) * (1 - J), σ * (1 - J) * (1 - J) * uh, σ * (1 - J) * (1 - J) * vh,
          σ * (1 - J) * (1 - J) * wh, σ * (1 - J) * (1 - J) * eh] n
        - ![σ * J * J, σ * J * J * u, σ * J * J * v, σ * J * J * w, σ * J * J * e] n) := by
    funext n
    simp only [deltaU, hqL n, hqR n, fin_sub]
  have hFc := convectiveFlux_fin s k j i space model hqL hρL
  have hFn := convectiveFlux_fin s (k + h s Z) (j + h s Y) (i + h s X) space model
    (by rw [neighbour_eq]; exact hqR) hρR
  refine ⟨fun m => eulerFlux s model.gamma ![σ * (1 - J) * (1 - J),
      σ * (1 - J) * (1 - J) * uh, σ * (1 - J) * (1 - J) * vh, σ * (1 - J) * (1 - J) * wh,
      σ * (1 - J) * (1 - J) * eh] m
    - eulerFlux s model.gamma ![σ * J * J, σ * J * J * u, σ * J * J * v, σ * J * J * w,
      σ * J * J * e] m, ?_, ?_⟩
  · rw [hFc, hFn]
    rfl
  · rw [alpha_eq_matVec, hL, hR, hδ]
    simp only [matVec_fin, fin_mul]
    rw [roe_waves s model.gamma uu vv ww hT c _ _ hcc hbb hd]
    funext m
    rw [← hu, ← hv, ← hw, ← hH, roe_property s model.gamma σ J u v w e uh vh wh eh hρL hρR m]

/-! ## The Roe average of a uniform state -/

/-- The buffer passed to `ComputeRoeAverage` only shows in slot 0 of the result. -/
theorem roe_buffer (sqrtK : K → K) (Uo : Fin DIMUo → CReal K) {Uo' : Fin DIMUo → CReal K}
    {idx idxh : Int} {U : Grid K} {model : Model K} {x0 a b c d e : CReal K}
    (h : ComputeRoeAverage sqrtK Uo' idx idxh U model = ![x0, a, b, c, d, e]) :
    ComputeRoeAverage sqrtK Uo idx idxh U model = ![Uo 0, a, b, c, d, e] :=
  vec6_congr rfl ((congrFun h 1).trans (vec6_1 _ _ _ _ _ _))
    ((congrFun h 2).trans (vec6_2 _ _ _ _ _ _)) ((congrFun h 3).trans (vec6_3 _ _ _ _ _ _))
    ((congrFun h 4).trans (vec6_4 _ _ _ _ _ _)) ((congrFun h 5).trans (vec6_5 _ _ _ _ _ _))

/-- The Roe average of two nodes holding the same admissible state, in velocity variables:
density `rho`, velocity `(u, v, w)`, specific total energy `e`. -/
theorem roe_uniform {U : Grid ℝ} {idx idxh : Int} {model : Model ℝ}
    (hγ : 1 < model.gamma) (hA : Admissible U idx model)
    (heq : ∀ m : Fin DIMU, U (idxh + (m : Nat)) = U (idx + (m : Nat))) :
    ∃ ρ u v w e : ℝ, 0 < ρ ∧
      0 < ρ * (e - 1/2 * (u * u + v * v + w * w)) * (model.gamma - 1) ∧
      U idx = fin ρ ∧ U (idx + 1) = fin (ρ * u) ∧ U (idx + 2) = fin (ρ * v) ∧
      U (idx + 3) = fin (ρ * w) ∧ U (idx + 4) = fin (ρ * e) ∧
      ComputePressure idx U model
        = fin (ρ * (e - 1/2 * (u * u + v * v + w * w)) * (model.gamma - 1)) ∧
      ∀ Uo : Fin DIMUo → CReal ℝ, ComputeRoeAverage Real.sqrt Uo idx idxh U model
        = ![Uo 0, fin u, fin v, fin w,
            fin ((ρ * e + ρ * (e - 1/2 * (u * u + v * v + w * w)) * (model.gamma - 1)) / ρ),
            fin (Real.sqrt (model.gamma
              * (ρ * (e - 1/2 * (u * u + v * v + w * w)) * (model.gamma - 1)) / ρ))] := by
  have hAh : Admissible U idxh model := admissible_congr hA heq
  obtain ⟨σ, J, u, v, w, e, uh, vh, wh, eh, c, hσ, hJ, hJ1, hc, hqL, hqR, hcc, hRoe⟩ :=
    roe_explicit (fun _ => 0.0) hγ hA hAh
  have hv : ∀ m : Fin DIMU,
      ![σ * (1 - J) * (1 - J), σ * (1 - J) * (1 - J) * uh, σ * (1 - J) * (1 - J) * vh,
          σ * (1 - J) * (1 - J) * wh, σ * (1 - J) * (1 - J) * eh] m
        = ![σ * J * J, σ * J * J * u, σ * J * J * v, σ * J * J * w, σ * J * J * e] m :=
    fun m => fin.inj ((hqR m).symm.trans ((heq m).trans (hqL m)))
  have h0 : σ * (1 - J) * (1 - J) = σ * J * J := hv 0
  have hJ2 : J = 1/2 := by
    have h1 : σ * (1 - 2 * J) = 0 := by linear_combination h0
    rcases mul_eq_zero.mp h1 with h | h
    · exact absurd h hσ.ne'
    · linarith
  subst hJ2
  have hρ : (0 : ℝ) < σ * (1/2) * (1/2) := by positivity
  have h1 : σ * (1 - 1/2) * (1 - 1/2) * uh = σ * (1/2) * (1/2) * u := hv 1
  have h2 : σ * (1 - 1/2) * (1 - 1/2) * vh = σ * (1/2) * (1/2) * v := hv 2
  have h3 : σ * (1 - 1/2) * (1 - 1/2) * wh = σ * (1/2) * (1/2) * w := hv 3
  have h4 : σ * (1 - 1/2) * (1 - 1/2) * eh = σ * (1/2) * (1/2) * e := hv 4
  have hσ4 : σ * (1 - 1/2) * (1 - 1/2) = σ * (1/2) * (1/2) := by ring
  rw [hσ4] at h1 h2 h3 h4
  generalize σ * (1/2) * (1/2) = ρ at hρ h1 h2 h3 h4 hqL
  obtain rfl : uh = u := mul_left_cancel₀ hρ.ne' h1
  obtain rfl : vh = v := mul_left_cancel₀ hρ.ne' h2
  obtain rfl : wh = w := mul_left_cancel₀ hρ.ne' h3
  obtain rfl : eh = e := mul_left_cancel₀ hρ.ne' h4
  have e0 : U idx = fin ρ := by
    have := hqL 0
    rwa [fin5_val_0, add_zero] at this
  have e1 : U (idx + 1) = fin (ρ * uh) := hqL 1
  have e2 : U (idx + 2) = fin (ρ * vh) := hqL 2
  have e3 : U (idx + 3) = fin (ρ * wh) := hqL 3
  have e4 : U (idx + 4) = fin (ρ * eh) := hqL 4
  have hp : ComputePressure idx U model
      = fin (ρ * (eh - 1/2 * (uh * uh + vh * vh + wh * wh))
        * (model.gamma - 1)) := by
    simp only [ComputePressure, e0, e1, e2, e3, e4, lit_half, lit_one, fin_mul, fin_add, fin_sub,
      div_fin_of_ne hρ.ne']
    refine congrArg fin ?_
    field_simp
    ring
  have hpp : 0 < ρ * (eh - 1/2 * (uh * uh + vh * vh + wh * wh))
      * (model.gamma - 1) := by
    have := hA.2
    rwa [hp] at this
  have hcc' : c * c = model.gamma
      * (ρ * (eh - 1/2 * (uh * uh + vh * vh + wh * wh)) * (model.gamma - 1))
      / ρ := by
    rw [hcc]
    field_simp
    ring
  have hcs : c = Real.sqrt (model.gamma
      * (ρ * (eh - 1/2 * (uh * uh + vh * vh + wh * wh)) * (model.gamma - 1))
      / ρ) := by
    rw [← hcc', Real.sqrt_mul_self hc.le]
  refine ⟨ρ, uh, vh, wh, eh, hρ, hpp, e0, e1, e2, e3, e4, hp, fun Uo => ?_⟩
  rw [roe_buffer Real.sqrt Uo hRoe, ← hcs]
  refine vec6_congr rfl (congrArg fin ?_) (congrArg fin ?_) (congrArg fin ?_) (congrArg fin ?_)
    rfl
  · ring
  · ring
  · ring
  · field_simp
    ring

/-- The frame of `ConservativeByPrimitive`: entries outside `idx .. idx+4` are not written. -/
theorem conservative_frame (U : Grid K) (idx : Int) (Uo : Fin DIMUo → CReal K) (model : Model K)
    (n : Int) (hn : n < idx ∨ idx + 4 < n) : ConservativeByPrimitive U idx Uo model n = U n := by
  have h0 : n ≠ idx := by omega
  have h1 : n ≠ idx + 1 := by omega
  have h2 : n ≠ idx + 2 := by omega
  have h3 : n ≠ idx + 3 := by omega
  have h4 : n ≠ idx + 4 := by omega
  simp only [ConservativeByPrimitive, Function.update_apply, if_neg h0, if_neg h1, if_neg h2,
    if_neg h3, if_neg h4]

/-- The five values written by `ConservativeByPrimitive`. -/
theorem conservative_written (U : Grid K) (idx : Int) (Uo : Fin DIMUo → CReal K)
    (model : Model K) :
    ConservativeByPrimitive U idx Uo model idx = Uo 0 ∧
    ConservativeByPrimitive U idx Uo model (idx + 1) = Uo 0 * Uo 1 ∧
    ConservativeByPrimitive U idx Uo model (idx + 2) = Uo 0 * Uo 2 ∧
    ConservativeByPrimitive U idx Uo model (idx + 3) = Uo 0 * Uo 3 ∧
    ConservativeByPrimitive U idx Uo model (idx + 4)
      = 0.5 * Uo 0 * (Uo 1 * Uo 1 + Uo 2 * Uo 2 + Uo 3 * Uo 3)
        + Uo 4 / (fin model.gamma - 1.0) := by
  refine ⟨?_, ?_, ?_, ?_, ?_⟩ <;>
    simp [ConservativeByPrimitive, Function.update_apply]

/-! ## The claims -/

/-- C1. Flux split completeness: for every direction, every model with `gamma > 1` and every
admissible cell, `Fplus[m] + Fminus[m]` equals component `m` of the raw convective flux of the
same direction on the same cell, and that value is finite. -/
theorem flux_split_completeness (s : Fin DIMS) (k j i : Int) (U : Grid ℝ) (space : Space)
    (model : Model ℝ) (hγ : 1 < model.gamma)
    (hA : Admissible U (IndexMath k j i space * DIMU) model) :
    ∀ m : Fin DIMU,
      (FluxVectorSplitting Real.sqrt s k j i U space model).1 m
        + (FluxVectorSplitting Real.sqrt s k j i U space model).2 m
        = ConvectiveFlux s k j i U space model m ∧
      ∃ x : ℝ, ConvectiveFlux s k j i U space model m = fin x :=
  flux_split_sum s k j i U space model hγ hA

/-- Witness of C1: the energy component on the left node of the velocity jump,
direction X. -/
theorem flux_split_completeness_witness :
    (FluxVectorSplitting Real.sqrt X 0 0 0 (jumpGrid : Grid ℝ) ⟨1, 1⟩ air).1 4
      + (FluxVectorSplitting Real.sqrt X 0 0 0 (jumpGrid : Grid ℝ) ⟨1, 1⟩ air).2 4
      = ConvectiveFlux X 0 0 0 (jumpGrid : Grid ℝ) ⟨1, 1⟩ air 4 ∧
    ∃ x : ℝ, ConvectiveFlux X 0 0 0 (jumpGrid : Grid ℝ) ⟨1, 1⟩ air 4 = fin x :=
  flux_split_completeness X 0 0 0 jumpGrid ⟨1, 1⟩ air air_gamma jumpGrid_cell 4

/-- C2. Eigen-inverse: for every direction, `gamma > 1` and admissible cell and neighbour, the
matrices `R` and `L` written for the same node pair satisfy `R * L = I` and `L * R = I`. -/
theorem eigen_inverse (s : Fin DIMS) (k j i : Int) (U : Grid ℝ) (space : Space)
    (model : Model ℝ) (hγ : 1 < model.gamma)
    (hA : Admissible U (IndexMath k j i space * DIMU) model)
    (hAh : Admissible U (neighbour s k j i space) model) :
    matMul (EigenvectorSpaceR Real.sqrt s k j i U space model)
        (ComputeEigenvaluesAndEigenvectorSpaceL Real.sqrt s k j i U space model).2 = identity5 ∧
    matMul (ComputeEigenvaluesAndEigenvectorSpaceL Real.sqrt s k j i U space model).2
        (EigenvectorSpaceR Real.sqrt s k j i U space model) = identity5 :=
  eigen_inverse_products s k j i U space model hγ hA hAh

/-- Witness of C2 on the velocity jump, direction X. -/
theorem eigen_inverse_witness :
    matMul (EigenvectorSpaceR Real.sqrt X 0 0 0 (jumpGrid : Grid ℝ) ⟨1, 1⟩ air)
        (ComputeEigenvaluesAndEigenvectorSpaceL Real.sqrt X 0 0 0 (jumpGrid : Grid ℝ) ⟨1, 1⟩
          air).2 = identity5 ∧
    matMul (ComputeEigenvaluesAndEigenvectorSpaceL Real.sqrt X 0 0 0 (jumpGrid : Grid ℝ) ⟨1, 1⟩
          air).2
        (EigenvectorSpaceR Real.sqrt X 0 0 0 (jumpGrid : Grid ℝ) ⟨1, 1⟩ air) = identity5 :=
  eigen_inverse X 0 0 0 jumpGrid ⟨1, 1⟩ air air_gamma jumpGrid_cell (jumpGrid_neighbour X)

/-- C4 (as stated, refuted). Equal states at a node and its neighbour do not force
`alpha = 0` for every model and every grid: on the cold state (density 1, zero momentum, zero
energy) the averaged sound speed is 0, the entries of `L` are undefined and so is `alpha[0]`. -/
theorem zero_jump_counterexample :
    ¬ ∀ (s : Fin DIMS) (k j i : Int) (U : Grid ℝ) (space : Space) (model : Model ℝ),
      (∀ m : Fin DIMU, U (neighbour s k j i space + (m : Nat))
        = U (IndexMath k j i space * DIMU + (m : Nat))) →
      ∀ r, (EigenvaluesAndDecompositionCoefficientAlpha Real.sqrt s k j i U space model).2 r
        = 0 := by
  intro hall
  have h0 := hall X 0 0 0 coldGrid ⟨1, 1⟩ air coldGrid_equal 0
  rw [coldGrid_alpha] at h0
  exact CReal.noConfusion h0

/-- C4 (amended). Zero jump on admissible states: for every direction and every model with
`gamma > 1`, if the node is admissible and its five conservative components equal those of its
neighbour in that direction, then `alpha[r] = 0` for `r = 0..4`. -/
theorem zero_jump_admissible (s : Fin DIMS) (k j i : Int) (U : Grid ℝ) (space : Space)
    (model : Model ℝ) (hγ : 1 < model.gamma)
    (hA : Admissible U (IndexMath k j i space * DIMU) model)
    (heq : ∀ m : Fin DIMU, U (neighbour s k j i space + (m : Nat))
      = U (IndexMath k j i space * DIMU + (m : Nat))) :
    ∀ r, (EigenvaluesAndDecompositionCoefficientAlpha Real.sqrt s k j i U space model).2 r = 0 :=
  zero_jump_adm s k j i U space model hγ hA heq

/-- Witness of the amended C4 on the state at rest, direction Y: the first and the last
coefficient. -/
theorem zero_jump_admissible_witness :
    (EigenvaluesAndDecompositionCoefficientAlpha Real.sqrt Y 0 0 0 (restGrid : Grid ℝ)
      ⟨1, 1⟩ air).2 0 = 0 ∧
    (EigenvaluesAndDecompositionCoefficientAlpha Real.sqrt Y 0 0 0 (restGrid : Grid ℝ)
      ⟨1, 1⟩ air).2 4 = 0 :=
  ⟨zero_jump_admissible Y 0 0 0 restGrid ⟨1, 1⟩ air air_gamma restGrid_cell (restGrid_equal Y) 0,
   zero_jump_admissible Y 0 0 0 restGrid ⟨1, 1⟩ air air_gamma restGrid_cell (restGrid_equal Y) 4⟩

/-- C5. Round trip through the eigenbasis: for every direction, `gamma > 1` and admissible cell
and neighbour, `R * alpha` equals the jump `U(neighbour) - U(cell)`. -/
theorem eigenbasis_recombination (s : Fin DIMS) (k j i : Int) (U : Grid ℝ) (space : Space)
    (model : Model ℝ) (hγ : 1 < model.gamma)
    (hA : Admissible U (IndexMath k j i space * DIMU) model)
    (hAh : Admissible U (neighbour s k j i space) model) :
    matVec (EigenvectorSpaceR Real.sqrt s k j i U space model)
        (EigenvaluesAndDecompositionCoefficientAlpha Real.sqrt s k j i U space model).2
      = deltaU s k j i U space :=
  eigenbasis_roundtrip s k j i U space model hγ hA hAh

/-- Witness of C5, the scenario of the claim: direction X, `gamma = 7/5`, left state
`(1, 1, 0, 0, 3)`, right state `(1, 2, 0, 0, 9/2)`; `alpha` is not the zero vector and
`R * alpha = (0, 1, 0, 0, 3/2)`. -/
theorem eigenbasis_recombination_scenario :
    (EigenvaluesAndDecompositionCoefficientAlpha Real.sqrt X 0 0 0 (jumpGrid : Grid ℝ) ⟨1, 1⟩
        air).2 ≠ (fun _ => 0) ∧
    matVec (EigenvectorSpaceR Real.sqrt X 0 0 0 (jumpGrid : Grid ℝ) ⟨1, 1⟩ air)
        (EigenvaluesAndDecompositionCoefficientAlpha Real.sqrt X 0 0 0 (jumpGrid : Grid ℝ)
          ⟨1, 1⟩ air).2
      = ![fin 0, fin 1, fin 0, fin 0, fin (3/2)] := by
  have hR := eigenbasis_recombination X 0 0 0 (jumpGrid : Grid ℝ) ⟨1, 1⟩ air air_gamma
    jumpGrid_cell (jumpGrid_neighbour X)
  rw [jumpGrid_delta] at hR
  refine ⟨fun hα => ?_, hR⟩
  rw [hα] at hR
  have h1 := matVec_zero_ne _ 1 ((congrFun hR 1).trans (vec5_1 _ _ _ _ _))
  exact one_ne_zero h1

/-- C6. Directional symmetry of the eigenstructure: for directions `s < t` (X and Y, X and Z,
Y and Z), if the states of `U'` at the node and at its neighbour in direction `t` are
those of `U` at the node and at its neighbour in direction `s` with the momentum components of
`s` and `t` exchanged, then the eigenvalues of direction `t` on `U'` are those of direction `s`
on `U`, and `L` and `R` of direction `t` on `U'` are `L` and `R` of direction `s` on `U` with
rows and columns permuted by the same exchange. This holds for every `gamma` and every pair of
states. -/
theorem eigen_directional_symmetry (sqrtK : K → K) (s t : Fin DIMS) (hst : s < t)
    (k j i : Int) (U U' : Grid K) (space : Space) (model : Model K)
    (hc : ∀ m : Fin DIMU, U' (IndexMath k j i space * DIMU + (m : Nat))
      = U (IndexMath k j i space * DIMU + (axisSwap s t m : Nat)))
    (hn : ∀ m : Fin DIMU, U' (neighbour t k j i space + (m : Nat))
      = U (neighbour s k j i space + (axisSwap s t m : Nat))) :
    (ComputeEigenvaluesAndEigenvectorSpaceL sqrtK t k j i U' space model).1
      = (ComputeEigenvaluesAndEigenvectorSpaceL sqrtK s k j i U space model).1 ∧
    (∀ r c, (ComputeEigenvaluesAndEigenvectorSpaceL sqrtK t k j i U' space model).2 r c
      = (ComputeEigenvaluesAndEigenvectorSpaceL sqrtK s k j i U space model).2
          (axisSwap s t r) (axisSwap s t c)) ∧
    (∀ r c, EigenvectorSpaceR sqrtK t k j i U' space model r c
      = EigenvectorSpaceR sqrtK s k j i U space model (axisSwap s t r) (axisSwap s t c)) := by
  revert s t
  refine forall_fin3 ?_ ?_ ?_ <;> refine forall_fin3 ?_ ?_ ?_ <;> intro hst hc hn
  · exact absurd hst (by decide)
  · exact eigen_swapXY sqrtK k j i space model hc hn
  · exact eigen_swapXZ sqrtK k j i space model hc hn
  · exact absurd hst (by decide)
  · exact absurd hst (by decide)
  · exact eigen_swapYZ sqrtK k j i space model hc hn
  · exact absurd hst (by decide)
  · exact absurd hst (by decide)
  · exact absurd hst (by decide)

/-- Witness of C6: directions X and Y on the velocity jump and on its image with the x- and
y-momentum exchanged. -/
theorem eigen_directional_symmetry_witness :
    (ComputeEigenvaluesAndEigenvectorSpaceL Real.sqrt Y 0 0 0
        (pairGrid (![1, 1, 0, 0, 3] ∘ axisSwap X Y) (![1, 2, 0, 0, 9/2] ∘ axisSwap X Y))
        ⟨1, 1⟩ air).1
      = (ComputeEigenvaluesAndEigenvectorSpaceL Real.sqrt X 0 0 0 jumpGrid ⟨1, 1⟩ air).1 ∧
    (∀ r c, (ComputeEigenvaluesAndEigenvectorSpaceL Real.sqrt Y 0 0 0
        (pairGrid (![1, 1, 0, 0, 3] ∘ axisSwap X Y) (![1, 2, 0, 0, 9/2] ∘ axisSwap X Y))
        ⟨1, 1⟩ air).2 r c
      = (ComputeEigenvaluesAndEigenvectorSpaceL Real.sqrt X 0 0 0 jumpGrid ⟨1, 1⟩ air).2
          (axisSwap X Y r) (axisSwap X Y c)) ∧
    (∀ r c, EigenvectorSpaceR Real.sqrt Y 0 0 0
        (pairGrid (![1, 1, 0, 0, 3] ∘ axisSwap X Y) (![1, 2, 0, 0, 9/2] ∘ axisSwap X Y))
        ⟨1, 1⟩ air r c
      = EigenvectorSpaceR Real.sqrt X 0 0 0 jumpGrid ⟨1, 1⟩ air (axisSwap X Y r)
          (axisSwap X Y c)) :=
  eigen_directional_symmetry Real.sqrt X Y (by decide) 0 0 0 jumpGrid _ ⟨1, 1⟩ air
    (fun m => (pairGrid_cell _ _ m).trans (pairGrid_cell _ _ (axisSwap X Y m)).symm)
    (fun m => (pairGrid_nbr Y _ _ m).trans (pairGrid_nbr X _ _ (axisSwap X Y m)).symm)

/-- C7. Directional symmetry of the split fluxes: for directions `s < t`, every model and
every cell state, `FluxVectorSplitting` in direction `t` on the state with the momentum
components of `s` and `t` exchanged returns `Fplus` and `Fminus` equal to the direction-`s`
results with the same two components exchanged, and the same relation holds between the raw
convective fluxes. -/
theorem flux_directional_symmetry (sqrtK : K → K) (s t : Fin DIMS) (hst : s < t)
    (k j i : Int) (U U' : Grid K) (space : Space) (model : Model K)
    (hc : ∀ m : Fin DIMU, U' (IndexMath k j i space * DIMU + (m : Nat))
      = U (IndexMath k j i space * DIMU + (axisSwap s t m : Nat))) :
    (∀ m, (FluxVectorSplitting sqrtK t k j i U' space model).1 m
      = (FluxVectorSplitting sqrtK s k j i U space model).1 (axisSwap s t m)) ∧
    (∀ m, (FluxVectorSplitting sqrtK t k j i U' space model).2 m
      = (FluxVectorSplitting sqrtK s k j i U space model).2 (axisSwap s t m)) ∧
    (∀ m, ConvectiveFlux t k j i U' space model m
      = ConvectiveFlux s k j i U space model (axisSwap s t m)) := by
  revert s t
  refine forall_fin3 ?_ ?_ ?_ <;> refine forall_fin3 ?_ ?_ ?_ <;> intro hst hc
  · exact absurd hst (by decide)
  · exact flux_swapXY sqrtK k j i space model hc
  · exact flux_swapXZ sqrtK k j i space model hc
  · exact absurd hst (by decide)
  · exact absurd hst (by decide)
  · exact flux_swapYZ sqrtK k j i space model hc
  · exact absurd hst (by decide)
  · exact absurd hst (by decide)
  · exact absurd hst (by decide)

/-- Witness of C7: directions Y and Z on the velocity jump and on its image with the y- and
z-momentum exchanged. -/
theorem flux_directional_symmetry_witness :
    (∀ m, (FluxVectorSplitting Real.sqrt Z 0 0 0
        (pairGrid (![1, 1, 0, 0, 3] ∘ axisSwap Y Z) (![1, 2, 0, 0, 9/2] ∘ axisSwap Y Z))
        ⟨1, 1⟩ air).1 m
      = (FluxVectorSplitting Real.sqrt Y 0 0 0 jumpGrid ⟨1, 1⟩ air).1 (axisSwap Y Z m)) ∧
    (∀ m, (FluxVectorSplitting Real.sqrt Z 0 0 0
        (pairGrid (![1, 1, 0, 0, 3] ∘ axisSwap Y Z) (![1, 2, 0, 0, 9/2] ∘ axisSwap Y Z))
        ⟨1, 1⟩ air).2 m
      = (FluxVectorSplitting Real.sqrt Y 0 0 0 jumpGrid ⟨1, 1⟩ air).2 (axisSwap Y Z m)) ∧
    (∀ m, ConvectiveFlux Z 0 0 0
        (pairGrid (![1, 1, 0, 0, 3] ∘ axisSwap Y Z) (![1, 2, 0, 0, 9/2] ∘ axisSwap Y Z))
        ⟨1, 1⟩ air m
      = ConvectiveFlux Y 0 0 0 (jumpGrid : Grid ℝ) ⟨1, 1⟩ air (axisSwap Y Z m)) :=
  flux_directional_symmetry Real.sqrt Y Z (by decide) 0 0 0 jumpGrid _ ⟨1, 1⟩ air
    (fun m => (pairGrid_cell _ _ m).trans (pairGrid_cell _ _ (axisSwap Y Z m)).symm)

/-- C8. Scenario at rest: with `gamma = 1.4` and the state `(1, 0, 0, 0, 2.5)` at a node and at
its neighbour in direction `s`, `ComputeRoeAverage` returns velocity `(0, 0, 0)` and a sound
speed `c > 0` with `c * c = 1.4`, the eigenvalues written by
`EigenvaluesAndDecompositionCoefficientAlpha` are `(-c, 0, 0, 0, c)`, and in direction X
`Fplus + Fminus = (0, 1, 0, 0, 0)`. -/
theorem rest_state_scenario (s : Fin DIMS) (k j i : Int) (U : Grid ℝ) (space : Space)
    (model : Model ℝ) (hγ : model.gamma = 1.4)
    (hcell : ∀ m : Fin DIMU,
      U (IndexMath k j i space * DIMU + (m : Nat)) = fin (![1, 0, 0, 0, 2.5] m))
    (hnbr : ∀ m : Fin DIMU,
      U (neighbour s k j i space + (m : Nat)) = fin (![1, 0, 0, 0, 2.5] m)) :
    ∃ c : ℝ, 0 < c ∧ c * c = 1.4 ∧
      (∀ Uo : Fin DIMUo → CReal ℝ,
        ComputeRoeAverage Real.sqrt Uo (IndexMath k j i space * DIMU) (neighbour s k j i space)
          U model = ![Uo 0, fin 0, fin 0, fin 0, fin 3.5, fin c]) ∧
      (EigenvaluesAndDecompositionCoefficientAlpha Real.sqrt s k j i U space model).1
        = ![fin (-c), fin 0, fin 0, fin 0, fin c] ∧
      ∀ m : Fin DIMU,
        (FluxVectorSplitting Real.sqrt X k j i U space model).1 m
          + (FluxVectorSplitting Real.sqrt X k j i U space model).2 m
          = (![0, 1, 0, 0, 0] : Fin DIMU → CReal ℝ) m :=
  rest_state s k j i U space model hγ hcell hnbr

/-- Witness of C8 on the two-node grid at rest, direction Z. -/
theorem rest_state_scenario_witness :
    ∃ c : ℝ, 0 < c ∧ c * c = 1.4 ∧
      (∀ Uo : Fin DIMUo → CReal ℝ,
        ComputeRoeAverage Real.sqrt Uo (IndexMath 0 0 0 ⟨1, 1⟩ * DIMU) (neighbour Z 0 0 0 ⟨1, 1⟩)
          restGrid air = ![Uo 0, fin 0, fin 0, fin 0, fin 3.5, fin c]) ∧
      (EigenvaluesAndDecompositionCoefficientAlpha Real.sqrt Z 0 0 0 restGrid ⟨1, 1⟩ air).1
        = ![fin (-c), fin 0, fin 0, fin 0, fin c] ∧
      ∀ m : Fin DIMU,
        (FluxVectorSplitting Real.sqrt X 0 0 0 restGrid ⟨1, 1⟩ air).1 m
          + (FluxVectorSplitting Real.sqrt X 0 0 0 restGrid ⟨1, 1⟩ air).2 m
          = (![0, 1, 0, 0, 0] : Fin DIMU → CReal ℝ) m :=
  rest_state_scenario Z 0 0 0 restGrid ⟨1, 1⟩ air (by norm_num [air])
    (fun m => (pairGrid_cell _ _ m).trans (restGrid_values m))
    (fun m => (pairGrid_nbr Z _ _ m).trans (restGrid_values m))

/-- C9. The raw convective fluxes are the Euler fluxes: for a state of positive density, with
`(u, v, w)` the momentum over the density and `p` the value of `ComputePressure` on the same
node, `ConvectiveFluxX/Y/Z` return `rho * v_n`, `rho * v_n * (u, v, w)` with `p` added to the
component of the chosen axis only, and `(U[idx+4] + p) * v_n`. -/
theorem convectiveFlux_euler (k j i : Int) (U : Grid ℝ) (space : Space) (model : Model ℝ)
    (hρ : pos (U (IndexMath k j i space * DIMU))) :
    let idx := IndexMath k j i space * DIMU
    let rho := U idx
    let u := U (idx+1) / rho
    let v := U (idx+2) / rho
    let w := U (idx+3) / rho
    let p := ComputePressure idx U model
    ConvectiveFluxX k j i U space model
      = ![rho * u, rho * u * u + p, rho * u * v, rho * u * w, (U (idx+4) + p) * u] ∧
    ConvectiveFluxY k j i U space model
      = ![rho * v, rho * v * u, rho * v * v + p, rho * v * w, (U (idx+4) + p) * v] ∧
    ConvectiveFluxZ k j i U space model
      = ![rho * w, rho * w * u, rho * w * v, rho * w * w + p, (U (idx+4) + p) * w] := by
  intro idx rho u v w p
  cases e0 : U (IndexMath k j i space * DIMU) with
  | undef => rw [e0] at hρ; exact absurd hρ pos_undef
  | fin ρ =>
    have hρ0 : ρ ≠ 0 := by
      rw [e0] at hρ
      exact (pos_fin ρ).mp hρ |>.ne'
    have hp : fin ρ * (U (idx+4) / fin ρ - 0.5 * (U (idx+1) / fin ρ * (U (idx+1) / fin ρ)
        + U (idx+2) / fin ρ * (U (idx+2) / fin ρ) + U (idx+3) / fin ρ * (U (idx+3) / fin ρ)))
        * (fin model.gamma - 1.0) = p := by
      rw [pressure_rescale hρ0]
      simp only [p, ComputePressure, idx, e0]
    have hE : fin ρ * (U (idx+4) / fin ρ) = U (idx+4) := energy_rescale hρ0 _
    simp only [ConvectiveFluxX, ConvectiveFluxY, ConvectiveFluxZ, rho, u, v, w]
    simp only [idx] at hp hE ⊢
    simp only [e0, hp, hE, and_self]

/-- Witness of C9 on the left node of the velocity jump. -/
theorem convectiveFlux_euler_witness :
    let U : Grid ℝ := jumpGrid
    let idx := IndexMath 0 0 0 ⟨1, 1⟩ * DIMU
    let rho := U idx
    let u := U (idx+1) / rho
    let v := U (idx+2) / rho
    let w := U (idx+3) / rho
    let p := ComputePressure idx U air
    ConvectiveFluxX 0 0 0 U ⟨1, 1⟩ air
      = ![rho * u, rho * u * u + p, rho * u * v, rho * u * w, (U (idx+4) + p) * u] ∧
    ConvectiveFluxY 0 0 0 U ⟨1, 1⟩ air
      = ![rho * v, rho * v * u, rho * v * v + p, rho * v * w, (U (idx+4) + p) * v] ∧
    ConvectiveFluxZ 0 0 0 U ⟨1, 1⟩ air
      = ![rho * w, rho * w * u, rho * w * v, rho * w * w + p, (U (idx+4) + p) * w] :=
  convectiveFlux_euler 0 0 0 jumpGrid ⟨1, 1⟩ air jumpGrid_cell.1

/-- C10. Characteristic projection is the matrix-vector product on a consistent node pair: the
`lambda` returned by `EigenvaluesAndDecompositionCoefficientAlpha` is the eigenvalue vector of
the left-eigenvector routine of direction `s`, `alpha[r]` is the sum over `c = 0..4` of
`L[r][c] * (U[nbr+c] - U[cell+c])` with `cell = 5 * IndexMath(k,j,i)` and `nbr` the node one
step in `+s`, and that `lambda` and `L` are determined by the values of `U` on exactly those
two nodes. -/
theorem alpha_is_projection (sqrtK : K → K) (s : Fin DIMS) (k j i : Int) (U : Grid K)
    (space : Space) (model : Model K) :
    (EigenvaluesAndDecompositionCoefficientAlpha sqrtK s k j i U space model).1
      = (ComputeEigenvaluesAndEigenvectorSpaceL sqrtK s k j i U space model).1 ∧
    (∀ r, (EigenvaluesAndDecompositionCoefficientAlpha sqrtK s k j i U space model).2 r
      = (ComputeEigenvaluesAndEigenvectorSpaceL sqrtK s k j i U space model).2 r 0
          * (U (neighbour s k j i space + 0) - U (IndexMath k j i space * DIMU + 0))
        + (ComputeEigenvaluesAndEigenvectorSpaceL sqrtK s k j i U space model).2 r 1
          * (U (neighbour s k j i space + 1) - U (IndexMath k j i space * DIMU + 1))
        + (ComputeEigenvaluesAndEigenvectorSpaceL sqrtK s k j i U space model).2 r 2
          * (U (neighbour s k j i space + 2) - U (IndexMath k j i space * DIMU + 2))
        + (ComputeEigenvaluesAndEigenvectorSpaceL sqrtK s k j i U space model).2 r 3
          * (U (neighbour s k j i space + 3) - U (IndexMath k j i space * DIMU + 3))
        + (ComputeEigenvaluesAndEigenvectorSpaceL sqrtK s k j i U space model).2 r 4
          * (U (neighbour s k j i space + 4) - U (IndexMath k j i space * DIMU + 4))) ∧
    (neighbour s k j i space
      = ![IndexMath k j (i + 1) space, IndexMath k (j + 1) i space,
          IndexMath (k + 1) j i space] s * 5) ∧
    ∀ U' : Grid K,
      (∀ m : Fin DIMU, U' (IndexMath k j i space * DIMU + (m : Nat))
        = U (IndexMath k j i space * DIMU + (m : Nat))) →
      (∀ m : Fin DIMU, U' (neighbour s k j i space + (m : Nat))
        = U (neighbour s k j i space + (m : Nat))) →
      ComputeEigenvaluesAndEigenvectorSpaceL sqrtK s k j i U' space model
        = ComputeEigenvaluesAndEigenvectorSpaceL sqrtK s k j i U space model := by
  refine ⟨?_, ?_, rfl, fun U' h1 h2 => eigenL_congr sqrtK s k j i space model h1 h2⟩
  · rw [alpha_eq_matVec]
  · intro r
    rw [alpha_eq_matVec]
    simp only [matVec, deltaU, fin5_val_0, fin5_val_1, fin5_val_2, fin5_val_3, fin5_val_4]

/-- Witness of C10: the projection on the velocity jump in direction X, with the locality
statement applied to the grid itself. -/
theorem alpha_is_projection_witness :
    (EigenvaluesAndDecompositionCoefficientAlpha Real.sqrt X 0 0 0 jumpGrid ⟨1, 1⟩ air).1
      = (ComputeEigenvaluesAndEigenvectorSpaceL Real.sqrt X 0 0 0 jumpGrid ⟨1, 1⟩ air).1 ∧
    ComputeEigenvaluesAndEigenvectorSpaceL Real.sqrt X 0 0 0
        (pairGrid ![1, 1, 0, 0, 3] ![1, 2, 0, 0, 9/2]) ⟨1, 1⟩ air
      = ComputeEigenvaluesAndEigenvectorSpaceL Real.sqrt X 0 0 0 jumpGrid ⟨1, 1⟩ air :=
  ⟨(alpha_is_projection Real.sqrt X 0 0 0 jumpGrid ⟨1, 1⟩ air).1,
   (alpha_is_projection Real.sqrt X 0 0 0 jumpGrid ⟨1, 1⟩ air).2.2.2 _
     (fun _ => rfl) (fun _ => rfl)⟩

/-- C16 (as stated, refuted). In C `int` arithmetic `IndexMath` is not injective for every
space: with `jMax = iMax = 65536` the nodes `(1, 0, 0)` and `(0, 0, 0)`, both inside the
stated bounds on `j` and `i`, get the same index 0; and on a 1024 x 1024 plane the offset
`5 * IndexMath(819, 204, 820)` wraps to 4, a slot of the block of node `(0, 0, 0)`. -/
theorem IndexMath_counterexample :
    (¬ ∀ (space : Space) (k j i k' j' i' : Int), 0 < space.iMax → 0 < space.jMax →
      0 ≤ j → j < space.jMax → 0 ≤ j' → j' < space.jMax →
      0 ≤ i → i < space.iMax → 0 ≤ i' → i' < space.iMax →
      IndexMath k j i space = IndexMath k' j' i' space → k = k' ∧ j = j' ∧ i = i') ∧
    wrapInt (IndexMath 819 204 820 ⟨1024, 1024⟩ * DIMU)
      = wrapInt (IndexMath 0 0 0 ⟨1024, 1024⟩ * DIMU) + 4 := by
  refine ⟨fun hall => ?_, stride_wraps⟩
  have h := hall ⟨65536, 65536⟩ 1 0 0 0 0 0 (by decide) (by decide) (by decide) (by decide)
    (by decide) (by decide) (by decide) (by decide) (by decide) (by decide) IndexMath_wraps
  exact absurd h.1 (by decide)

/-- C16 (amended). `IndexMath` is injective over the coordinates of a grid that a C `int` can
index: for `0 <= k, k' < kMax`, `0 <= j, j' < jMax`, `0 <= i, i' < iMax` and
`kMax * jMax * iMax <= 2147483647`, `IndexMath` is the row-major offset
`(k * jMax + j) * iMax + i` computed without overflow, and two triples have the same
`IndexMath` exactly when they are equal; if moreover `5 * kMax * jMax * iMax <= 2147483647`,
the offsets `5 * IndexMath + m` are computed without overflow and the five-slot blocks of two
nodes share a slot only when the nodes and the components are equal. -/
theorem IndexMath_injective (space : Space) (kMax k j i k' j' i' : Int)
    (hk : 0 ≤ k ∧ k < kMax) (hk' : 0 ≤ k' ∧ k' < kMax)
    (hj : 0 ≤ j ∧ j < space.jMax) (hj' : 0 ≤ j' ∧ j' < space.jMax)
    (hi : 0 ≤ i ∧ i < space.iMax) (hi' : 0 ≤ i' ∧ i' < space.iMax)
    (hN : kMax * space.jMax * space.iMax ≤ 2147483647) :
    IndexMath k j i space = (k * space.jMax + j) * space.iMax + i ∧
    (IndexMath k j i space = IndexMath k' j' i' space ↔ (k = k' ∧ j = j' ∧ i = i')) ∧
    (kMax * space.jMax * space.iMax * DIMU ≤ 2147483647 →
      (∀ m : Fin DIMU, wrapInt (wrapInt (IndexMath k j i space * DIMU) + (m : Nat))
        = IndexMath k j i space * DIMU + (m : Nat)) ∧
      ∀ m m' : Fin DIMU,
        wrapInt (wrapInt (IndexMath k j i space * DIMU) + (m : Nat))
          = wrapInt (wrapInt (IndexMath k' j' i' space * DIMU) + (m' : Nat)) →
          (k = k' ∧ j = j' ∧ i = i') ∧ m = m') := by
  have hinj := @IndexMath_inj space kMax k j i k' j' i' hk.1 hk.2 hk'.1 hk'.2 hj.1 hj.2
    hj'.1 hj'.2 hi.1 hi.2 hi'.1 hi'.2 hN
  refine ⟨(IndexMath_exact space kMax hk.1 hk.2 hj.1 hj.2 hi.1 hi.2 hN).1, ⟨hinj, ?_⟩,
    fun hN5 => ⟨offset_exact space kMax hk.1 hk.2 hj.1 hj.2 hi.1 hi.2 hN5, ?_⟩⟩
  · rintro ⟨rfl, rfl, rfl⟩
    rfl
  · intro m m' heq
    rw [offset_exact space kMax hk.1 hk.2 hj.1 hj.2 hi.1 hi.2 hN5 m,
      offset_exact space kMax hk'.1 hk'.2 hj'.1 hj'.2 hi'.1 hi'.2 hN5 m'] at heq
    have hm : ((m : Nat) : Int) < 5 := by exact_mod_cast m.2
    have hm' : ((m' : Nat) : Int) < 5 := by exact_mod_cast m'.2
    obtain ⟨h1, h2⟩ := rowMajor_inj (Int.natCast_nonneg _) hm (Int.natCast_nonneg _) hm' heq
    exact ⟨hinj h1, Fin.ext (by exact_mod_cast h2)⟩

/-- Witness of the amended C16 on a grid with `kMax = 2`, `jMax = 2`, `iMax = 3`: the nodes
`(1, 0, 2)` and `(0, 1, 2)`. -/
theorem IndexMath_injective_witness :
    IndexMath 1 0 2 ⟨2, 3⟩ = (1 * 2 + 0) * 3 + 2 ∧
    (IndexMath 1 0 2 ⟨2, 3⟩ = IndexMath 0 1 2 ⟨2, 3⟩
      ↔ ((1 : Int) = 0 ∧ (0 : Int) = 1 ∧ (2 : Int) = 2)) ∧
    ((∀ m : Fin DIMU, wrapInt (wrapInt (IndexMath 1 0 2 ⟨2, 3⟩ * DIMU) + (m : Nat))
        = IndexMath 1 0 2 ⟨2, 3⟩ * DIMU + (m : Nat)) ∧
      ∀ m m' : Fin DIMU,
        wrapInt (wrapInt (IndexMath 1 0 2 ⟨2, 3⟩ * DIMU) + (m : Nat))
          = wrapInt (wrapInt (IndexMath 0 1 2 ⟨2, 3⟩ * DIMU) + (m' : Nat)) →
          ((1 : Int) = 0 ∧ (0 : Int) = 1 ∧ (2 : Int) = 2) ∧ m = m') :=
  ⟨(IndexMath_injective ⟨2, 3⟩ 2 1 0 2 0 1 2 (by decide) (by decide) (by decide) (by decide)
      (by decide) (by decide) (by decide)).1,
   (IndexMath_injective ⟨2, 3⟩ 2 1 0 2 0 1 2 (by decide) (by decide) (by decide) (by decide)
      (by decide) (by decide) (by decide)).2.1,
   (IndexMath_injective ⟨2, 3⟩ 2 1 0 2 0 1 2 (by decide) (by decide) (by decide) (by decide)
      (by decide) (by decide) (by decide)).2.2 (by decide)⟩

/-- C14 (as stated, refuted). `ComputeTemperature` divides the internal energy by
`rho * cv`, while `PrimitiveByConservative` divides the pressure by `rho * gasR`: for
`gamma = 7/5`, `gasR = 287`, `cv = 718` and the admissible state `(1, 0, 0, 0, 5/2)` the two
temperatures differ. -/
theorem temperature_counterexample :
    ¬ ∀ (model : Model ℝ) (U : Grid ℝ) (idx : Int), 1 < model.gamma → 0 < model.gasR →
      0 < model.cv → Admissible U idx model →
      ComputeTemperature idx U model = PrimitiveByConservative idx U model 5 := by
  intro hall
  exact airTemperature_ne (hall air restGrid 0 air_gamma (by norm_num [air]) (by norm_num [air])
    (pairGrid_admissible_left _ _ _ (by norm_num) (by norm_num [air])))

/-- C14 (amended). For `gamma > 1`, `gasR > 0`, `cv > 0` and an admissible state,
`ComputeTemperature` and the slot `Uo[5]` of `PrimitiveByConservative` are finite and positive,
they satisfy `ComputeTemperature * (gamma - 1) * cv = Uo[5] * gasR`, and they are equal exactly
when `gasR = (gamma - 1) * cv`. -/
theorem temperature_relation (model : Model ℝ) (U : Grid ℝ) (idx : Int) (hγ : 1 < model.gamma)
    (hR : 0 < model.gasR) (hcv : 0 < model.cv) (hA : Admissible U idx model) :
    ∃ T Tp : ℝ, ComputeTemperature idx U model = fin T ∧
      PrimitiveByConservative idx U model 5 = fin Tp ∧ 0 < T ∧ 0 < Tp ∧
      T * ((model.gamma - 1) * model.cv) = Tp * model.gasR ∧
      (ComputeTemperature idx U model = PrimitiveByConservative idx U model 5
        ↔ model.gasR = (model.gamma - 1) * model.cv) := by
  obtain ⟨T, Tp, hT, hTp, hT0, hTp0, hrel⟩ := temperature_fin hγ hR hcv hA
  refine ⟨T, Tp, hT, hTp, hT0, hTp0, hrel, ?_⟩
  rw [hT, hTp]
  constructor
  · intro h
    have hh : T = Tp := fin.inj h
    rw [hh] at hrel
    exact (mul_left_cancel₀ hTp0.ne' hrel).symm
  · intro h
    rw [← h] at hrel
    exact congrArg fin (mul_right_cancel₀ hR.ne' hrel)

/-- Witness of the amended C14: the state at rest with `gamma = 7/5`, `gasR = 2`, `cv = 5`,
where `gasR = (gamma - 1) * cv`. -/
theorem temperature_relation_witness :
    ∃ T Tp : ℝ, ComputeTemperature 0 restGrid ⟨7/5, 2, 5⟩ = fin T ∧
      PrimitiveByConservative 0 restGrid ⟨7/5, 2, 5⟩ 5 = fin Tp ∧ 0 < T ∧ 0 < Tp ∧
      T * (((7/5 : ℝ) - 1) * 5) = Tp * 2 ∧
      (ComputeTemperature 0 (restGrid : Grid ℝ) ⟨7/5, 2, 5⟩
          = PrimitiveByConservative 0 restGrid ⟨7/5, 2, 5⟩ 5
        ↔ (2 : ℝ) = ((7/5 : ℝ) - 1) * 5) :=
  temperature_relation ⟨7/5, 2, 5⟩ restGrid 0 (by norm_num) (by norm_num) (by norm_num)
    (pairGrid_admissible_left _ _ _ (by norm_num) (by norm_num))

/-- C15. `ConservativeByPrimitive` followed by `PrimitiveByConservative`: for `gamma > 1`,
`gasR > 0` and a primitive vector of finite values with `Uo[0] = rho > 0`, the conservative
state written at `idx` has energy `rho * |v|^2 / 2 + p / (gamma - 1)`, and reading it back
returns `Uo[0..4]` unchanged and `Uo[4] / (Uo[0] * gasR)` in slot 5. -/
theorem primitive_roundtrip (model : Model ℝ) (U : Grid ℝ) (idx : Int) (x : Fin DIMUo → ℝ)
    (hγ : 1 < model.gamma) (hR : 0 < model.gasR) (hρ : 0 < x 0) :
    ConservativeByPrimitive U idx (fun m => fin (x m)) model (idx + 4)
      = fin (x 0 * (x 1 * x 1 + x 2 * x 2 + x 3 * x 3) / 2 + x 4 / (model.gamma - 1)) ∧
    PrimitiveByConservative idx (ConservativeByPrimitive U idx (fun m => fin (x m)) model) model
      = ![fin (x 0), fin (x 1), fin (x 2), fin (x 3), fin (x 4),
          fin (x 4 / (x 0 * model.gasR))] := by
  have hρ0 : x 0 ≠ 0 := hρ.ne'
  have hγ1 : model.gamma - 1 ≠ 0 := by linarith
  have hR0 : model.gasR ≠ 0 := hR.ne'
  constructor
  · simp [ConservativeByPrimitive, Function.update_apply, hγ1]
    ring
  · refine vec6_congr ?_ ?_ ?_ ?_ ?_ ?_ <;>
      simp [ConservativeByPrimitive, Function.update_apply, hρ0, hγ1, hR0] <;> field_simp <;> ring

/-- Witness of C15 on the primitive state `rho = 1, (u, v, w) = (1, 0, 0), p = 1` with
`gamma = 7/5`. -/
theorem primitive_roundtrip_witness :
    ConservativeByPrimitive (restGrid : Grid ℝ) 0 (fun m => fin (![1, 1, 0, 0, 1, 0] m)) air
        (0 + 4)
      = fin ((![1, 1, 0, 0, 1, 0] : Fin DIMUo → ℝ) 0 * (![1, 1, 0, 0, 1, 0] 1 * ![1, 1, 0, 0, 1, 0] 1
          + ![1, 1, 0, 0, 1, 0] 2 * ![1, 1, 0, 0, 1, 0] 2
          + ![1, 1, 0, 0, 1, 0] 3 * ![1, 1, 0, 0, 1, 0] 3) / 2
          + ![1, 1, 0, 0, 1, 0] 4 / ((air : Model ℝ).gamma - 1)) ∧
    PrimitiveByConservative 0
        (ConservativeByPrimitive (restGrid : Grid ℝ) 0 (fun m => fin (![1, 1, 0, 0, 1, 0] m)) air)
        air
      = ![fin (![1, 1, 0, 0, 1, 0] 0), fin (![1, 1, 0, 0, 1, 0] 1), fin (![1, 1, 0, 0, 1, 0] 2),
          fin (![1, 1, 0, 0, 1, 0] 3), fin (![1, 1, 0, 0, 1, 0] 4),
          fin ((![1, 1, 0, 0, 1, 0] : Fin DIMUo → ℝ) 4
            / (![1, 1, 0, 0, 1, 0] 0 * (air : Model ℝ).gasR))] :=
  primitive_roundtrip air restGrid 0 ![1, 1, 0, 0, 1, 0] air_gamma (by norm_num [air])
    (by norm_num)

/-- C13. `ComputeRoeAverage` is the reference Roe average: for states of positive density at
both nodes, with `D = sqrt(rho_right / rho_left)`, velocities `momentum / rho` and total
enthalpies `H = (U[idx+4] + ComputePressure) / rho`, the routine writes
`Uo[1..3] = (vel_left + D * vel_right) / (1 + D)`, `Uo[4] = (H_left + D * H_right) / (1 + D)`
and `Uo[5] = sqrt((gamma - 1) * (Uo[4] - (Uo[1]^2 + Uo[2]^2 + Uo[3]^2) / 2))`, leaves `Uo[0]`
as it was, and `D` is the finite square root of a positive ratio. -/
theorem roe_average_reference (Uo : Fin DIMUo → CReal ℝ) (U : Grid ℝ) (idx idxh : Int)
    (model : Model ℝ) (hρ : pos (U idx)) (hρh : pos (U idxh)) :
    let D := CReal.sqrt Real.sqrt (U idxh / U idx)
    let H := (U (idx+4) + ComputePressure idx U model) / U idx
    let Hh := (U (idxh+4) + ComputePressure idxh U model) / U idxh
    let R := ComputeRoeAverage Real.sqrt Uo idx idxh U model
    R 0 = Uo 0 ∧
    R 1 = (U (idx+1) / U idx + D * (U (idxh+1) / U idxh)) / (1 + D) ∧
    R 2 = (U (idx+2) / U idx + D * (U (idxh+2) / U idxh)) / (1 + D) ∧
    R 3 = (U (idx+3) / U idx + D * (U (idxh+3) / U idxh)) / (1 + D) ∧
    R 4 = (H + D * Hh) / (1 + D) ∧
    R 5 = CReal.sqrt Real.sqrt
      ((fin model.gamma - 1) * (R 4 - (R 1 * R 1 + R 2 * R 2 + R 3 * R 3) / 2)) ∧
    ∃ d : ℝ, 0 < d ∧ D = fin d := by
  intro D H Hh R
  cases e0 : U idx with
  | undef => rw [e0] at hρ; exact absurd hρ pos_undef
  | fin ρ =>
    cases f0 : U idxh with
    | undef => rw [f0] at hρh; exact absurd hρh pos_undef
    | fin ρh =>
      have hρp : 0 < ρ := by rw [e0] at hρ; exact (pos_fin ρ).mp hρ
      have hρhp : 0 < ρh := by rw [f0] at hρh; exact (pos_fin ρh).mp hρh
      have hH : U (idx+4) / fin ρ * fin model.gamma
          - 0.5 * (U (idx+1) / fin ρ * (U (idx+1) / fin ρ) + U (idx+2) / fin ρ * (U (idx+2) / fin ρ)
            + U (idx+3) / fin ρ * (U (idx+3) / fin ρ)) * (fin model.gamma - 1.0) = H := by
        rw [enthalpy_rescale hρp.ne']
        simp only [H, ComputePressure, e0]
      have hHh : U (idxh+4) / fin ρh * fin model.gamma
          - 0.5 * (U (idxh+1) / fin ρh * (U (idxh+1) / fin ρh)
            + U (idxh+2) / fin ρh * (U (idxh+2) / fin ρh)
            + U (idxh+3) / fin ρh * (U (idxh+3) / fin ρh)) * (fin model.gamma - 1.0) = Hh := by
        rw [enthalpy_rescale hρhp.ne']
        simp only [Hh, ComputePressure, f0]
      have hR : R = ![Uo 0, (U (idx+1) / fin ρ + D * (U (idxh+1) / fin ρh)) / (1 + D),
          (U (idx+2) / fin ρ + D * (U (idxh+2) / fin ρh)) / (1 + D),
          (U (idx+3) / fin ρ + D * (U (idxh+3) / fin ρh)) / (1 + D),
          (H + D * Hh) / (1 + D),
          CReal.sqrt Real.sqrt ((fin model.gamma - 1) *
            ((H + D * Hh) / (1 + D)
              - ((U (idx+1) / fin ρ + D * (U (idxh+1) / fin ρh)) / (1 + D)
                  * ((U (idx+1) / fin ρ + D * (U (idxh+1) / fin ρh)) / (1 + D))
                + (U (idx+2) / fin ρ + D * (U (idxh+2) / fin ρh)) / (1 + D)
                  * ((U (idx+2) / fin ρ + D * (U (idxh+2) / fin ρh)) / (1 + D))
                + (U (idx+3) / fin ρ + D * (U (idxh+3) / fin ρh)) / (1 + D)
                  * ((U (idx+3) / fin ρ + D * (U (idxh+3) / fin ρh)) / (1 + D))) / 2))] := by
        simp only [R, ComputeRoeAverage, e0, f0, hH, hHh]
        simp only [half_mul_eq_div_two, D, e0, f0, lit_one, one_eq_fin]
      refine ⟨?_, ?_, ?_, ?_, ?_, ?_, Real.sqrt (ρh / ρ), Real.sqrt_pos.mpr (div_pos hρhp hρp), ?_⟩
      · rw [hR]; rfl
      · rw [hR]; rfl
      · rw [hR]; rfl
      · rw [hR]; rfl
      · rw [hR]; rfl
      · rw [hR]; rfl
      · simp only [D, e0, f0, div_fin_of_ne hρp.ne', sqrt_fin_of_nonneg _ (div_pos hρhp hρp).le]

/-- Witness of C13 on the two nodes of the velocity jump. -/
theorem roe_average_reference_witness :
    let U : Grid ℝ := jumpGrid
    let D := CReal.sqrt Real.sqrt (U 5 / U 0)
    let H := (U (0+4) + ComputePressure 0 U air) / U 0
    let Hh := (U (5+4) + ComputePressure 5 U air) / U 5
    let R := ComputeRoeAverage Real.sqrt (fun _ => 0.0) 0 5 U air
    R 0 = (0.0 : CReal ℝ) ∧
    R 1 = (U (0+1) / U 0 + D * (U (5+1) / U 5)) / (1 + D) ∧
    R 2 = (U (0+2) / U 0 + D * (U (5+2) / U 5)) / (1 + D) ∧
    R 3 = (U (0+3) / U 0 + D * (U (5+3) / U 5)) / (1 + D) ∧
    R 4 = (H + D * Hh) / (1 + D) ∧
    R 5 = CReal.sqrt Real.sqrt
      ((fin (air : Model ℝ).gamma - 1) * (R 4 - (R 1 * R 1 + R 2 * R 2 + R 3 * R 3) / 2)) ∧
    ∃ d : ℝ, 0 < d ∧ D = fin d :=
  roe_average_reference (fun _ => 0.0) jumpGrid 0 5 air
    (pairGrid_admissible_left _ _ air (by norm_num) (by norm_num [air])).1
    (pairGrid_admissible_right _ _ air (by norm_num) (by norm_num [air])).1

/-- C17. The Roe-averaged sound speed is real and positive on admissible inputs: for
`gamma > 1` and admissible states at both nodes, the output of `ComputeRoeAverage` is finite,
`Uo[4] - (Uo[1]^2 + Uo[2]^2 + Uo[3]^2) / 2 > 0`, `Uo[5] > 0`,
`Uo[5]^2 = (gamma - 1) * (Uo[4] - (Uo[1]^2 + Uo[2]^2 + Uo[3]^2) / 2)`, and the divisors
`2.0 * c` and `2.0 * c * c` of the left-eigenvector routines are finite and nonzero. -/
theorem roe_sound_speed_positive (Uo : Fin DIMUo → CReal ℝ) (U : Grid ℝ) (idx idxh : Int)
    (model : Model ℝ) (hγ : 1 < model.gamma)
    (hA : Admissible U idx model) (hAh : Admissible U idxh model) :
    ∃ u v w hT c : ℝ,
      ComputeRoeAverage Real.sqrt Uo idx idxh U model
        = ![Uo 0, fin u, fin v, fin w, fin hT, fin c] ∧
      0 < hT - (u ^ 2 + v ^ 2 + w ^ 2) / 2 ∧
      0 < (model.gamma - 1) * (hT - (u ^ 2 + v ^ 2 + w ^ 2) / 2) ∧
      0 < c ∧ c ^ 2 = (model.gamma - 1) * (hT - (u ^ 2 + v ^ 2 + w ^ 2) / 2) ∧
      (∃ x : ℝ, x ≠ 0 ∧ 2.0 * ComputeRoeAverage Real.sqrt Uo idx idxh U model 5 = fin x) ∧
      (∃ y : ℝ, y ≠ 0 ∧ 2.0 * ComputeRoeAverage Real.sqrt Uo idx idxh U model 5
        * ComputeRoeAverage Real.sqrt Uo idx idxh U model 5 = fin y) := by
  obtain ⟨u, v, w, hT, c, hRoe, hc, hcc⟩ := roe_admissible Uo hγ hA hAh
  have hcc2 : c ^ 2 = (model.gamma - 1) * (hT - (u ^ 2 + v ^ 2 + w ^ 2) / 2) := by
    rw [pow_two, hcc]; ring
  have hpos : 0 < (model.gamma - 1) * (hT - (u ^ 2 + v ^ 2 + w ^ 2) / 2) := by
    rw [← hcc2]; positivity
  have hrad : 0 < hT - (u ^ 2 + v ^ 2 + w ^ 2) / 2 :=
    (pos_iff_pos_of_mul_pos hpos).mp (by linarith)
  have h5 : ComputeRoeAverage Real.sqrt Uo idx idxh U model 5 = fin c :=
    (congrFun hRoe 5).trans (vec6_5 _ _ _ _ _ _)
  refine ⟨u, v, w, hT, c, hRoe, hrad, hpos, hc, hcc2, ⟨2 * c, by positivity, ?_⟩,
    ⟨2 * c * c, by positivity, ?_⟩⟩
  · rw [h5, two_mul_fin]
  · rw [h5, two_mul_mul_fin]

/-- Witness of C17 on the two nodes of the velocity jump. -/
theorem roe_sound_speed_positive_witness :
    ∃ u v w hT c : ℝ,
      ComputeRoeAverage Real.sqrt (fun _ => 0.0) 0 5 jumpGrid air
        = ![(0.0 : CReal ℝ), fin u, fin v, fin w, fin hT, fin c] ∧
      0 < hT - (u ^ 2 + v ^ 2 + w ^ 2) / 2 ∧
      0 < ((air : Model ℝ).gamma - 1) * (hT - (u ^ 2 + v ^ 2 + w ^ 2) / 2) ∧
      0 < c ∧ c ^ 2 = ((air : Model ℝ).gamma - 1) * (hT - (u ^ 2 + v ^ 2 + w ^ 2) / 2) ∧
      (∃ x : ℝ, x ≠ 0 ∧ 2.0 * ComputeRoeAverage Real.sqrt (fun _ => 0.0) 0 5 jumpGrid air 5
        = fin x) ∧
      (∃ y : ℝ, y ≠ 0 ∧ 2.0 * ComputeRoeAverage Real.sqrt (fun _ => 0.0) 0 5 jumpGrid air 5
        * ComputeRoeAverage Real.sqrt (fun _ => 0.0) 0 5 jumpGrid air 5 = fin y) :=
  roe_sound_speed_positive (fun _ => 0.0) jumpGrid 0 5 air air_gamma
    (pairGrid_admissible_left _ _ air (by norm_num) (by norm_num [air]))
    (pairGrid_admissible_right _ _ air (by norm_num) (by norm_num [air]))

/-- C11. Eigenvalue vector: for every direction, `gamma > 1` and admissible cell and
neighbour, the `lambda` written by the left-eigenvector routine of direction `s` is
`(v_n - c, v_n, v_n, v_n, v_n + c)` with `v_n` the velocity slot of direction `s` and `c` the
sound-speed slot of `ComputeRoeAverage` on that node pair; both are finite, `c > 0`, so
`lambda[0] <= lambda[1] = lambda[2] = lambda[3] <= lambda[4]` and
`lambda[4] - lambda[0] = 2 c`. -/
theorem eigenvalue_vector (s : Fin DIMS) (k j i : Int) (U : Grid ℝ) (space : Space)
    (model : Model ℝ) (hγ : 1 < model.gamma)
    (hA : Admissible U (IndexMath k j i space * DIMU) model)
    (hAh : Admissible U (neighbour s k j i space) model) :
    ∃ (vn c : ℝ) (l : Fin DIMU → ℝ),
      ComputeRoeAverage Real.sqrt (fun _ => 0.0) (IndexMath k j i space * DIMU)
        (neighbour s k j i space) U model ((![1, 2, 3] : Fin DIMS → Fin DIMUo) s) = fin vn ∧
      ComputeRoeAverage Real.sqrt (fun _ => 0.0) (IndexMath k j i space * DIMU)
        (neighbour s k j i space) U model 5 = fin c ∧
      0 < c ∧
      (ComputeEigenvaluesAndEigenvectorSpaceL Real.sqrt s k j i U space model).1
        = (fun r => fin (l r)) ∧
      l = ![vn - c, vn, vn, vn, vn + c] ∧
      l 0 ≤ l 1 ∧ l 1 = l 2 ∧ l 2 = l 3 ∧ l 3 ≤ l 4 ∧ l 4 - l 0 = 2 * c := by
  revert s
  refine forall_fin3 ?_ ?_ ?_ <;> intro hAh
  all_goals
    simp only [neighbour, Matrix.cons_val_zero, Matrix.cons_val_one, Matrix.cons_val_two,
      Matrix.head_cons, Matrix.tail_cons] at hAh ⊢
    obtain ⟨u, v, w, hT, c, hRoe, hc, -⟩ := roe_admissible (fun _ => 0.0) hγ hA hAh
  · refine ⟨u, c, ![u - c, u, u, u, u + c], (congrFun hRoe 1).trans (vec6_1 _ _ _ _ _ _),
      (congrFun hRoe 5).trans (vec6_5 _ _ _ _ _ _), hc, ?_, rfl, ?_, rfl, rfl, ?_, ?_⟩
    · simp only [ComputeEigenvaluesAndEigenvectorSpaceL, Matrix.cons_val_zero,
        EigenvaluesAndEigenvectorSpaceLX, hRoe, vec6_5, Matrix.cons_val_one, Matrix.head_cons,
        fin_add, fin_sub]
      exact funext (forall_fin5 rfl rfl rfl rfl rfl)
    · show u - c ≤ u
      linarith
    · show u ≤ u + c
      linarith
    · show u + c - (u - c) = 2 * c
      ring
  · refine ⟨v, c, ![v - c, v, v, v, v + c], (congrFun hRoe 2).trans (vec6_2 _ _ _ _ _ _),
      (congrFun hRoe 5).trans (vec6_5 _ _ _ _ _ _), hc, ?_, rfl, ?_, rfl, rfl, ?_, ?_⟩
    · simp only [ComputeEigenvaluesAndEigenvectorSpaceL, Matrix.cons_val_zero,
        EigenvaluesAndEigenvectorSpaceLY, hRoe, vec6_5, Matrix.cons_val_one, Matrix.head_cons,
        Matrix.cons_val_two, Matrix.tail_cons, fin_add, fin_sub]
      exact funext (forall_fin5 rfl rfl rfl rfl rfl)
    · show v - c ≤ v
      linarith
    · show v ≤ v + c
      linarith
    · show v + c - (v - c) = 2 * c
      ring
  · refine ⟨w, c, ![w - c, w, w, w, w + c], (congrFun hRoe 3).trans (vec6_3 _ _ _ _ _ _),
      (congrFun hRoe 5).trans (vec6_5 _ _ _ _ _ _), hc, ?_, rfl, ?_, rfl, rfl, ?_, ?_⟩
    · simp only [ComputeEigenvaluesAndEigenvectorSpaceL, Matrix.cons_val_zero,
        EigenvaluesAndEigenvectorSpaceLZ, hRoe, vec6_5, Matrix.cons_val_one, Matrix.head_cons,
        Matrix.cons_val_two, Matrix.cons_val_three, Matrix.tail_cons, fin_add, fin_sub]
      exact funext (forall_fin5 rfl rfl rfl rfl rfl)
    · show w - c ≤ w
      linarith
    · show w ≤ w + c
      linarith
    · show w + c - (w - c) = 2 * c
      ring

/-- Witness of C11 on the velocity jump, direction X. -/
theorem eigenvalue_vector_witness :
    ∃ (vn c : ℝ) (l : Fin DIMU → ℝ),
      ComputeRoeAverage Real.sqrt (fun _ => 0.0) (IndexMath 0 0 0 ⟨1, 1⟩ * DIMU)
        (neighbour X 0 0 0 ⟨1, 1⟩) jumpGrid air ((![1, 2, 3] : Fin DIMS → Fin DIMUo) X)
        = fin vn ∧
      ComputeRoeAverage Real.sqrt (fun _ => 0.0) (IndexMath 0 0 0 ⟨1, 1⟩ * DIMU)
        (neighbour X 0 0 0 ⟨1, 1⟩) jumpGrid air 5 = fin c ∧
      0 < c ∧
      (ComputeEigenvaluesAndEigenvectorSpaceL Real.sqrt X 0 0 0 jumpGrid ⟨1, 1⟩ air).1
        = (fun r => fin (l r)) ∧
      l = ![vn - c, vn, vn, vn, vn + c] ∧
      l 0 ≤ l 1 ∧ l 1 = l 2 ∧ l 2 = l 3 ∧ l 3 ≤ l 4 ∧ l 4 - l 0 = 2 * c :=
  eigenvalue_vector X 0 0 0 jumpGrid ⟨1, 1⟩ air air_gamma jumpGrid_cell (jumpGrid_neighbour X)

/-- C18. Eigenvalue splitting in `FluxVectorSplitting`: on a cell of density `rho > 0`,
pressure `p > 0` and velocity `v_n` along `s`, with `c = sqrt(gamma * p / rho)`, the
eigenvalues are `(v_n - c, v_n, v_n, v_n, v_n + c)`; each is split as
`lambdaPlus = (lambda + |lambda|) / 2 = max(lambda, 0)` and
`lambdaMinus = (lambda - |lambda|) / 2 = min(lambda, 0)`, so `lambdaPlus >= 0`,
`lambdaMinus <= 0`, `lambdaPlus + lambdaMinus = lambda`, `lambdaPlus * lambdaMinus = 0`; and
`Fplus`, `Fminus` are the direction-`s` assemblies of `lambdaPlus` and `lambdaMinus`. -/
theorem eigenvalue_splitting (s : Fin DIMS) (k j i : Int) (U : Grid ℝ) (space : Space)
    (model : Model ℝ) (hγ : 1 < model.gamma) (ρ p vn : ℝ)
    (h0 : U (IndexMath k j i space * DIMU) = fin ρ)
    (hm : U (IndexMath k j i space * DIMU + ((comp s : Fin DIMU) : Nat)) = fin (ρ * vn))
    (hp : ComputePressure (IndexMath k j i space * DIMU) U model = fin p)
    (hρ : 0 < ρ) (hpp : 0 < p) :
    let c := Real.sqrt (model.gamma * p / ρ)
    let l : Fin DIMU → ℝ := ![vn - c, vn, vn, vn, vn + c]
    let Uo := splitUo Real.sqrt k j i U space model
    0 < c ∧ splitLambda s Uo = (fun r => fin (l r)) ∧
    (∀ r, lambdaPlus (splitLambda s Uo) r = fin (max (l r) 0) ∧
      lambdaMinus (splitLambda s Uo) r = fin (min (l r) 0) ∧
      max (l r) 0 = (l r + |l r|) / 2 ∧ min (l r) 0 = (l r - |l r|) / 2 ∧
      0 ≤ max (l r) 0 ∧ min (l r) 0 ≤ 0 ∧
      max (l r) 0 + min (l r) 0 = l r ∧ max (l r) 0 * min (l r) 0 = 0) ∧
    (FluxVectorSplitting Real.sqrt s k j i U space model).1
      = AssembleConvectiveFlux s (lambdaPlus (splitLambda s Uo)) Uo (fin model.gamma) ∧
    (FluxVectorSplitting Real.sqrt s k j i U space model).2
      = AssembleConvectiveFlux s (lambdaMinus (splitLambda s Uo)) Uo (fin model.gamma) := by
  intro c l Uo
  obtain ⟨-, hc, -, hl⟩ := splitLambda_cell s hγ h0 hm hp hρ hpp
  refine ⟨hc, hl, fun r => ⟨congrFun (lambdaPlus_fin hl) r, congrFun (lambdaMinus_fin hl) r,
    ?_, ?_, le_max_right _ _, min_le_right _ _, (max_add_min _ _).trans (add_zero _),
    max_mul_min_zero _⟩, rfl, rfl⟩
  · rw [← half_add_abs]; ring
  · rw [← half_sub_abs]; ring

/-- Witness of C18 on the right node of the velocity jump, direction X. -/
theorem eigenvalue_splitting_witness :
    let c := Real.sqrt ((air : Model ℝ).gamma * 1 / 1)
    let l : Fin DIMU → ℝ := ![2 - c, 2, 2, 2, 2 + c]
    let Uo := splitUo Real.sqrt 0 0 1 (jumpGrid : Grid ℝ) ⟨1, 1⟩ air
    0 < c ∧ splitLambda X Uo = (fun r => fin (l r)) ∧
    (∀ r, lambdaPlus (splitLambda X Uo) r = fin (max (l r) 0) ∧
      lambdaMinus (splitLambda X Uo) r = fin (min (l r) 0) ∧
      max (l r) 0 = (l r + |l r|) / 2 ∧ min (l r) 0 = (l r - |l r|) / 2 ∧
      0 ≤ max (l r) 0 ∧ min (l r) 0 ≤ 0 ∧
      max (l r) 0 + min (l r) 0 = l r ∧ max (l r) 0 * min (l r) 0 = 0) ∧
    (FluxVectorSplitting Real.sqrt X 0 0 1 (jumpGrid : Grid ℝ) ⟨1, 1⟩ air).1
      = AssembleConvectiveFlux X (lambdaPlus (splitLambda X Uo)) Uo (fin (air : Model ℝ).gamma) ∧
    (FluxVectorSplitting Real.sqrt X 0 0 1 (jumpGrid : Grid ℝ) ⟨1, 1⟩ air).2
      = AssembleConvectiveFlux X (lambdaMinus (splitLambda X Uo)) Uo
          (fin (air : Model ℝ).gamma) :=
  eigenvalue_splitting X 0 0 1 jumpGrid ⟨1, 1⟩ air air_gamma 1 1 2 jumpGrid_right.1
    jumpGrid_right.2.1 jumpGrid_right.2.2 (by norm_num) (by norm_num)

/-- C20. Upwinding in supersonic flow: on a cell of density `rho > 0`, pressure `p > 0` and
velocity `v_n` along `s`, with `gamma > 1` and `c = sqrt(gamma * p / rho)`, if `v_n >= c` then
`Fminus = (0,0,0,0,0)` and `Fplus` is the raw convective flux of direction `s` on that cell,
and if `v_n <= -c` then `Fplus = (0,0,0,0,0)` and `Fminus` is that flux. -/
theorem supersonic_upwinding (s : Fin DIMS) (k j i : Int) (U : Grid ℝ) (space : Space)
    (model : Model ℝ) (hγ : 1 < model.gamma) (ρ p vn : ℝ)
    (h0 : U (IndexMath k j i space * DIMU) = fin ρ)
    (hm : U (IndexMath k j i space * DIMU + ((comp s : Fin DIMU) : Nat)) = fin (ρ * vn))
    (hp : ComputePressure (IndexMath k j i space * DIMU) U model = fin p)
    (hρ : 0 < ρ) (hpp : 0 < p) :
    (Real.sqrt (model.gamma * p / ρ) ≤ vn →
      (FluxVectorSplitting Real.sqrt s k j i U space model).2 = (fun _ => 0) ∧
      (FluxVectorSplitting Real.sqrt s k j i U space model).1
        = ConvectiveFlux s k j i U space model) ∧
    (vn ≤ -Real.sqrt (model.gamma * p / ρ) →
      (FluxVectorSplitting Real.sqrt s k j i U space model).1 = (fun _ => 0) ∧
      (FluxVectorSplitting Real.sqrt s k j i U space model).2
        = ConvectiveFlux s k j i U space model) := by
  obtain ⟨hA, hc, -, hl⟩ := splitLambda_cell s hγ h0 hm hp hρ hpp
  have hup := split_upwind s k j i U space model hγ hA hl
  constructor
  · intro hsup
    refine hup.1 (forall_fin5 ?_ ?_ ?_ ?_ ?_)
    · show 0 ≤ vn - Real.sqrt (model.gamma * p / ρ)
      linarith
    · show 0 ≤ vn
      linarith
    · show 0 ≤ vn
      linarith
    · show 0 ≤ vn
      linarith
    · show 0 ≤ vn + Real.sqrt (model.gamma * p / ρ)
      linarith
  · intro hsup
    refine hup.2 (forall_fin5 ?_ ?_ ?_ ?_ ?_)
    · show vn - Real.sqrt (model.gamma * p / ρ) ≤ 0
      linarith
    · show vn ≤ 0
      linarith
    · show vn ≤ 0
      linarith
    · show vn ≤ 0
      linarith
    · show vn + Real.sqrt (model.gamma * p / ρ) ≤ 0
      linarith

/-- Witness of C20: the right node of the velocity jump moves at `u = 2 >= sqrt(7/5)` along X,
so `Fminus` vanishes and `Fplus` is the raw flux. -/
theorem supersonic_upwinding_scenario :
    (FluxVectorSplitting Real.sqrt X 0 0 1 (jumpGrid : Grid ℝ) ⟨1, 1⟩ air).2 = (fun _ => 0) ∧
    (FluxVectorSplitting Real.sqrt X 0 0 1 (jumpGrid : Grid ℝ) ⟨1, 1⟩ air).1
      = ConvectiveFlux X 0 0 1 jumpGrid ⟨1, 1⟩ air :=
  (supersonic_upwinding X 0 0 1 jumpGrid ⟨1, 1⟩ air air_gamma 1 1 2 jumpGrid_right.1
    jumpGrid_right.2.1 jumpGrid_right.2.2 (by norm_num) (by norm_num)).1 air_sound_le

/-- C12. Each column of `R` is an eigenvector of the flux Jacobian: for every direction,
`gamma > 1` and admissible cell and neighbour, with `A` the matrix `fluxJacobian` at the
velocity and total enthalpy written by `ComputeRoeAverage`, `A R = R diag(lambda)` entry by
entry for the `R` and `lambda` written by the code, and no column of `R` vanishes. That `A` is
the Jacobian of the flux of `ConvectiveFlux` is part of the statement: on finite states of
nonzero density the raw flux is `eulerFlux`, and the derivative of `eulerFlux` along every
direction of state space is `A` applied to that direction. -/
theorem jacobian_eigenvectors (s : Fin DIMS) (k j i : Int) (U : Grid ℝ) (space : Space)
    (model : Model ℝ) (hγ : 1 < model.gamma)
    (hA : Admissible U (IndexMath k j i space * DIMU) model)
    (hAh : Admissible U (neighbour s k j i space) model) :
    (∃ u v w hT c : ℝ,
      ComputeRoeAverage Real.sqrt (fun _ => 0.0) (IndexMath k j i space * DIMU)
        (neighbour s k j i space) U model = ![0.0, fin u, fin v, fin w, fin hT, fin c] ∧
      0 < c ∧
      matMul (fun a b => fin (fluxJacobian s model.gamma u v w hT a b))
          (EigenvectorSpaceR Real.sqrt s k j i U space model)
        = (fun m n => (ComputeEigenvaluesAndEigenvectorSpaceL Real.sqrt s k j i U space model).1 n
            * EigenvectorSpaceR Real.sqrt s k j i U space model m n) ∧
      ∀ n, ∃ m x, EigenvectorSpaceR Real.sqrt s k j i U space model m n = fin x ∧ x ≠ 0) ∧
    (∀ q δ : Fin DIMU → ℝ, q 0 ≠ 0 → ∀ m,
      HasDerivAt (fun t : ℝ => eulerFlux s model.gamma (q + t • δ) m)
        ((fluxJacobian s model.gamma (q 1 / q 0) (q 2 / q 0) (q 3 / q 0)
          (enthalpyOf model.gamma q)).mulVec δ m) 0) ∧
    (∀ (k' j' i' : Int) (U' : Grid ℝ) (space' : Space) (q : Fin DIMU → ℝ),
      (∀ m : Fin DIMU, U' (IndexMath k' j' i' space' * DIMU + (m : Nat)) = fin (q m)) →
      q 0 ≠ 0 →
      ConvectiveFlux s k' j' i' U' space' model = fun m => fin (eulerFlux s model.gamma q m)) :=
  ⟨jacobian_eigen s k j i U space model hγ hA hAh,
   fun q δ hq m => eulerFlux_hasDerivAt s model.gamma q δ hq m,
   fun k' j' i' _ space' _ hq hρ => convectiveFlux_fin s k' j' i' space' model hq hρ⟩

/-- Witness of C12 on the velocity jump, direction X. -/
theorem jacobian_eigenvectors_witness :
    ∃ u v w hT c : ℝ,
      ComputeRoeAverage Real.sqrt (fun _ => 0.0) (IndexMath 0 0 0 ⟨1, 1⟩ * DIMU)
        (neighbour X 0 0 0 ⟨1, 1⟩) jumpGrid air = ![0.0, fin u, fin v, fin w, fin hT, fin c] ∧
      0 < c ∧
      matMul (fun a b => fin (fluxJacobian X (air : Model ℝ).gamma u v w hT a b))
          (EigenvectorSpaceR Real.sqrt X 0 0 0 jumpGrid ⟨1, 1⟩ air)
        = (fun m n => (ComputeEigenvaluesAndEigenvectorSpaceL Real.sqrt X 0 0 0 jumpGrid ⟨1, 1⟩
              air).1 n
            * EigenvectorSpaceR Real.sqrt X 0 0 0 jumpGrid ⟨1, 1⟩ air m n) ∧
      ∀ n, ∃ m x, EigenvectorSpaceR Real.sqrt X 0 0 0 jumpGrid ⟨1, 1⟩ air m n = fin x ∧ x ≠ 0 :=
  (jacobian_eigenvectors X 0 0 0 jumpGrid ⟨1, 1⟩ air air_gamma jumpGrid_cell
    (jumpGrid_neighbour X)).1

/-- C19. Roe linearisation: for every direction, `gamma > 1` and admissible cell and
neighbour, with `lambda` and `alpha` from `EigenvaluesAndDecompositionCoefficientAlpha` and `R`
from the right-eigenvector routine of the same node, the sum over `k = 0..4` of
`lambda[k] * alpha[k] * R[m][k]` equals `F(U_neighbour)[m] - F(U_cell)[m]` with `F` the raw
convective flux of that direction, and that jump is finite. -/
theorem roe_linearisation (s : Fin DIMS) (k j i : Int) (U : Grid ℝ) (space : Space)
    (model : Model ℝ) (hγ : 1 < model.gamma)
    (hA : Admissible U (IndexMath k j i space * DIMU) model)
    (hAh : Admissible U (neighbour s k j i space) model) :
    ∀ m : Fin DIMU,
      ((EigenvaluesAndDecompositionCoefficientAlpha Real.sqrt s k j i U space model).1 0
          * (EigenvaluesAndDecompositionCoefficientAlpha Real.sqrt s k j i U space model).2 0
          * EigenvectorSpaceR Real.sqrt s k j i U space model m 0
        + (EigenvaluesAndDecompositionCoefficientAlpha Real.sqrt s k j i U space model).1 1
          * (EigenvaluesAndDecompositionCoefficientAlpha Real.sqrt s k j i U space model).2 1
          * EigenvectorSpaceR Real.sqrt s k j i U space model m 1
        + (EigenvaluesAndDecompositionCoefficientAlpha Real.sqrt s k j i U space model).1 2
          * (EigenvaluesAndDecompositionCoefficientAlpha Real.sqrt s k j i U space model).2 2
          * EigenvectorSpaceR Real.sqrt s k j i U space model m 2
        + (EigenvaluesAndDecompositionCoefficientAlpha Real.sqrt s k j i U space model).1 3
          * (EigenvaluesAndDecompositionCoefficientAlpha Real.sqrt s k j i U space model).2 3
          * EigenvectorSpaceR Real.sqrt s k j i U space model m 3
        + (EigenvaluesAndDecompositionCoefficientAlpha Real.sqrt s k j i U space model).1 4
          * (EigenvaluesAndDecompositionCoefficientAlpha Real.sqrt s k j i U space model).2 4
          * EigenvectorSpaceR Real.sqrt s k j i U space model m 4
        = ConvectiveFlux s (k + h s Z) (j + h s Y) (i + h s X) U space model m
          - ConvectiveFlux s k j i U space model m) ∧
      ∃ x : ℝ, ConvectiveFlux s (k + h s Z) (j + h s Y) (i + h s X) U space model m
          - ConvectiveFlux s k j i U space model m = fin x := by
  obtain ⟨F, hF, hW⟩ := roe_flux_jump s k j i U space model hγ hA hAh
  intro m
  have h1 := congrFun hW m
  have h2 : ConvectiveFlux s (k + h s Z) (j + h s Y) (i + h s X) U space model m
      - ConvectiveFlux s k j i U space model m = fin (F m) := congrFun hF m
  refine ⟨?_, F m, h2⟩
  rw [h2, ← h1]
  simp only [matVec]
  rw [cmul_comm (EigenvectorSpaceR Real.sqrt s k j i U space model m 0),
    cmul_comm (EigenvectorSpaceR Real.sqrt s k j i U space model m 1),
    cmul_comm (EigenvectorSpaceR Real.sqrt s k j i U space model m 2),
    cmul_comm (EigenvectorSpaceR Real.sqrt s k j i U space model m 3),
    cmul_comm (EigenvectorSpaceR Real.sqrt s k j i U space model m 4)]

/-- Witness of C19: the momentum component of the waves on the velocity jump, direction X. -/
theorem roe_linearisation_witness :
    ((EigenvaluesAndDecompositionCoefficientAlpha Real.sqrt X 0 0 0 jumpGrid ⟨1, 1⟩ air).1 0
        * (EigenvaluesAndDecompositionCoefficientAlpha Real.sqrt X 0 0 0 jumpGrid ⟨1, 1⟩ air).2 0
        * EigenvectorSpaceR Real.sqrt X 0 0 0 jumpGrid ⟨1, 1⟩ air 1 0
      + (EigenvaluesAndDecompositionCoefficientAlpha Real.sqrt X 0 0 0 jumpGrid ⟨1, 1⟩ air).1 1
        * (EigenvaluesAndDecompositionCoefficientAlpha Real.sqrt X 0 0 0 jumpGrid ⟨1, 1⟩ air).2 1
        * EigenvectorSpaceR Real.sqrt X 0 0 0 jumpGrid ⟨1, 1⟩ air 1 1
      + (EigenvaluesAndDecompositionCoefficientAlpha Real.sqrt X 0 0 0 jumpGrid ⟨1, 1⟩ air).1 2
        * (EigenvaluesAndDecompositionCoefficientAlpha Real.sqrt X 0 0 0 jumpGrid ⟨1, 1⟩ air).2 2
        * EigenvectorSpaceR Real.sqrt X 0 0 0 jumpGrid ⟨1, 1⟩ air 1 2
      + (EigenvaluesAndDecompositionCoefficientAlpha Real.sqrt X 0 0 0 jumpGrid ⟨1, 1⟩ air).1 3
        * (EigenvaluesAndDecompositionCoefficientAlpha Real.sqrt X 0 0 0 jumpGrid ⟨1, 1⟩ air).2 3
        * EigenvectorSpaceR Real.sqrt X 0 0 0 jumpGrid ⟨1, 1⟩ air 1 3
      + (EigenvaluesAndDecompositionCoefficientAlpha Real.sqrt X 0 0 0 jumpGrid ⟨1, 1⟩ air).1 4
        * (EigenvaluesAndDecompositionCoefficientAlpha Real.sqrt X 0 0 0 jumpGrid ⟨1, 1⟩ air).2 4
        * EigenvectorSpaceR Real.sqrt X 0 0 0 jumpGrid ⟨1, 1⟩ air 1 4
      = ConvectiveFlux X (0 + h X Z) (0 + h X Y) (0 + h X X) jumpGrid ⟨1, 1⟩ air 1
        - ConvectiveFlux X 0 0 0 jumpGrid ⟨1, 1⟩ air 1) ∧
    ∃ x : ℝ, ConvectiveFlux X (0 + h X Z) (0 + h X Y) (0 + h X X) jumpGrid ⟨1, 1⟩ air 1
        - ConvectiveFlux X 0 0 0 jumpGrid ⟨1, 1⟩ air 1 = fin x :=
  roe_linearisation X 0 0 0 jumpGrid ⟨1, 1⟩ air air_gamma jumpGrid_cell (jumpGrid_neighbour X) 1

/-- C21. Consistency of the Roe average on a uniform state: for `gamma > 1`, if a node and its
neighbour in direction `s` hold the same admissible state, `ComputeRoeAverage` returns that
state's velocity `momentum / rho`, its total enthalpy `(U[idx+4] + p) / rho` and the sound
speed `sqrt(gamma * p / rho)`, a finite positive number; these are the velocity and the sound
speed in the buffer of `FluxVectorSplitting` for that cell, and the eigenvalue vector of the
left-eigenvector routine equals the one formed by `FluxVectorSplitting`. -/
theorem roe_uniform_consistency (s : Fin DIMS) (k j i : Int) (U : Grid ℝ) (space : Space)
    (model : Model ℝ) (Uo : Fin DIMUo → CReal ℝ) (hγ : 1 < model.gamma)
    (hA : Admissible U (IndexMath k j i space * DIMU) model)
    (heq : ∀ m : Fin DIMU, U (neighbour s k j i space + (m : Nat))
      = U (IndexMath k j i space * DIMU + (m : Nat))) :
    ComputeRoeAverage Real.sqrt Uo (IndexMath k j i space * DIMU) (neighbour s k j i space)
        U model
      = ![Uo 0,
          U (IndexMath k j i space * DIMU + 1) / U (IndexMath k j i space * DIMU),
          U (IndexMath k j i space * DIMU + 2) / U (IndexMath k j i space * DIMU),
          U (IndexMath k j i space * DIMU + 3) / U (IndexMath k j i space * DIMU),
          (U (IndexMath k j i space * DIMU + 4)
            + ComputePressure (IndexMath k j i space * DIMU) U model)
            / U (IndexMath k j i space * DIMU),
          CReal.sqrt Real.sqrt (fin model.gamma
            * ComputePressure (IndexMath k j i space * DIMU) U model
            / U (IndexMath k j i space * DIMU))] ∧
    (∃ c : ℝ, 0 < c ∧
      ComputeRoeAverage Real.sqrt Uo (IndexMath k j i space * DIMU) (neighbour s k j i space)
        U model 5 = fin c ∧
      splitUo Real.sqrt k j i U space model 5 = fin c) ∧
    (splitUo Real.sqrt k j i U space model 1
        = ComputeRoeAverage Real.sqrt Uo (IndexMath k j i space * DIMU)
          (neighbour s k j i space) U model 1 ∧
      splitUo Real.sqrt k j i U space model 2
        = ComputeRoeAverage Real.sqrt Uo (IndexMath k j i space * DIMU)
          (neighbour s k j i space) U model 2 ∧
      splitUo Real.sqrt k j i U space model 3
        = ComputeRoeAverage Real.sqrt Uo (IndexMath k j i space * DIMU)
          (neighbour s k j i space) U model 3) ∧
    (ComputeEigenvaluesAndEigenvectorSpaceL Real.sqrt s k j i U space model).1
      = splitLambda s (splitUo Real.sqrt k j i U space model) := by
  obtain ⟨ρ, u, v, w, e, hρ, hpp, e0, e1, e2, e3, e4, hp, hRoe⟩ := roe_uniform hγ hA heq
  have hρ0 : ρ ≠ 0 := hρ.ne'
  have hrad : 0 ≤ model.gamma * (ρ * (e - 1/2 * (u * u + v * v + w * w)) * (model.gamma - 1))
      / ρ := by
    have hg : 0 < model.gamma := by linarith
    positivity
  have hm : ∀ t : Fin DIMS, U (IndexMath k j i space * DIMU + ((comp t : Fin DIMU) : Nat))
      = fin (ρ * ![u, v, w] t) := forall_fin3 e1 e2 e3
  obtain ⟨-, hc, ⟨A', u', v', w', e', hUo⟩, hl⟩ := splitLambda_cell s hγ e0 (hm s) hp hρ hpp
  obtain ⟨hL, -⟩ := eigen_of_roe s (hRoe (fun _ => 0.0)) hc.ne'
  have r1 := (congrFun (hRoe Uo) 1).trans (vec6_1 _ _ _ _ _ _)
  have r2 := (congrFun (hRoe Uo) 2).trans (vec6_2 _ _ _ _ _ _)
  have r3 := (congrFun (hRoe Uo) 3).trans (vec6_3 _ _ _ _ _ _)
  have r5 := (congrFun (hRoe Uo) 5).trans (vec6_5 _ _ _ _ _ _)
  have s1 : splitUo Real.sqrt k j i U space model 1 = fin u := by
    show U (IndexMath k j i space * DIMU + 1) / U (IndexMath k j i space * DIMU) = fin u
    rw [e0, e1, div_fin_of_ne hρ0, mul_div_cancel_left₀ _ hρ0]
  have s2 : splitUo Real.sqrt k j i U space model 2 = fin v := by
    show U (IndexMath k j i space * DIMU + 2) / U (IndexMath k j i space * DIMU) = fin v
    rw [e0, e2, div_fin_of_ne hρ0, mul_div_cancel_left₀ _ hρ0]
  have s3 : splitUo Real.sqrt k j i U space model 3 = fin w := by
    show U (IndexMath k j i space * DIMU + 3) / U (IndexMath k j i space * DIMU) = fin w
    rw [e0, e3, div_fin_of_ne hρ0, mul_div_cancel_left₀ _ hρ0]
  refine ⟨?_, ⟨_, hc, r5, (congrFun hUo 5).trans (vec6_5 _ _ _ _ _ _)⟩,
    ⟨s1.trans r1.symm, s2.trans r2.symm, s3.trans r3.symm⟩, ?_⟩
  · rw [hRoe Uo, hp, e0, e1, e2, e3, e4]
    simp only [fin_mul, fin_add, div_fin_of_ne hρ0, mul_div_cancel_left₀ _ hρ0,
      sqrt_fin_of_nonneg _ hrad]
  · rw [hL, hl]
    rfl

/-- Witness of C21: both nodes hold `rho = 1, u = 1, p = 1` with `gamma = 7/5`, direction X. -/
theorem roe_uniform_consistency_witness :
    let U : Grid ℝ := pairGrid ![1, 1, 0, 0, 3] ![1, 1, 0, 0, 3]
    let cell := IndexMath 0 0 0 ⟨1, 1⟩ * DIMU
    let nbr := neighbour X 0 0 0 ⟨1, 1⟩
    ComputeRoeAverage Real.sqrt (fun _ => 0.0) cell nbr U air
      = ![(fun _ => (0.0 : CReal ℝ)) (0 : Fin DIMUo), U (cell + 1) / U cell,
          U (cell + 2) / U cell, U (cell + 3) / U cell,
          (U (cell + 4) + ComputePressure cell U air) / U cell,
          CReal.sqrt Real.sqrt (fin (air : Model ℝ).gamma * ComputePressure cell U air
            / U cell)] ∧
    (∃ c : ℝ, 0 < c ∧ ComputeRoeAverage Real.sqrt (fun _ => 0.0) cell nbr U air 5 = fin c ∧
      splitUo Real.sqrt 0 0 0 U ⟨1, 1⟩ air 5 = fin c) ∧
    (splitUo Real.sqrt 0 0 0 U ⟨1, 1⟩ air 1
        = ComputeRoeAverage Real.sqrt (fun _ => 0.0) cell nbr U air 1 ∧
      splitUo Real.sqrt 0 0 0 U ⟨1, 1⟩ air 2
        = ComputeRoeAverage Real.sqrt (fun _ => 0.0) cell nbr U air 2 ∧
      splitUo Real.sqrt 0 0 0 U ⟨1, 1⟩ air 3
        = ComputeRoeAverage Real.sqrt (fun _ => 0.0) cell nbr U air 3) ∧
    (ComputeEigenvaluesAndEigenvectorSpaceL Real.sqrt X 0 0 0 U ⟨1, 1⟩ air).1
      = splitLambda X (splitUo Real.sqrt 0 0 0 U ⟨1, 1⟩ air) :=
  roe_uniform_consistency X 0 0 0 (pairGrid ![1, 1, 0, 0, 3] ![1, 1, 0, 0, 3]) ⟨1, 1⟩ air
    (fun _ => 0.0) air_gamma
    (by rw [cell_unit]; exact pairGrid_admissible_left _ _ _ (by norm_num) (by norm_num [air]))
    (fun m => (pairGrid_nbr X _ _ m).trans (pairGrid_cell _ _ m).symm)

/-- C22. Frame of `ConservativeByPrimitive`: every entry of `U` at an index outside
`idx .. idx+4` keeps its previous value; the five entries `idx .. idx+4` receive `Uo[0]`,
`Uo[0] * Uo[1]`, `Uo[0] * Uo[2]`, `Uo[0] * Uo[3]` and
`0.5 * Uo[0] * (Uo[1]^2 + Uo[2]^2 + Uo[3]^2) + Uo[4] / (gamma - 1)`, so they are the same for
any other previous array, any other `Uo[5]`, and any model with the same `gamma`. -/
theorem conservativeByPrimitive_frame (U : Grid K) (idx : Int) (Uo : Fin DIMUo → CReal K)
    (model : Model K) :
    (∀ n : Int, n < idx ∨ idx + 4 < n → ConservativeByPrimitive U idx Uo model n = U n) ∧
    (ConservativeByPrimitive U idx Uo model idx = Uo 0 ∧
      ConservativeByPrimitive U idx Uo model (idx + 1) = Uo 0 * Uo 1 ∧
      ConservativeByPrimitive U idx Uo model (idx + 2) = Uo 0 * Uo 2 ∧
      ConservativeByPrimitive U idx Uo model (idx + 3) = Uo 0 * Uo 3 ∧
      ConservativeByPrimitive U idx Uo model (idx + 4)
        = 0.5 * Uo 0 * (Uo 1 * Uo 1 + Uo 2 * Uo 2 + Uo 3 * Uo 3)
          + Uo 4 / (fin model.gamma - 1.0)) ∧
    (∀ (U' : Grid K) (Uo' : Fin DIMUo → CReal K) (model' : Model K),
      (∀ m : Fin DIMUo, m ≠ 5 → Uo' m = Uo m) → model'.gamma = model.gamma →
      ∀ m : Fin DIMU, ConservativeByPrimitive U' idx Uo' model' (idx + (m : Nat))
        = ConservativeByPrimitive U idx Uo model (idx + (m : Nat))) := by
  refine ⟨conservative_frame U idx Uo model, conservative_written U idx Uo model, ?_⟩
  intro U' Uo' model' hUo hg
  obtain ⟨a0, a1, a2, a3, a4⟩ := conservative_written U idx Uo model
  obtain ⟨b0, b1, b2, b3, b4⟩ := conservative_written U' idx Uo' model'
  have c0 : Uo' 0 = Uo 0 := hUo 0 (by decide)
  have c1 : Uo' 1 = Uo 1 := hUo 1 (by decide)
  have c2 : Uo' 2 = Uo 2 := hUo 2 (by decide)
  have c3 : Uo' 3 = Uo 3 := hUo 3 (by decide)
  have c4 : Uo' 4 = Uo 4 := hUo 4 (by decide)
  refine forall_fin5 ?_ ?_ ?_ ?_ ?_
  · show ConservativeByPrimitive U' idx Uo' model' (idx + ((0 : Nat) : Int))
      = ConservativeByPrimitive U idx Uo model (idx + ((0 : Nat) : Int))
    rw [Nat.cast_zero, add_zero, a0, b0, c0]
  · show ConservativeByPrimitive U' idx Uo' model' (idx + 1)
      = ConservativeByPrimitive U idx Uo model (idx + 1)
    rw [a1, b1, c0, c1]
  · show ConservativeByPrimitive U' idx Uo' model' (idx + 2)
      = ConservativeByPrimitive U idx Uo model (idx + 2)
    rw [a2, b2, c0, c2]
  · show ConservativeByPrimitive U' idx Uo' model' (idx + 3)
      = ConservativeByPrimitive U idx Uo model (idx + 3)
    rw [a3, b3, c0, c3]
  · show ConservativeByPrimitive U' idx Uo' model' (idx + 4)
      = ConservativeByPrimitive U idx Uo model (idx + 4)
    rw [a4, b4, c0, c1, c2, c3, c4, hg]

/-- Witness of C22 on the two-node grid at rest: writing at offset 0 leaves entry 7 as it
was, and the value written at offset 0 does not depend on the previous array. -/
theorem conservativeByPrimitive_frame_witness :
    ConservativeByPrimitive (restGrid : Grid ℝ) 0 (fun _ => fin 2) air 7 = restGrid 7 ∧
    ConservativeByPrimitive (jumpGrid : Grid ℝ) 0 (fun _ => fin 2) air (0 + ((0 : Fin DIMU) : Nat))
      = ConservativeByPrimitive (restGrid : Grid ℝ) 0 (fun _ => fin 2) air
          (0 + ((0 : Fin DIMU) : Nat)) :=
  ⟨(conservativeByPrimitive_frame restGrid 0 (fun _ => fin 2) air).1 7 (by decide),
   (conservativeByPrimitive_frame restGrid 0 (fun _ => fin 2) air).2.2 jumpGrid (fun _ => fin 2)
     air (fun _ _ => rfl) rfl 0⟩

end ArtraCFD
